import Mathlib

/-!
terraform-provider-routeros: resource descriptors and the schema-driven CRUD engine.

A shallow embedding of the package `routeros`:

* the three property tables `resSchema` of `resource_interface_ethernet.go`,
  `resource_interface_wireless.go` and
  `resource_interface_wireless_security_profiles.go`, entry by entry, in source order
  (the `Description` texts are documentation and carry no behaviour; they are left out);
* the `schema.Resource` value each constructor returns;
* the acceptance test of `resource_interface_bonding_test.go`;
* the generic engine the tables are handed to (`DefaultCreate`, `DefaultRead`,
  `DefaultUpdate`, `DefaultDelete`), modelled from the specification, sections 3, 4, 6
  and 7; its Go code is not embedded.
-/

set_option autoImplicit false

namespace Routeros

/-! ## The host SDK's schema vocabulary, as far as the tables use it -/

/-- The value types of `schema.ValueType`. -/
inductive ValueType where
  | TypeInvalid
  | TypeBool
  | TypeInt
  | TypeFloat
  | TypeString
  | TypeList
  | TypeMap
  | TypeSet
  deriving DecidableEq, Repr

/-- The validators the tables build with package `validation`. -/
inductive Validator where
  /-- `validation.StringInSlice(valid, ignoreCase)` -/
  | StringInSlice (valid : List String) (ignoreCase : Bool)
  /-- `validation.IntBetween(min, max)` -/
  | IntBetween (min max : Int)
  /-- `validation.StringLenBetween(min, max)` -/
  | StringLenBetween (min max : Int)
  /-- `validation.IsMACAddress` -/
  | IsMACAddress
  deriving DecidableEq, Repr

/-- A scalar value of a property: what `TypeBool`, `TypeInt` and `TypeString` hold, and what
the elements of a list hold. -/
inductive Scalar where
  | bool (b : Bool)
  | int (i : Int)
  | str (s : String)
  deriving DecidableEq, Repr

/-- A typed property value. The tables nest nothing deeper than a list of scalars. -/
inductive Value where
  | bool (b : Bool)
  | int (i : Int)
  | str (s : String)
  | list (xs : List Scalar)
  deriving DecidableEq, Repr

/-- The element schema of a list, `Elem: &schema.Schema{Type: ..., ValidateFunc: ...}`.
The tables set no other field on an element schema. -/
structure ElemSchema where
  Typ : ValueType
  ValidateFunc : Option Validator := none
  deriving DecidableEq, Repr

/-- The fields of `schema.Schema` that occur in the tables (`Typ` is the field `Type`).
A field a literal leaves out has Go's zero value. -/
structure Schema where
  Typ : ValueType
  Optional : Bool := false
  Required : Bool := false
  Computed : Bool := false
  ForceNew : Bool := false
  Default : Option Value := none
  Elem : Option ElemSchema := none
  MinItems : Nat := 0
  ValidateFunc : Option Validator := none
  deriving DecidableEq, Repr

/-- A property table, `map[string]*schema.Schema`, kept as the list of the literal's
entries in source order. A key is looked up with `List.lookup`. -/
abbrev Table := List (String × Schema)

/-! ## Names and shared property descriptors of the package's schema helpers

The tables refer to constants (`MetaId`, `KeyName`, ...) and to shared descriptors
(`PropNameForceNewRw`, `PropRunningRo`, ...) that the package declares in its schema
helpers. Those declarations are not embedded here; each is modelled by what its name and
the specification say of it. A default or a validator a shared descriptor may carry is not
modelled. -/

/-- Modelled from the spec: the type `IdType` of the schema helpers, with the constants
`Id` and `Name`. `PropId(Name)` says which property carries the identity (spec section 3,
"reference to the identity property"): the device-assigned id or the name. -/
inductive IdType where
  | Id
  | Name
  deriving DecidableEq, Repr

/-- Modelled from the spec: the constant `MetaResourcePath` of the schema helpers, the
reserved key of the entry that holds the remote path (spec section 3,
`remotePathTemplate`). Its text is chosen so that it is no property name. -/
def MetaResourcePath : String := "___path___"

/-- Modelled from the spec: the constant `MetaId` of the schema helpers, the reserved key
of the entry that names the identity property (spec section 3). Its text is chosen so that
it is no property name. -/
def MetaId : String := "___id___"

/-- Modelled from the spec: the constant `KeyActualMtu` of the schema helpers; the property
is addressed as `actual_mtu`. -/
def KeyActualMtu : String := "actual_mtu"

/-- Modelled from the spec: the constant `KeyArp` of the schema helpers; the property is
addressed as `arp`. -/
def KeyArp : String := "arp"

/-- Modelled from the spec: the constant `KeyArpTimeout` of the schema helpers; the
property is addressed as `arp_timeout`. -/
def KeyArpTimeout : String := "arp_timeout"

/-- Modelled from the spec: the constant `KeyComment` of the schema helpers; the property
is addressed as `comment`. -/
def KeyComment : String := "comment"

/-- Modelled from the spec: the constant `KeyDisabled` of the schema helpers; the property
is addressed as `disabled`. -/
def KeyDisabled : String := "disabled"

/-- Modelled from the spec: the constant `KeyL2Mtu` of the schema helpers; the property is
addressed as `l2mtu`. -/
def KeyL2Mtu : String := "l2mtu"

/-- Modelled from the spec: the constant `KeyMtu` of the schema helpers; the property is
addressed as `mtu`. -/
def KeyMtu : String := "mtu"

/-- Modelled from the spec: the constant `KeyName` of the schema helpers; the property is
addressed as `name`, as the acceptance test does
(`TestCheckResourceAttr(..., "name", "bonding-test")`). -/
def KeyName : String := "name"

/-- Modelled from the spec: the constant `KeyRunning` of the schema helpers; the property
is addressed as `running`. -/
def KeyRunning : String := "running"

/-- Modelled from the spec: the function `PropResourcePath` of the schema helpers. The
entry it builds holds the remote path of the kind (spec section 3, `remotePathTemplate`)
as the default of an optional string. -/
def PropResourcePath (p : String) : Schema :=
  { Typ := .TypeString, Optional := true, Default := some (.str p) }

/-- The number an `IdType` constant stands for in the entry `PropId` builds. -/
def IdType.toInt : IdType → Int
  | .Id => 0
  | .Name => 1

/-- Modelled from the spec: the function `PropId` of the schema helpers. The entry it
builds records which property is the identity property (spec section 3) as the default of
an optional integer. -/
def PropId (t : IdType) : Schema :=
  { Typ := .TypeInt, Optional := true, Default := some (.int t.toInt) }

/-- Modelled from the spec: the shared descriptor `PropNameForceNewRw` of the schema
helpers. By its name it is the writable name whose change forces a new instance: spec
section 3, mutability `WriteOnceForceReplace`; the acceptance test sets it to a string. -/
def PropNameForceNewRw : Schema :=
  { Typ := .TypeString, Required := true, ForceNew := true }

/-- Modelled from the spec: the shared descriptor `PropArpRw` of the schema helpers. By its
name it is a writable (`ReadWrite`) property. -/
def PropArpRw : Schema :=
  { Typ := .TypeString, Optional := true }

/-- Modelled from the spec: the shared descriptor `PropArpTimeoutRw` of the schema helpers.
By its name it is a writable (`ReadWrite`) property. -/
def PropArpTimeoutRw : Schema :=
  { Typ := .TypeString, Optional := true }

/-- Modelled from the spec: the shared descriptor `PropCommentRw` of the schema helpers. By
its name it is a writable (`ReadWrite`) property. -/
def PropCommentRw : Schema :=
  { Typ := .TypeString, Optional := true }

/-- Modelled from the spec: the shared descriptor `PropDisabledRw` of the schema helpers.
By its name it is a writable (`ReadWrite`) property. -/
def PropDisabledRw : Schema :=
  { Typ := .TypeBool, Optional := true }

/-- Modelled from the spec: the function `PropMtuRw` of the schema helpers. By its name it
builds a writable (`ReadWrite`) property. -/
def PropMtuRw : Schema :=
  { Typ := .TypeInt, Optional := true }

/-- Modelled from the spec: the shared descriptor `PropRunningRo` of the schema helpers. By
its name it is a computed-only (`ReadOnly`) property. -/
def PropRunningRo : Schema :=
  { Typ := .TypeBool, Computed := true }

/-- Modelled from the spec: the shared descriptor `PropActualMtuRo` of the schema helpers.
By its name it is a computed-only (`ReadOnly`) property. -/
def PropActualMtuRo : Schema :=
  { Typ := .TypeInt, Computed := true }

/-! ## The three property tables -/

/-- The table `resSchema` of `ResourceInterfaceEthernet`
(`resource_interface_ethernet.go`, lines 10 to 160). -/
def ResourceInterfaceEthernet.resSchema : Table := [
  (MetaResourcePath, PropResourcePath "/interface/ethernet"),
  (MetaId, PropId .Name),
  ("advertise",
    { Typ := .TypeString, Optional := true,
      ValidateFunc := some (.StringInSlice
        ["10M-full", "10M-half", "100M-full", "100M-half", "1000M-full", "1000M-half",
         "2500M-full", "5000M-full", "10000M-full"] false) }),
  (KeyArp, PropArpRw),
  ("auto_negotiation",
    { Typ := .TypeBool, Optional := true }),
  ("bandwidth",
    { Typ := .TypeString, Optional := true }),
  ("cable_settings",
    { Typ := .TypeString, Optional := true,
      ValidateFunc := some (.StringInSlice ["default", "short", "standard"] false) }),
  ("combo_mode",
    { Typ := .TypeString, Optional := true,
      ValidateFunc := some (.StringInSlice ["auto", "copper", "sfp"] false) }),
  (KeyComment, PropCommentRw),
  ("diable_running_check",
    { Typ := .TypeBool, Optional := true }),
  ("tx_flow_control",
    { Typ := .TypeString, Optional := true,
      ValidateFunc := some (.StringInSlice ["on", "off", "auto"] false) }),
  ("rx_flow_control",
    { Typ := .TypeString, Optional := true,
      ValidateFunc := some (.StringInSlice ["on", "off", "auto"] false) }),
  ("full_duplex",
    { Typ := .TypeBool, Optional := true }),
  (KeyL2Mtu,
    { Typ := .TypeInt, Optional := true, ValidateFunc := some (.IntBetween 0 65535) }),
  ("mac_address",
    { Typ := .TypeString, Optional := true, ValidateFunc := some (.IsMACAddress) }),
  ("master_port",
    { Typ := .TypeString, Optional := true }),
  ("mdix_enable",
    { Typ := .TypeBool, Optional := true }),
  ("mtu",
    { Typ := .TypeInt, Optional := true, ValidateFunc := some (.IntBetween 0 65535) }),
  (KeyName, PropNameForceNewRw),
  ("poe_out",
    { Typ := .TypeString, Optional := true,
      ValidateFunc := some (.StringInSlice ["auto-on", "forced-on", "off"] false) }),
  ("poe_priority",
    { Typ := .TypeInt, Optional := true, ValidateFunc := some (.IntBetween 0 99) }),
  ("sfp_shutdown-temperature",
    { Typ := .TypeInt, Optional := true }),
  ("speed",
    { Typ := .TypeString, Optional := true,
      ValidateFunc := some (.StringInSlice
        ["10Mbps", "10Gbps", "100Mbps", "1Gbps"] false) }),
  ("orig_mac_address",
    { Typ := .TypeString, Computed := true }),
  (KeyRunning, PropRunningRo),
  ("slave",
    { Typ := .TypeBool, Computed := true }),
  ("switch",
    { Typ := .TypeInt, Computed := true })
]

/-- The table `resSchema` of `ResourceInterfaceWireless`
(`resource_interface_wireless.go`, lines 10 to 674). -/
def ResourceInterfaceWireless.resSchema : Table := [
  (MetaResourcePath, PropResourcePath "/interface/wireless"),
  (MetaId, PropId .Name),
  (KeyActualMtu, PropActualMtuRo),
  ("adaptive_noise_immunity",
    { Typ := .TypeString, Optional := true,
      ValidateFunc := some (.StringInSlice
        ["ap-and-client-mode", "client-mode", "none"] false) }),
  ("allow_sharedkey",
    { Typ := .TypeString, Optional := true, ValidateFunc := some (.StringInSlice ["yes", "no"] false) }),
  ("ampdu_priorities",
    { Typ := .TypeList, Optional := true,
      Elem := some { Typ := .TypeInt, ValidateFunc := some (.IntBetween 0 7) } }),
  ("amsdu_limit",
    { Typ := .TypeInt, Optional := true, ValidateFunc := some (.IntBetween 0 8192) }),
  ("amsdu_threshold",
    { Typ := .TypeInt, Optional := true, ValidateFunc := some (.IntBetween 0 8192) }),
  ("antenna_gain",
    { Typ := .TypeString, Optional := true }),
  ("antenna_mode",
    { Typ := .TypeString, Optional := true,
      ValidateFunc := some (.StringInSlice
        ["ant-a", "ant-b", "rxa-txb", "txa-rxb"] false) }),
  ("area",
    { Typ := .TypeString, Optional := true }),
  (KeyArp, PropArpRw),
  (KeyArpTimeout, PropArpTimeoutRw),
  ("band",
    { Typ := .TypeString, Optional := true,
      ValidateFunc := some (.StringInSlice
        ["2ghz-b", "2ghz-b/g", "2ghz-b/g/n", "2ghz-onlyg", "2ghz-onlyn", "5ghz-a",
         "5ghz-a/n", "5ghz-onlyn", "5ghz-a/n/ac", "5ghz-onlyac", "5ghz-n/ac"] false) }),
  ("basic_rates_a_g",
    { Typ := .TypeString, Optional := true,
      ValidateFunc := some (.StringInSlice
        ["12Mbps", "18Mbps", "24Mbps", "36Mbps", "48Mbps", "54Mbps", "6Mbps", "9Mbps"] false) }),
  ("basic_rates_b",
    { Typ := .TypeString, Optional := true,
      ValidateFunc := some (.StringInSlice
        ["11Mbps", "1Mbps", "2Mbps", "5.5Mbps"] false) }),
  ("bridge_mode",
    { Typ := .TypeString, Optional := true, Default := some (.str "enabled"),
      ValidateFunc := some (.StringInSlice ["disabled", "enabled"] false) }),
  ("channel_width",
    { Typ := .TypeString, Optional := true,
      ValidateFunc := some (.StringInSlice
        ["20mhz", "10mhz", "5mhz", "40mhz-turbo", "20/40mhz-Ce", "20/40mhz-eC",
         "20/40mhz-XX", "20/40/80mhz-Ceee", "20/40/80mhz-eCee", "20/40/80mhz-eeCe",
         "20/40/80mhz-eeeC", "20/40/80mhz-XXXX", "20/40/80/160mhz-Ceeeeeee",
         "20/40/80/160mhz-XXXXXXXX", "20/40/80/160mhz-eCeeeeee", "20/40/80/160mhz-eeCeeeee",
         "20/40/80/160mhz-eeeCeeee", "20/40/80/160mhz-eeeeCeee", "20/40/80/160mhz-eeeeeCee",
         "20/40/80/160mhz-eeeeeeCe", "20/40/80/160mhz-eeeeeeeC"] false) }),
  (KeyComment, PropCommentRw),
  ("compression",
    { Typ := .TypeString, Optional := true, ValidateFunc := some (.StringInSlice ["yes", "no"] false) }),
  ("country",
    { Typ := .TypeString, Required := true }),
  ("default_ap_tx_limit",
    { Typ := .TypeInt, Optional := true }),
  ("default_authentication",
    { Typ := .TypeString, Optional := true, Computed := true,
      ValidateFunc := some (.StringInSlice ["yes", "no"] false) }),
  ("default_client_tx_limit",
    { Typ := .TypeString, Optional := true, Computed := true }),
  ("default_forwarding",
    { Typ := .TypeString, Optional := true, Computed := true,
      ValidateFunc := some (.StringInSlice ["yes", "no"] false) }),
  ("disable_running_check",
    { Typ := .TypeString, Optional := true, Computed := true,
      ValidateFunc := some (.StringInSlice ["yes", "no"] false) }),
  (KeyDisabled, PropDisabledRw),
  ("disconnect_timeout",
    { Typ := .TypeString, Optional := true }),
  ("distance",
    { Typ := .TypeString, Optional := true }),
  ("frame_lifetime",
    { Typ := .TypeString, Optional := true }),
  ("frequency",
    { Typ := .TypeString, Optional := true }),
  ("frequency_mode",
    { Typ := .TypeString, Optional := true,
      ValidateFunc := some (.StringInSlice
        ["regulatory-domain", "manual-txpower", "superchannel"] false) }),
  ("frequency_offset",
    { Typ := .TypeInt, Optional := true, ValidateFunc := some (.IntBetween (-2147483648) 2147483647) }),
  ("guard_interval",
    { Typ := .TypeString, Optional := true,
      ValidateFunc := some (.StringInSlice ["any", "long"] false) }),
  ("hide_ssid",
    { Typ := .TypeString, Optional := true, Computed := true,
      ValidateFunc := some (.StringInSlice ["no", "yes"] false) }),
  ("hw_fragmentation_threshold",
    { Typ := .TypeInt, Optional := true, ValidateFunc := some (.IntBetween 256 3000) }),
  ("hw_protection_mode",
    { Typ := .TypeString, Optional := true,
      ValidateFunc := some (.StringInSlice ["cts-to-self", "none", "rts-cts"] false) }),
  ("hw_protection_threshold",
    { Typ := .TypeInt, Optional := true, ValidateFunc := some (.IntBetween 0 65535) }),
  ("hw_retries",
    { Typ := .TypeInt, Optional := true, ValidateFunc := some (.IntBetween 0 15) }),
  ("installation",
    { Typ := .TypeString, Optional := true,
      ValidateFunc := some (.StringInSlice ["any", "indoor", "outdoor"] false) }),
  ("interworking_profile",
    { Typ := .TypeString, Optional := true, Computed := true,
      ValidateFunc := some (.StringInSlice ["enabled", "disabled"] false) }),
  ("keepalive_frames",
    { Typ := .TypeString, Optional := true, Computed := true,
      ValidateFunc := some (.StringInSlice ["enabled", "disabled"] false) }),
  ("l2mtu",
    { Typ := .TypeInt, Optional := true, Computed := true, ValidateFunc := some (.IntBetween 0 65536) }),
  ("mac_address",
    { Typ := .TypeString, Optional := true, Computed := true, ValidateFunc := some (.IsMACAddress) }),
  ("master_interface",
    { Typ := .TypeString, Optional := true, Computed := true }),
  ("max_station_count",
    { Typ := .TypeInt, Optional := true, Computed := true, ValidateFunc := some (.IntBetween 1 2007) }),
  ("mode",
    { Typ := .TypeString, Optional := true, Computed := true,
      ValidateFunc := some (.StringInSlice
        ["station", "station-wds", "ap-bridge", "bridge", "alignment-only",
         "nstreme-dual-slave", "wds-slave", "station-pseudobridge",
         "station-pseudobridge-clone", "station-bridge"] false) }),
  (KeyMtu, PropMtuRw),
  ("multicast_buffering",
    { Typ := .TypeString, Optional := true, Computed := true,
      ValidateFunc := some (.StringInSlice ["enabled", "disabled"] false) }),
  ("multicast_helper",
    { Typ := .TypeString, Optional := true, Computed := true,
      ValidateFunc := some (.StringInSlice ["default", "disabled", "full"] false) }),
  (KeyName, PropNameForceNewRw),
  ("noise_floor_threshold",
    { Typ := .TypeInt, Optional := true, ValidateFunc := some (.IntBetween (-128) 127) }),
  ("nv2_cell_radius",
    { Typ := .TypeInt, Optional := true, ValidateFunc := some (.IntBetween 10 200) }),
  ("nv2_noise_floor_offset",
    { Typ := .TypeInt, Optional := true, ValidateFunc := some (.IntBetween 0 20) }),
  ("nv2_preshared_key",
    { Typ := .TypeInt, Optional := true }),
  ("nv2_qos",
    { Typ := .TypeString, Optional := true,
      ValidateFunc := some (.StringInSlice ["default", "frame-priority"] false) }),
  ("nv2_queue_count",
    { Typ := .TypeInt, Optional := true, ValidateFunc := some (.IntBetween 2 8) }),
  ("nv2_security",
    { Typ := .TypeString, Optional := true,
      ValidateFunc := some (.StringInSlice ["disabled", "enabled"] false) }),
  ("on_fail_retry_time",
    { Typ := .TypeString, Optional := true }),
  ("periodic_calibration",
    { Typ := .TypeString, Optional := true,
      ValidateFunc := some (.StringInSlice ["default", "disabled", "enabled"] false) }),
  ("periodic_calibration_interval",
    { Typ := .TypeInt, Optional := true, ValidateFunc := some (.IntBetween 1 10000) }),
  ("preamble_mode",
    { Typ := .TypeString, Optional := true,
      ValidateFunc := some (.StringInSlice ["both", "long", "short"] false) }),
  ("prism_cardtype",
    { Typ := .TypeString, Optional := true,
      ValidateFunc := some (.StringInSlice ["100mW", "200mW", "30mW"] false) }),
  ("proprietary_extensions",
    { Typ := .TypeString, Optional := true,
      ValidateFunc := some (.StringInSlice ["post-2.9.25", "post-2.9.25"] false) }),
  ("radio_name",
    { Typ := .TypeString, Optional := true, Computed := true }),
  ("rate_selection",
    { Typ := .TypeString, Optional := true,
      ValidateFunc := some (.StringInSlice ["advanced", "legacy"] false) }),
  ("rate_set",
    { Typ := .TypeString, Optional := true,
      ValidateFunc := some (.StringInSlice ["configured", "default"] false) }),
  ("rx_chains",
    { Typ := .TypeInt, Optional := true, ValidateFunc := some (.IntBetween 0 3) }),
  ("scan_list",
    { Typ := .TypeString, Optional := true }),
  ("security_profile",
    { Typ := .TypeString, Optional := true }),
  ("secondary_channel",
    { Typ := .TypeString, Optional := true }),
  ("ssid",
    { Typ := .TypeString, Optional := true, ValidateFunc := some (.StringLenBetween 0 32) }),
  ("skip_dfs_channels",
    { Typ := .TypeString, Optional := true,
      ValidateFunc := some (.StringInSlice ["disabled", "all", "10min-cac"] false) }),
  ("station_bridge_clone_mac",
    { Typ := .TypeString, Optional := true, Computed := true, ValidateFunc := some (.IsMACAddress) }),
  ("station_roaming",
    { Typ := .TypeString, Optional := true, Computed := true,
      ValidateFunc := some (.StringInSlice ["disabled", "enabled"] false) }),
  ("supported_rates_a_g",
    { Typ := .TypeList, Optional := true,
      Elem := some { Typ := .TypeString, ValidateFunc := some (.StringInSlice
        ["6Mbps", "9Mbps", "12Mbps", "18Mbps", "24Mbps", "36Mbps", "48Mbps", "54Mbps"] false) } }),
  ("supported_rates_b",
    { Typ := .TypeList, Optional := true,
      Elem := some { Typ := .TypeString, ValidateFunc := some (.StringInSlice
        ["11Mbps", "1Mbps", "2Mbps", "5.5Mbps"] false) } }),
  ("tdma_period_size",
    { Typ := .TypeInt, Optional := true, ValidateFunc := some (.IntBetween 1 10) }),
  ("tx_chains",
    { Typ := .TypeInt, Optional := true, ValidateFunc := some (.IntBetween 0 3) }),
  ("tx_power",
    { Typ := .TypeInt, Optional := true, ValidateFunc := some (.IntBetween (-30) 40) }),
  ("tx_power_mode",
    { Typ := .TypeString, Optional := true,
      ValidateFunc := some (.StringInSlice
        ["default", "card-rates", "all-rates-fixed", "manual-table"] false) }),
  ("vht_basic_mcs",
    { Typ := .TypeString, Optional := true,
      ValidateFunc := some (.StringInSlice
        ["none", "MCS 0-7", "MCS 0-8", "MCS 0-9"] false) }),
  ("vht_supported_mcs",
    { Typ := .TypeString, Optional := true,
      ValidateFunc := some (.StringInSlice
        ["none", "MCS 0-7", "MCS 0-8", "MCS 0-9"] false) }),
  ("wds_default_bridge",
    { Typ := .TypeString, Optional := true, Computed := true }),
  ("wds_default_cost",
    { Typ := .TypeString, Optional := true, Computed := true }),
  ("wds_ignore_ssid",
    { Typ := .TypeString, Optional := true, Computed := true,
      ValidateFunc := some (.StringInSlice ["yes", "no"] false) }),
  ("wds_mode",
    { Typ := .TypeString, Optional := true, Computed := true,
      ValidateFunc := some (.StringInSlice
        ["disabled", "dynamic", "dynamic-mesh", "static", "static-mesh"] false) }),
  ("wireless_protocol",
    { Typ := .TypeString, Optional := true,
      ValidateFunc := some (.StringInSlice
        ["802.11", "any", "nstreme", "nv2", "nv2-nstreme", "nv2-nstreme-802.11",
         "unspecified"] false) }),
  ("wmm_support",
    { Typ := .TypeString, Optional := true, Computed := true,
      ValidateFunc := some (.StringInSlice ["disabled", "enabled", "required"] false) }),
  ("wps_mode",
    { Typ := .TypeString, Optional := true, Computed := true,
      ValidateFunc := some (.StringInSlice
        ["disabled", "push-button", "push-button-virtual-only"] false) }),
  ("interface_type",
    { Typ := .TypeString, Computed := true }),
  ("update_stats_interval",
    { Typ := .TypeString, Computed := true }),
  ("wds_cost_range",
    { Typ := .TypeString, Computed := true }),
  ("vlan_mode",
    { Typ := .TypeString, Computed := true }),
  ("running",
    { Typ := .TypeBool, Computed := true }),
  ("vlan_id",
    { Typ := .TypeInt, Computed := true })
]

/-- The table `resSchema` of `ResourceInterfaceWirelessSecurityProfiles`
(`resource_interface_wireless_security_profiles.go`, lines 10 to 312). -/
def ResourceInterfaceWirelessSecurityProfiles.resSchema : Table := [
  (MetaResourcePath, PropResourcePath "/interface/wireless/security-profiles"),
  (MetaId, PropId .Name),
  ("mode",
    { Typ := .TypeString, Required := true,
      ValidateFunc := some (.StringInSlice
        ["none", "static-keys-optional", "static-keys-required", "dynamic-keys"] false) }),
  (KeyName, PropNameForceNewRw),
  ("default",
    { Typ := .TypeString, Computed := true }),
  ("authentication_types",
    { Typ := .TypeList, Required := true,
      Elem := some { Typ := .TypeString, ValidateFunc := some (.StringInSlice
        ["wpa-psk", "wpa2-psk", "wpa-eap", "wpa2-eap"] false) },
      MinItems := 1 }),
  ("disable_pmkid",
    { Typ := .TypeBool, Optional := true }),
  ("unicast_ciphers",
    { Typ := .TypeList, Optional := true, Computed := true,
      Elem := some { Typ := .TypeString, ValidateFunc := some (.StringInSlice ["tkip", "aes-ccm"] false) } }),
  ("group_ciphers",
    { Typ := .TypeList, Optional := true, Computed := true,
      Elem := some { Typ := .TypeString, ValidateFunc := some (.StringInSlice ["tkip", "aes-ccm"] false) } }),
  ("group_key_update",
    { Typ := .TypeString, Optional := true, Default := some (.str "5m") }),
  ("wpa_pre_shared_key",
    { Typ := .TypeString, Optional := true }),
  ("wpa2_pre_shared_key",
    { Typ := .TypeString, Optional := true }),
  ("eap_methods",
    { Typ := .TypeList, Optional := true, Computed := true,
      Elem := some { Typ := .TypeString, ValidateFunc := some (.StringInSlice
        ["eap-tls", "eap-ttls-mschapv2", "passthrough", "peap"] false) } }),
  ("supplicant_identity",
    { Typ := .TypeString, Optional := true, Computed := true }),
  ("mschapv2_username",
    { Typ := .TypeString, Optional := true }),
  ("mschapv2_password",
    { Typ := .TypeString, Optional := true }),
  ("tls_mode",
    { Typ := .TypeString, Optional := true, Computed := true,
      ValidateFunc := some (.StringInSlice
        ["verify-certificate", "dont-verify-certificate", "no-certificates",
         "verify-certificate-with-crl"] false) }),
  ("tls_certificate",
    { Typ := .TypeString, Optional := true, Computed := true }),
  ("management_protection",
    { Typ := .TypeBool, Optional := true }),
  ("management_protection_key",
    { Typ := .TypeString, Optional := true }),
  ("radius_mac_authentication",
    { Typ := .TypeBool, Optional := true }),
  ("radius_mac_accounting",
    { Typ := .TypeBool, Optional := true }),
  ("radius_eap_accounting",
    { Typ := .TypeBool, Optional := true }),
  ("radius_called_format",
    { Typ := .TypeString, Optional := true, Computed := true }),
  ("interim_update",
    { Typ := .TypeString, Optional := true, Computed := true }),
  ("radius_mac_format",
    { Typ := .TypeString, Optional := true, Computed := true,
      ValidateFunc := some (.StringInSlice
        ["XX:XX:XX:XX:XX:XX", "XXXX:XXXX:XXXX", "XXXXXX:XXXXXX", "XX-XX-XX-XX-XX-XX",
         "XXXXXX-XXXXXX", "XXXXXXXXXXXX", "XX XX XX XX XX XX"] false) }),
  ("radius_mac_mode",
    { Typ := .TypeString, Optional := true, Computed := true,
      ValidateFunc := some (.StringInSlice
        ["as-username", "as-username-and-password"] false) }),
  ("radius_mac_caching",
    { Typ := .TypeString, Optional := true, Computed := true }),
  ("static_key_0",
    { Typ := .TypeString, Optional := true }),
  ("static_key_1",
    { Typ := .TypeString, Optional := true }),
  ("static_key_2",
    { Typ := .TypeString, Optional := true }),
  ("static_key_3",
    { Typ := .TypeString, Optional := true }),
  ("static_algo_0",
    { Typ := .TypeString, Optional := true, Computed := true,
      ValidateFunc := some (.StringInSlice
        ["none", "40bit-wep", "104bit-wep", "tkip", "aes-ccm"] false) }),
  ("static_algo_1",
    { Typ := .TypeString, Optional := true, Computed := true,
      ValidateFunc := some (.StringInSlice
        ["none", "40bit-wep", "104bit-wep", "tkip", "aes-ccm"] false) }),
  ("static_algo_2",
    { Typ := .TypeString, Optional := true, Computed := true,
      ValidateFunc := some (.StringInSlice
        ["none", "40bit-wep", "104bit-wep", "tkip", "aes-ccm"] false) }),
  ("static_algo_3",
    { Typ := .TypeString, Optional := true, Computed := true,
      ValidateFunc := some (.StringInSlice
        ["none", "40bit-wep", "104bit-wep", "tkip", "aes-ccm"] false) }),
  ("static_transmit_key",
    { Typ := .TypeString, Optional := true, Computed := true,
      ValidateFunc := some (.StringInSlice ["key-0", "key-1", "key-2", "key-3"] false) }),
  ("static_sta_private_key",
    { Typ := .TypeString, Optional := true }),
  ("static_sta_private_algo",
    { Typ := .TypeString, Optional := true, Computed := true,
      ValidateFunc := some (.StringInSlice
        ["none", "40bit-wep", "104bit-wep", "tkip", "aes-ccm"] false) })
]

/-! ### How the entries of the tables are written -/

/-- The keys of the ethernet table that are written as a `Meta*` or `Key*` constant; every
other key of the table is a string literal. -/
def ResourceInterfaceEthernet.constantKeys : List String :=
  [MetaResourcePath, MetaId, KeyArp, KeyComment, KeyL2Mtu, KeyName, KeyRunning]

/-- The keys of the ethernet table whose descriptor is a shared one of the schema helpers
(`PropResourcePath(...)`, `PropId(...)`, `Prop...Rw`, `Prop...Ro`); every other descriptor
is written out in the table. -/
def ResourceInterfaceEthernet.sharedKeys : List String :=
  [MetaResourcePath, MetaId, KeyArp, KeyComment, KeyName, KeyRunning]

/-- The keys of the wireless table that are written as a `Meta*` or `Key*` constant. -/
def ResourceInterfaceWireless.constantKeys : List String :=
  [MetaResourcePath, MetaId, KeyActualMtu, KeyArp, KeyArpTimeout, KeyComment, KeyDisabled,
   KeyMtu, KeyName]

/-- The keys of the wireless table whose descriptor is a shared one of the schema
helpers. -/
def ResourceInterfaceWireless.sharedKeys : List String :=
  [MetaResourcePath, MetaId, KeyActualMtu, KeyArp, KeyArpTimeout, KeyComment, KeyDisabled,
   KeyMtu, KeyName]

/-- The keys of the security-profile table that are written as a `Meta*` or `Key*`
constant. -/
def ResourceInterfaceWirelessSecurityProfiles.constantKeys : List String :=
  [MetaResourcePath, MetaId, KeyName]

/-- The keys of the security-profile table whose descriptor is a shared one of the schema
helpers. -/
def ResourceInterfaceWirelessSecurityProfiles.sharedKeys : List String :=
  [MetaResourcePath, MetaId, KeyName]

/-- The entries of a table whose descriptor is written out in the table, given the keys
whose descriptor is a shared one. -/
def declaredLiterally (t : Table) (shared : List String) : Table :=
  t.filter fun e => !shared.contains e.1

/-- The entries of the three tables whose descriptor is written out in the table. -/
def literalEntries : List (String × Schema) :=
  declaredLiterally ResourceInterfaceEthernet.resSchema ResourceInterfaceEthernet.sharedKeys ++
  declaredLiterally ResourceInterfaceWireless.resSchema ResourceInterfaceWireless.sharedKeys ++
  declaredLiterally ResourceInterfaceWirelessSecurityProfiles.resSchema
    ResourceInterfaceWirelessSecurityProfiles.sharedKeys

/-! ## The resources the three constructors return -/

/-- The handlers a `schema.Resource` of this package is given: each is one of the four
generic engine entry points, applied to a property table. -/
inductive CrudHandler where
  | DefaultCreate (s : Table)
  | DefaultRead (s : Table)
  | DefaultUpdate (s : Table)
  | DefaultDelete (s : Table)
  deriving DecidableEq, Repr

/-- The importer functions in use: only the SDK's pass-through. -/
inductive StateContextFunc where
  | ImportStatePassthroughContext
  deriving DecidableEq, Repr

/-- The literal `&schema.ResourceImporter{StateContext: ...}`. -/
structure ResourceImporter where
  StateContext : StateContextFunc
  deriving DecidableEq, Repr

/-- The fields of `schema.Resource` the constructors set. -/
structure Resource where
  CreateContext : CrudHandler
  ReadContext : CrudHandler
  UpdateContext : CrudHandler
  DeleteContext : CrudHandler
  Importer : ResourceImporter
  Schema : Table
  deriving DecidableEq, Repr

/-- The value `ResourceInterfaceEthernet()` returns
(`resource_interface_ethernet.go`, lines 162 to 173). -/
def ResourceInterfaceEthernet : Resource :=
  { CreateContext := .DefaultCreate ResourceInterfaceEthernet.resSchema
    ReadContext := .DefaultRead ResourceInterfaceEthernet.resSchema
    UpdateContext := .DefaultUpdate ResourceInterfaceEthernet.resSchema
    DeleteContext := .DefaultDelete ResourceInterfaceEthernet.resSchema
    Importer := { StateContext := .ImportStatePassthroughContext }
    Schema := ResourceInterfaceEthernet.resSchema }

/-- The value `ResourceInterfaceWireless()` returns
(`resource_interface_wireless.go`, lines 676 to 687). -/
def ResourceInterfaceWireless : Resource :=
  { CreateContext := .DefaultCreate ResourceInterfaceWireless.resSchema
    ReadContext := .DefaultRead ResourceInterfaceWireless.resSchema
    UpdateContext := .DefaultUpdate ResourceInterfaceWireless.resSchema
    DeleteContext := .DefaultDelete ResourceInterfaceWireless.resSchema
    Importer := { StateContext := .ImportStatePassthroughContext }
    Schema := ResourceInterfaceWireless.resSchema }

/-- The value `ResourceInterfaceWirelessSecurityProfiles()` returns
(`resource_interface_wireless_security_profiles.go`, lines 314 to 325). -/
def ResourceInterfaceWirelessSecurityProfiles : Resource :=
  { CreateContext := .DefaultCreate ResourceInterfaceWirelessSecurityProfiles.resSchema
    ReadContext := .DefaultRead ResourceInterfaceWirelessSecurityProfiles.resSchema
    UpdateContext := .DefaultUpdate ResourceInterfaceWirelessSecurityProfiles.resSchema
    DeleteContext := .DefaultDelete ResourceInterfaceWirelessSecurityProfiles.resSchema
    Importer := { StateContext := .ImportStatePassthroughContext }
    Schema := ResourceInterfaceWirelessSecurityProfiles.resSchema }

/-- The resource kinds whose constructors are embedded above. -/
def resourceKinds : List Resource :=
  [ResourceInterfaceEthernet, ResourceInterfaceWireless, ResourceInterfaceWirelessSecurityProfiles]

/-! ## The validators of package `validation` -/

/-- The comparison `strings.EqualFold`, by the simple lower-case folding of each
character. -/
def equalFold (a b : String) : Bool :=
  a.toList.map Char.toLower == b.toList.map Char.toLower

/-- A hexadecimal digit, in either case. -/
def isHexDigit (c : Char) : Bool :=
  ('0' ≤ c && c ≤ '9') || ('a' ≤ c && c ≤ 'f') || ('A' ≤ c && c ≤ 'F')

/-- The loop of `net.ParseMAC`: `n` groups of exactly `w` hexadecimal digits, each but the
last followed by the separator `sep`, and nothing after the last. -/
def macGroups (w : Nat) (sep : Char) : Nat → List Char → Bool
  | 0, _ => false
  | n + 1, cs =>
    (cs.take w).length == w && (cs.take w).all isHexDigit &&
      match cs.drop w with
      | [] => n == 0
      | c :: rest => c == sep && macGroups w sep n rest

/-- Whether `net.ParseMAC` accepts the text: 6, 8 or 20 octets written as two-digit groups
separated by the colon or hyphen found in third place, or as four-digit groups separated
by dots. A text that `ParseMAC` accepts is ASCII, so bytes and characters coincide. -/
def ParseMAC (s : String) : Bool :=
  let cs := s.toList
  if cs.length < 14 then false
  else if cs.get? 2 = some ':' || cs.get? 2 = some '-' then
    (cs.length + 1) % 3 == 0 && [6, 8, 20].contains ((cs.length + 1) / 3) &&
      macGroups 2 (cs.getD 2 ':') ((cs.length + 1) / 3) cs
  else if cs.get? 4 = some '.' then
    (cs.length + 1) % 5 == 0 && [6, 8, 20].contains (2 * (cs.length + 1) / 5) &&
      macGroups 4 '.' ((cs.length + 1) / 5) cs
  else false

/-- Whether a validator accepts a candidate, that is, reports no error.
`StringInSlice` wants a string equal to one of the listed ones (or equal under case folding
when `ignoreCase` is set); `IntBetween` wants an integer with `min ≤ v ≤ max`;
`StringLenBetween` wants a string whose length in bytes lies between the bounds;
`IsMACAddress` wants a string `net.ParseMAC` accepts. A candidate of the wrong type is an
error in each of them. -/
def Validator.accepts : Validator → Scalar → Bool
  | .StringInSlice valid ignoreCase, .str v =>
    valid.any fun s => v == s || (ignoreCase && equalFold v s)
  | .IntBetween min max, .int v => decide (min ≤ v) && decide (v ≤ max)
  | .StringLenBetween min max, .str v =>
    decide (min ≤ (v.utf8ByteSize : Int)) && decide ((v.utf8ByteSize : Int) ≤ max)
  | .IsMACAddress, .str v => ParseMAC v
  | _, _ => false

/-! ## The acceptance test of the bonding resource -/

/-- The constant `testInterfaceBondingAddress`. -/
def testInterfaceBondingAddress : String := "routeros_interface_bonding.test"

/-- The properties the configuration of `testAccInterfaceBondingConfig` sets on the
resource `routeros_interface_bonding.test`. -/
def testAccInterfaceBondingConfig : List (String × Value) :=
  [("name", .str "bonding-test"), ("slaves", .list [.str "ether3", .str "ether4"])]

/-- The part of `terraform.InstanceState` the existence check reads: the primary ID. -/
structure terraform.InstanceState where
  ID : String
  deriving DecidableEq, Repr

/-- The part of `terraform.ResourceState` the existence check reads: the pointer `Primary`,
`none` for a nil pointer. -/
structure terraform.ResourceState where
  Primary : Option terraform.InstanceState
  deriving DecidableEq, Repr

/-- The part of `terraform.ModuleState` the existence check reads: the map `Resources` from
resource address to a pointer to the resource state (`none` for a nil pointer), kept as a
list and looked up with `List.lookup`. -/
structure terraform.ModuleState where
  Resources : List (String × Option terraform.ResourceState)
  deriving DecidableEq, Repr

/-- The part of `terraform.State` the existence check reads: the root module that
`RootModule()` finds, `none` for a state in which it finds none (the nil state among
them); there `RootModule()` panics. -/
structure terraform.State where
  RootModule : Option terraform.ModuleState
  deriving DecidableEq, Repr

/-- What a call of a Go function comes to: it returns a value, or it panics. -/
inductive Outcome (α : Type) where
  | returns (a : α)
  | panics
  deriving DecidableEq, Repr

/-- The function `testAccCheckInterfaceBondingExists(name)`, applied to a state. What it
returns is the error, by its text (`fmt.Errorf("not found: %s", name)`,
`fmt.Errorf("no id is set")`), or `ok` for `nil`. `s.RootModule()` panics on a state
without root module, and `rs.Primary.ID` dereferences `rs` and `rs.Primary` unchecked, so
a nil pointer there is a panic. -/
def testAccCheckInterfaceBondingExists (name : String) (s : terraform.State) :
    Outcome (Except String Unit) :=
  match s.RootModule with
  | none => .panics
  | some root =>
    match root.Resources.lookup name with
    | none => .returns (.error ("not found: " ++ name))
    | some none => .panics
    | some (some rs) =>
      match rs.Primary with
      | none => .panics
      | some primary =>
        if primary.ID = "" then .returns (.error "no id is set")
        else .returns (.ok ())

/-- Modelled from the spec: the table of the bonding resource, whose constructor is not
embedded. The table holds what the acceptance test shows of it: the remote path
`/interface/bonding` of the destroy check, the property `name` and the property `slaves`,
a membership list (spec section 4.3, "a set of aggregated sub-interfaces"). -/
def ResourceInterfaceBonding.resSchema : Table := [
  (MetaResourcePath, PropResourcePath "/interface/bonding"),
  (MetaId, PropId .Name),
  (KeyName, PropNameForceNewRw),
  ("slaves",
    { Typ := .TypeSet, Required := true, Elem := some { Typ := .TypeString } })
]

/-! ## The generic engine, modelled from the specification -/

/-- Modelled from the spec: the Desired and the Observed State of section 3, a typed
mapping of property name to decoded value; a property without entry is absent. -/
abbrev State := List (String × Value)

/-- Modelled from the spec: the Remote Record of section 3, a flat mapping of property
name to string value; the same shape carries the fields of a write. -/
abbrev RemoteRecord := List (String × String)

/-- Modelled from the spec: the mutability classes of section 3. -/
inductive Mutability where
  | ReadWrite
  | ReadOnly
  | WriteOnceForceReplace
  deriving DecidableEq, Repr

/-- Modelled from the spec: the mutability class of a table entry (section 3; section 9,
"force-new semantics ... as a per-property flag"). A property that is computed and neither
optional nor required is computed-only; a writable property flagged `ForceNew` can change
only by replacing the instance. -/
def Schema.mutability (s : Schema) : Mutability :=
  if s.Computed && !s.Optional && !s.Required then .ReadOnly
  else if s.ForceNew then .WriteOnceForceReplace
  else .ReadWrite

/-- Modelled from the spec: the Resource Descriptor of section 3. -/
structure ResourceDescriptor where
  remotePathTemplate : String
  properties : List (String × Schema)
  identityProperty : String
  deriving DecidableEq, Repr

/-- Modelled from the spec: the field under which the device keeps the identity it assigns
itself (section 3, "assigned by the device on create"), for a kind declared `PropId(Id)`. -/
def deviceIdField : String := ".id"

/-- Modelled from the spec: the remote path a table declares under `MetaResourcePath`. -/
def remotePathOf (t : Table) : String :=
  match t.lookup MetaResourcePath with
  | some s =>
    match s.Default with
    | some (.str p) => p
    | _ => ""
  | none => ""

/-- Modelled from the spec: the identity property a table declares under `MetaId`: the
name for `PropId(Name)`, the device-assigned id otherwise. -/
def identityPropertyOf (t : Table) : String :=
  match t.lookup MetaId with
  | some s => if s.Default = some (.int IdType.Name.toInt) then KeyName else deviceIdField
  | none => deviceIdField

/-- Modelled from the spec: the Resource Descriptor a table stands for. The two reserved
entries give the path and the identity property; every other entry is a property. -/
def descriptorOf (t : Table) : ResourceDescriptor :=
  { remotePathTemplate := remotePathOf t
    properties := t.filter fun e => e.1 != MetaResourcePath && e.1 != MetaId
    identityProperty := identityPropertyOf t }

/-- Modelled from the spec: the `encode` and `decode` of section 4.1. The wire form of a
value is the device's; the engine is given it. `decode` fails with `none` (DecodeError). -/
structure Codec where
  encode : Value → String
  decode : Schema → String → Option Value

/-! ### Validation (section 4.1, `validate`) -/

/-- Whether a value has the type the schema declares. A `TypeList` and a `TypeSet` both hold
a list. -/
def typeMatches : ValueType → Value → Bool
  | .TypeBool, .bool _ => true
  | .TypeInt, .int _ => true
  | .TypeString, .str _ => true
  | .TypeList, .list _ => true
  | .TypeSet, .list _ => true
  | _, _ => false

/-- Whether a list element has the type the element schema declares. -/
def scalarTypeMatches : ValueType → Scalar → Bool
  | .TypeBool, .bool _ => true
  | .TypeInt, .int _ => true
  | .TypeString, .str _ => true
  | _, _ => false

/-- Whether an optional validator accepts a scalar; no validator accepts everything. -/
def acceptsOpt : Option Validator → Scalar → Bool
  | some f, x => f.accepts x
  | none, _ => true

/-- Whether a list element passes the element schema: its type and its validator. -/
def validateElem : Option ElemSchema → Scalar → Bool
  | some e, x => scalarTypeMatches e.Typ x && acceptsOpt e.ValidateFunc x
  | none, _ => true

/-- Modelled from the spec: `validate(candidate)` of section 4.1 for a candidate that is
set. The value has the declared type; a scalar passes the property's validator; a list has
at least `MinItems` elements, each passing the element schema. -/
def validateValue (s : Schema) (v : Value) : Bool :=
  typeMatches s.Typ v &&
    match v with
    | .bool b => acceptsOpt s.ValidateFunc (.bool b)
    | .int i => acceptsOpt s.ValidateFunc (.int i)
    | .str x => acceptsOpt s.ValidateFunc (.str x)
    | .list xs => decide (s.MinItems ≤ xs.length) && xs.all (validateElem s.Elem)

/-- Modelled from the spec: `validate` of section 4.1 for one property of a desired state.
A required property must be set; a property that is set must pass `validateValue`. -/
def validateProperty (s : Schema) : Option Value → Bool
  | some v => validateValue s v
  | none => !s.Required

/-- Modelled from the spec: the names of the properties whose candidate fails validation
(section 7, `ValidationError`). A desired state passes when the list is empty. -/
def validate (t : Table) (desired : State) : List String :=
  (descriptorOf t).properties.filterMap fun e =>
    if validateProperty e.2 (desired.lookup e.1) then none else some e.1

/-! ### State Mapper (section 4.2) -/

/-- Modelled from the spec: `toRemote` of section 4.2. A property goes into the payload
when it is set in the desired state, its mutability is `ReadWrite` or
`WriteOnceForceReplace`, and its value differs from the default; a `ReadOnly` property
never does. -/
def toRemote (c : Codec) (desired : State) (d : ResourceDescriptor) : RemoteRecord :=
  d.properties.filterMap fun e =>
    if e.2.mutability = .ReadOnly then none
    else
      match desired.lookup e.1 with
      | some v => if e.2.Default = some v then none else some (e.1, c.encode v)
      | none => none

/-- Modelled from the spec: the result of `fromRemote` (section 4.2): the typed state and
the decode failures, one per property that could not be decoded, with the text that
failed. -/
structure Decoded where
  state : State
  errors : List (String × String)
  deriving DecidableEq, Repr

/-- Modelled from the spec: what `fromRemote` makes of one property. A key present in the
record is decoded; a key absent from it resolves to the default, or stays absent. -/
def decodeProperty (c : Codec) (record : RemoteRecord) (e : String × Schema) :
    Option (String × Value) :=
  match record.lookup e.1 with
  | some w => (c.decode e.2 w).map fun v => (e.1, v)
  | none => e.2.Default.map fun v => (e.1, v)

/-- Modelled from the spec: the decode failure of one property, if any (section 7,
`DecodeError`). -/
def decodeFailure (c : Codec) (record : RemoteRecord) (e : String × Schema) :
    Option (String × String) :=
  match record.lookup e.1 with
  | some w => if (c.decode e.2 w).isNone then some (e.1, w) else none
  | none => none

/-- Modelled from the spec: `fromRemote` of section 4.2. It walks the descriptor, so a key
of the record that the descriptor does not have is never looked at; a decode failure is
reported and the other properties are decoded all the same. -/
def fromRemote (c : Codec) (record : RemoteRecord) (d : ResourceDescriptor) : Decoded :=
  { state := d.properties.filterMap (decodeProperty c record)
    errors := d.properties.filterMap (decodeFailure c record) }

/-! ### List Reconciler (section 4.3) -/

/-- Whether a value type is list-valued; `TypeList` is the ordered list and `TypeSet` the
unordered one. -/
def isListType : ValueType → Bool
  | .TypeList => true
  | .TypeSet => true
  | _ => false

/-- Modelled from the spec: the symmetric difference between the observed and the desired
members (section 4.3, unordered semantics). -/
def symmetricDifference (observed desired : List Scalar) : List Scalar :=
  observed.filter (fun x => !desired.contains x) ++ desired.filter (fun x => !observed.contains x)

/-- Modelled from the spec: the List Reconciler of section 4.3. The result is the full new
value to send, or `none` when no remote call is due. Unordered semantics: equal sets,
whatever the order, need no call. Ordered semantics: any positional difference is a full
replacement, in the caller's order. The Remote Client of section 6 has no incremental add
or remove, so a change is always the new full value. -/
def ListReconciler (ty : ValueType) (observed desired : List Scalar) : Option (List Scalar) :=
  match ty with
  | .TypeSet => if symmetricDifference observed desired = [] then none else some desired
  | _ => if observed = desired then none else some desired

/-- Modelled from the spec: whether the observed and the desired value of a property agree
(section 3, Diff): lists under the declared semantics of the List Reconciler, everything
else, absence included, by equality. -/
def sameValue (s : Schema) : Option Value → Option Value → Bool
  | some (.list xs), some (.list ys) =>
    if isListType s.Typ then (ListReconciler s.Typ xs ys).isNone else decide (xs = ys)
  | o, d => decide (o = d)

/-! ### CRUD Engine (section 4.4) -/

/-- Modelled from the spec: the properties of the Diff of section 3, the entries of the
descriptor whose desired value differs from the observed one; the old and the new value of
each are its lookups in the two states. -/
def changedProperties (d : ResourceDescriptor) (observed desired : State) :
    List (String × Schema) :=
  d.properties.filter fun e => !sameValue e.2 (observed.lookup e.1) (desired.lookup e.1)

/-- Modelled from the spec: one `set(path, identity, fields)` call of section 6. -/
structure SetCall where
  path : String
  identity : String
  fields : RemoteRecord
  deriving DecidableEq, Repr

/-- Modelled from the spec: what Update decides before it talks to the device
(section 4.4): it refuses with `ConflictForceNew`, or it has a list of set calls to
issue. -/
inductive UpdatePlan where
  | ConflictForceNew
  | apply (calls : List SetCall)
  deriving DecidableEq, Repr

/-- Modelled from the spec: the fields of one changed property, the encoded desired
value. -/
def changedField (c : Codec) (desired : State) (e : String × Schema) :
    Option (String × String) :=
  (desired.lookup e.1).map fun v => (e.1, c.encode v)

/-- Modelled from the spec: the scalar changes of an update, as the fields of the one
combined set call: the changed writable keys only. -/
def scalarFields (c : Codec) (d : ResourceDescriptor) (observed desired : State) :
    RemoteRecord :=
  ((changedProperties d observed desired).filter fun e =>
    decide (e.2.mutability ≠ .ReadOnly) && !isListType e.2.Typ).filterMap (changedField c desired)

/-- Modelled from the spec: the list changes of an update, one set call with the full new
value for each changed writable list. -/
def listCalls (c : Codec) (d : ResourceDescriptor) (identity : String)
    (observed desired : State) : List SetCall :=
  ((changedProperties d observed desired).filter fun e =>
    decide (e.2.mutability ≠ .ReadOnly) && isListType e.2.Typ).filterMap fun e =>
      (changedField c desired e).map fun f =>
        { path := d.remotePathTemplate, identity := identity, fields := [f] }

/-- Modelled from the spec: the decision of Update (section 4.4). If a changed property is
`WriteOnceForceReplace` the update is refused. Otherwise the scalar changes go out as one
combined set call carrying only the changed keys (no call when there is none), and the
list changes follow, scalars before lists. -/
def planUpdate (c : Codec) (t : Table) (identity : String) (observed desired : State) :
    UpdatePlan :=
  let d := descriptorOf t
  if (changedProperties d observed desired).any
      (fun e => decide (e.2.mutability = .WriteOnceForceReplace)) then
    .ConflictForceNew
  else
    let scalars := scalarFields c d observed desired
    let first : List SetCall :=
      if scalars = [] then []
      else [{ path := d.remotePathTemplate, identity := identity, fields := scalars }]
    .apply (first ++ listCalls c d identity observed desired)

/-- Modelled from the spec: the failures of the Remote Client (section 7). -/
inductive RemoteError where
  | NotFound
  | RemoteRejected (message : String)
  | TransportError (message : String)
  deriving DecidableEq, Repr

/-- Modelled from the spec: the Remote Client of section 6 over a device whose
configuration is a `Dev`: `list(path, filter)`, with the filter a property and the value
sought, `add(path, fields)`, `set(path, identity, fields)` and `remove(path, identity)`.
A call that changes the device returns the device after the call. -/
structure RemoteClient (Dev : Type) where
  list : Dev → String → String × String → Except RemoteError (List RemoteRecord)
  add : Dev → String → RemoteRecord → Except RemoteError (String × Dev)
  set : Dev → String → String → RemoteRecord → Except RemoteError Dev
  remove : Dev → String → String → Except RemoteError Dev

/-- Modelled from the spec: the error taxonomy of section 7, as the engine returns it. A
`DecodeError` does not abort a read; it is reported in `Decoded.errors`. -/
inductive EngineError where
  | ValidationError (properties : List String)
  | NotFound
  | ConflictForceNew
  | RemoteRejected (message : String)
  | TransportError (message : String)
  deriving DecidableEq, Repr

/-- Modelled from the spec: a failure of the Remote Client is surfaced as it is. -/
def EngineError.ofRemote : RemoteError → EngineError
  | .NotFound => .NotFound
  | .RemoteRejected m => .RemoteRejected m
  | .TransportError m => .TransportError m

/-- Modelled from the spec: `DefaultRead`, the Read of section 4.4. A lookup by identity;
an absent instance is the result `none`, not an error; otherwise the record is decoded by
the State Mapper. -/
def Read {Dev : Type} (rc : RemoteClient Dev) (c : Codec) (t : Table) (dev : Dev)
    (identity : String) : Except EngineError (Option Decoded) :=
  let d := descriptorOf t
  match rc.list dev d.remotePathTemplate (d.identityProperty, identity) with
  | .ok [] => .ok none
  | .ok (record :: _) => .ok (some (fromRemote c record d))
  | .error .NotFound => .ok none
  | .error e => .error (EngineError.ofRemote e)

/-- Modelled from the spec: `DefaultCreate`, the Create of section 4.4. A candidate that
fails validation is refused before any remote call. Otherwise the writable properties are
encoded, a single add is issued, the identity the device answers is taken, and an
immediate read populates the observed state. -/
def Create {Dev : Type} (rc : RemoteClient Dev) (c : Codec) (t : Table) (dev : Dev)
    (desired : State) : Except EngineError (String × Decoded × Dev) :=
  let d := descriptorOf t
  match validate t desired with
  | [] =>
    match rc.add dev d.remotePathTemplate (toRemote c desired d) with
    | .error e => .error (EngineError.ofRemote e)
    | .ok (identity, dev1) =>
      match Read rc c t dev1 identity with
      | .ok (some observed) => .ok (identity, observed, dev1)
      | .ok none => .error .NotFound
      | .error e => .error e
  | p :: ps => .error (.ValidationError (p :: ps))

/-- Modelled from the spec: the set calls of an update, issued in order; the first
failure stops the run and is surfaced. -/
def issue {Dev : Type} (rc : RemoteClient Dev) (dev : Dev) : List SetCall → Except RemoteError Dev
  | [] => .ok dev
  | call :: rest =>
    match rc.set dev call.path call.identity call.fields with
    | .ok dev1 => issue rc dev1 rest
    | .error e => .error e

/-- Modelled from the spec: `DefaultUpdate`, the Update of section 4.4. A change to a
`WriteOnceForceReplace` property is refused with `ConflictForceNew`; a candidate that
fails validation is refused before any remote call; otherwise the set calls of the plan
are issued and the result is the post-update read. -/
def Update {Dev : Type} (rc : RemoteClient Dev) (c : Codec) (t : Table) (dev : Dev)
    (identity : String) (observed desired : State) :
    Except EngineError (Option Decoded × Dev) :=
  match planUpdate c t identity observed desired with
  | .ConflictForceNew => .error .ConflictForceNew
  | .apply calls =>
    match validate t desired with
    | [] =>
      match issue rc dev calls with
      | .error e => .error (EngineError.ofRemote e)
      | .ok dev1 =>
        match Read rc c t dev1 identity with
        | .ok r => .ok (r, dev1)
        | .error e => .error e
    | p :: ps => .error (.ValidationError (p :: ps))

/-- Modelled from the spec: `DefaultDelete`, the Delete of section 4.4. A remove by
identity; the absence of the record is success. -/
def Delete {Dev : Type} (rc : RemoteClient Dev) (t : Table) (dev : Dev) (identity : String) :
    Except EngineError Dev :=
  match rc.remove dev (descriptorOf t).remotePathTemplate identity with
  | .ok dev1 => .ok dev1
  | .error .NotFound => .ok dev
  | .error e => .error (EngineError.ofRemote e)

/-! ### Import -/

/-- The part of the host's `schema.ResourceData` an importer sees: the primary ID and the
attributes set so far. -/
structure ResourceData where
  Id : String
  attributes : State
  deriving DecidableEq, Repr

/-- The SDK function `schema.ImportStatePassthroughContext`: it returns the resource data
it is given, alone and unchanged, and no error. -/
def ImportStatePassthroughContext (d : ResourceData) : Except EngineError (List ResourceData) :=
  .ok [d]

/-- The importer function a `StateContextFunc` names. -/
def StateContextFunc.run : StateContextFunc → ResourceData → Except EngineError (List ResourceData)
  | .ImportStatePassthroughContext => Routeros.ImportStatePassthroughContext

/-- The import step of the host: the importer of the resource is called on resource data
that carry the identity string and no attribute. -/
def importState (r : Resource) (identity : String) : Except EngineError (List ResourceData) :=
  r.Importer.StateContext.run { Id := identity, attributes := [] }

/-- The table a handler was built from. -/
def CrudHandler.table : CrudHandler → Table
  | .DefaultCreate s => s
  | .DefaultRead s => s
  | .DefaultUpdate s => s
  | .DefaultDelete s => s

/-- Modelled from the spec: the Import of section 4.4: the importer yields the instances,
and the read handler of the resource, called with the identity of each, gives its
state. -/
def Import {Dev : Type} (rc : RemoteClient Dev) (c : Codec) (r : Resource) (dev : Dev)
    (identity : String) : Except EngineError (List (String × Option Decoded)) :=
  match importState r identity with
  | .error e => .error e
  | .ok ds =>
    ds.mapM fun d =>
      match Read rc c r.ReadContext.table dev d.Id with
      | .ok o => .ok (d.Id, o)
      | .error e => .error e

/-! ### A concrete codec and a concrete device, for evaluating the engine -/

/-- The decimal digits of a natural number, read from the left. -/
def decodeNat (cs : List Char) : Option Nat :=
  if cs.isEmpty || !cs.all Char.isDigit then none
  else some (cs.foldl (fun n ch => 10 * n + (ch.toNat - 48)) 0)

/-- A decimal integer with an optional minus sign. -/
def decodeInt : List Char → Option Int
  | '-' :: cs => (decodeNat cs).map fun n => -(n : Int)
  | cs => (decodeNat cs).map fun n => (n : Int)

/-- The pieces of a text between commas. -/
def splitOnComma : List Char → List (List Char)
  | [] => [[]]
  | ch :: cs =>
    match splitOnComma cs with
    | [] => [[]]
    | w :: ws => if ch = ',' then [] :: w :: ws else (ch :: w) :: ws

/-- The wire text of a scalar: `yes` or `no`, decimal digits, or the string itself. -/
def encodeScalar : Scalar → String
  | .bool b => if b then "yes" else "no"
  | .int i => toString i
  | .str x => x

/-- The scalar of a given type a wire text stands for. -/
def decodeScalar : ValueType → String → Option Scalar
  | .TypeBool, w =>
    if w = "yes" ∨ w = "true" then some (.bool true)
    else if w = "no" ∨ w = "false" then some (.bool false)
    else none
  | .TypeInt, w => (decodeInt w.toList).map Scalar.int
  | .TypeString, w => some (.str w)
  | _, _ => none

/-- Modelled from the spec: a wire form for section 4.1, used where the engine is
evaluated on concrete states: booleans as `yes` and `no`, integers in decimal, strings as
they are, a list as its elements joined by commas. -/
def wireCodec : Codec where
  encode
    | .bool b => encodeScalar (.bool b)
    | .int i => encodeScalar (.int i)
    | .str x => x
    | .list xs => String.intercalate "," (xs.map encodeScalar)
  decode s w :=
    match s.Typ with
    | .TypeBool => (decodeScalar .TypeBool w).bind fun x =>
        match x with
        | .bool b => some (.bool b)
        | _ => none
    | .TypeInt => (decodeInt w.toList).map Value.int
    | .TypeString => some (.str w)
    | .TypeList | .TypeSet =>
      if w = "" then some (.list [])
      else
        ((splitOnComma w.toList).mapM fun cs =>
          decodeScalar ((s.Elem.map fun e => e.Typ).getD .TypeString) (String.mk cs)).map Value.list
    | _ => none

/-- The configuration of the concrete device: the records it holds, each under its path. -/
abbrev Store := List (String × RemoteRecord)

/-- Whether an entry of the store is the instance with the given identity under the given
path, the identity being the value of the field `idField`. -/
def Store.isInstance (idField path identity : String) (e : String × RemoteRecord) : Bool :=
  e.1 == path && e.2.lookup idField == some identity

/-- The fields of a set call laid over a record: a field of the call replaces the field of
the record. -/
def overlay (fields record : RemoteRecord) : RemoteRecord :=
  fields ++ record.filter fun f => !(fields.map Prod.fst).contains f.1

/-- Modelled from the spec: a device for the Remote Client of section 6, used where the
engine is evaluated on a concrete device. It keeps the records as they are written, finds
an instance by the value of the field `idField`, answers an add with that value, refuses an
add without it, with an empty one or with one already taken, and answers `NotFound` to a
set or a remove of an instance it does not hold. -/
def storeClient (idField : String) : RemoteClient Store where
  list dev path filter :=
    .ok ((dev.filter fun e => e.1 == path && e.2.lookup filter.1 == some filter.2).map Prod.snd)
  add dev path fields :=
    match fields.lookup idField with
    | none => .error (.RemoteRejected "no identity")
    | some identity =>
      if identity = "" then .error (.RemoteRejected "empty identity")
      else if dev.any (Store.isInstance idField path identity) then
        .error (.RemoteRejected "identity already taken")
      else .ok (identity, dev ++ [(path, fields)])
  set dev path identity fields :=
    if dev.any (Store.isInstance idField path identity) then
      .ok (dev.map fun e =>
        if Store.isInstance idField path identity e then (e.1, overlay fields e.2) else e)
    else .error .NotFound
  remove dev path identity :=
    if dev.any (Store.isInstance idField path identity) then
      .ok (dev.filter fun e => !Store.isInstance idField path identity e)
    else .error .NotFound

/-! ## Notions the statements below use -/

/-- Equality of results is decidable when equality of errors and of values is. -/
instance instDecidableEqExcept {ε α : Type} [DecidableEq ε] [DecidableEq α] :
    DecidableEq (Except ε α)
  | .ok a, .ok b => if h : a = b then isTrue (by rw [h]) else isFalse (by simpa using h)
  | .error a, .error b => if h : a = b then isTrue (by rw [h]) else isFalse (by simpa using h)
  | .ok _, .error _ => isFalse (by simp)
  | .error _, .ok _ => isFalse (by simp)

/-- The names of the computed-only properties of a table, in table order. -/
def readOnlyKeys (t : Table) : List String :=
  ((descriptorOf t).properties.filter fun e => decide (e.2.mutability = .ReadOnly)).map Prod.fst

/-- The device-side assumption of the round trip: the device takes the add and answers an
identity, and a lookup by that identity then returns a record that carries the identity
under the identity property, in which every written field reads as it was written (no
normalization) and a property with a declared default that was not written is absent or
reads as that default. What the record holds for any other property is left open, and so
is the identity the device answers. -/
def KeepsAsWritten {Dev : Type} (rc : RemoteClient Dev) (c : Codec) (d : ResourceDescriptor)
    (dev : Dev) (fields : RemoteRecord) (identity : String) (dev1 : Dev) : Prop :=
  rc.add dev d.remotePathTemplate fields = .ok (identity, dev1) ∧
  ∃ record rest,
    rc.list dev1 d.remotePathTemplate (d.identityProperty, identity) = .ok (record :: rest) ∧
    record.lookup d.identityProperty = some identity ∧
    (∀ k w, fields.lookup k = some w → record.lookup k = some w) ∧
    ∀ e ∈ d.properties, ∀ v, e.2.Default = some v → fields.lookup e.1 = none →
      record.lookup e.1 = none ∨ record.lookup e.1 = some (c.encode v)

/-- The property of a codec that it decodes each value the desired state sets on a
property of the descriptor back from its wire form. -/
def RoundTrips (c : Codec) (d : ResourceDescriptor) (desired : State) : Prop :=
  ∀ e ∈ d.properties, ∀ v, desired.lookup e.1 = some v → c.decode e.2 (c.encode v) = some v

/-- Whether a list element can stand in the wire form of a list, where the elements are
joined by commas: a string element holds no comma. -/
def Scalar.hasNoComma : Scalar → Bool
  | .str s => !s.toList.contains ','
  | _ => true

/-- Whether the wire form of a value can be read back as the value. A list is written as
its elements joined by commas and the empty list as the empty text: a string element must
hold no comma, and the list of the one empty string is written like the empty list. A
scalar is always read back. -/
def Value.survivesWire : Value → Bool
  | .list xs => xs.all Scalar.hasNoComma && decide (xs ≠ [.str ""])
  | _ => true

/-- Whether every value a desired state sets on a property of the table survives the wire
form. -/
def survivesWire (t : Table) (desired : State) : Bool :=
  (descriptorOf t).properties.all fun e =>
    match desired.lookup e.1 with
    | some v => v.survivesWire
    | none => true

/-- Whether a list-valued descriptor has an element schema. -/
def Schema.hasElem (s : Schema) : Bool :=
  !isListType s.Typ || s.Elem.isSome

/-- The tables the round trip is stated for: the three resource kinds and the bonding
table of the acceptance test. -/
def roundTripTables : List Table :=
  [ResourceInterfaceEthernet.resSchema, ResourceInterfaceWireless.resSchema,
   ResourceInterfaceWirelessSecurityProfiles.resSchema, ResourceInterfaceBonding.resSchema]

/-- The desired state of the acceptance test with the two slaves written as one element,
`ether3,ether4`. -/
def bondingWithComma : State :=
  [("name", .str "bonding-test"), ("slaves", .list [.str "ether3,ether4"])]

/-- A wireless interface with properties of every value type set. -/
def wlanDesired : State :=
  [("name", .str "wlan1"), ("country", .str "no_country_set"), ("disabled", .bool false),
   ("frequency_offset", .int (-20)), ("l2mtu", .int 1600),
   ("supported_rates_b", .list [.str "1Mbps", .str "2Mbps"]),
   ("ampdu_priorities", .list [.int 0, .int 3])]

/-- The device-side assumption of delete: at every configuration a remove either reports
the instance absent, the instance being absent indeed, or succeeds and leaves it
absent. -/
def RemovesOnRequest {Dev : Type} (rc : RemoteClient Dev) (d : ResourceDescriptor) : Prop :=
  ∀ (dev : Dev) (identity : String),
    (rc.remove dev d.remotePathTemplate identity = .error .NotFound ∧
      rc.list dev d.remotePathTemplate (d.identityProperty, identity) = .ok []) ∨
    (∃ dev1, rc.remove dev d.remotePathTemplate identity = .ok dev1 ∧
      rc.list dev1 d.remotePathTemplate (d.identityProperty, identity) = .ok [])

/-- The desired state of the acceptance test with `ether5` in the place of `ether4`. -/
def bondingWithEther5 : State :=
  [("name", .str "bonding-test"), ("slaves", .list [.str "ether3", .str "ether5"])]

/-- The store after the bonding interface of the acceptance test was created. -/
def bondingStore : Store :=
  [("/interface/bonding", [("name", "bonding-test"), ("slaves", "ether3,ether4")])]

/-- The names of the ordered-list properties (`TypeList`) of a table, in table order. -/
def orderedListKeys (t : Table) : List String :=
  ((descriptorOf t).properties.filter fun e => decide (e.2.Typ = .TypeList)).map Prod.fst

/-- Whether the value type of a descriptor is flat: a boolean, an integer, a string, or an
ordered list whose element schema is a string or an integer. -/
def Schema.isFlat (s : Schema) : Bool :=
  match s.Typ with
  | .TypeBool => true
  | .TypeInt => true
  | .TypeString => true
  | .TypeList =>
    match s.Elem with
    | some el => decide (el.Typ = .TypeString) || decide (el.Typ = .TypeInt)
    | none => false
  | _ => false

/-- Whether a descriptor sets the flags of exactly one way of being written: at least one
of `Required`, `Optional`, `Computed`, and `Required` with neither of the other two. -/
def Schema.flagsWellFormed (s : Schema) : Bool :=
  (s.Required || s.Optional || s.Computed) && !(s.Required && s.Optional) &&
    !(s.Required && s.Computed)

/-- Whether a scalar is a string or an integer. -/
def Scalar.isStringOrInt : Scalar → Bool
  | .str _ => true
  | .int _ => true
  | .bool _ => false

/-- Whether a value is flat: a scalar, or a list whose elements are strings or integers. -/
def Value.isFlat : Value → Bool
  | .list xs => xs.all Scalar.isStringOrInt
  | _ => true

/-- The descriptor the security-profile table declares for `authentication_types`. -/
def authenticationTypesSchema : Schema :=
  { Typ := .TypeList, Required := true,
    Elem := some { Typ := .TypeString,
                   ValidateFunc := some (.StringInSlice
                     ["wpa-psk", "wpa2-psk", "wpa-eap", "wpa2-eap"] false) },
    MinItems := 1 }

/-- An observed security profile with the authentication types `wpa-psk`, `wpa2-psk`. -/
def profileObserved : State :=
  [("name", .str "profile1"), ("mode", .str "dynamic-keys"),
   ("authentication_types", .list [.str "wpa-psk", .str "wpa2-psk"])]

/-- The same security profile, desired with the two authentication types in the other
order. -/
def profileReordered : State :=
  [("name", .str "profile1"), ("mode", .str "dynamic-keys"),
   ("authentication_types", .list [.str "wpa2-psk", .str "wpa-psk"])]

/-- The validator the ethernet table declares for `advertise`. -/
def advertiseValidator : Validator :=
  .StringInSlice
    ["10M-full", "10M-half", "100M-full", "100M-half", "1000M-full", "1000M-half",
     "2500M-full", "5000M-full", "10000M-full"] false

/-- The validator the security-profile table declares for `mode`. -/
def modeValidator : Validator :=
  .StringInSlice ["none", "static-keys-optional", "static-keys-required", "dynamic-keys"] false

/-- The authentication types the element validator of `authentication_types` lists. -/
def authenticationTypes : List Scalar :=
  [.str "wpa-psk", .str "wpa2-psk", .str "wpa-eap", .str "wpa2-eap"]

/-- A security profile that passes validation: WPA2 with a pre-shared key. -/
def profileValid : State :=
  [("name", .str "profile1"), ("mode", .str "dynamic-keys"),
   ("authentication_types", .list [.str "wpa2-psk"])]

/-- The same security profile with an empty list of authentication types. -/
def profileWithoutTypes : State :=
  [("name", .str "profile1"), ("mode", .str "dynamic-keys"),
   ("authentication_types", .list [])]

/-- Spec (section 1 and section 9): a resource kind is nothing but its property table,
handed to the generic engine: the four handlers are the generic ones on that table, the
importer is the pass-through, and the table is published as the schema. -/
def dataDrivenResource (t : Table) : Resource :=
  { CreateContext := .DefaultCreate t
    ReadContext := .DefaultRead t
    UpdateContext := .DefaultUpdate t
    DeleteContext := .DefaultDelete t
    Importer := { StateContext := .ImportStatePassthroughContext }
    Schema := t }

/-- The validator the security-profile table declares for `static_transmit_key`. -/
def staticTransmitKeyValidator : Validator :=
  .StringInSlice ["key-0", "key-1", "key-2", "key-3"] false

/-- What follows the prefix `p` in those of the given names that start with `p`. -/
def suffixesAfter (p : String) (names : List String) : List String :=
  names.filterMap fun k => (k.data.dropPrefix? p.data).map String.mk

/-- The names the security-profile table declares. -/
def securityProfileNames : List String :=
  ResourceInterfaceWirelessSecurityProfiles.resSchema.map Prod.fst

/-- The validators a table declares, each with the name of its property: the validator of
the property itself and the validator of the elements of a list. -/
def validatorsOf (t : Table) : List (String × Validator) :=
  t.flatMap fun e =>
    (match e.2.ValidateFunc with
      | some f => [(e.1, f)]
      | none => []) ++
    (match e.2.Elem with
      | some el =>
        match el.ValidateFunc with
        | some f => [(e.1, f)]
        | none => []
      | none => [])

/-- The validators the three tables declare. -/
def allValidators : List (String × Validator) :=
  validatorsOf ResourceInterfaceEthernet.resSchema ++
  validatorsOf ResourceInterfaceWireless.resSchema ++
  validatorsOf ResourceInterfaceWirelessSecurityProfiles.resSchema

/-- The list of allowed values of an enumerated-string validator. -/
def Validator.allowed : Validator → Option (List String)
  | .StringInSlice valid _ => some valid
  | _ => none

/-- The enumerated-string validators among the given ones whose list names a value
twice. -/
def withRepeatedValue (vs : List (String × Validator)) : List (String × Validator) :=
  vs.filter fun e =>
    match e.2.allowed with
    | some valid => !decide valid.Nodup
    | none => false

/-- The validator the wireless table declares for `proprietary_extensions`. -/
def proprietaryExtensionsValidator : Validator :=
  .StringInSlice ["post-2.9.25", "post-2.9.25"] false

/-- The keys of a table that are written as string literals, given the keys written as
constants. -/
def literalKeys (t : Table) (constants : List String) : List String :=
  (t.map Prod.fst).filter fun k => !constants.contains k

/-- The property names the three tables write as string literals. -/
def allLiteralKeys : List String :=
  literalKeys ResourceInterfaceEthernet.resSchema ResourceInterfaceEthernet.constantKeys ++
  literalKeys ResourceInterfaceWireless.resSchema ResourceInterfaceWireless.constantKeys ++
  literalKeys ResourceInterfaceWirelessSecurityProfiles.resSchema
    ResourceInterfaceWirelessSecurityProfiles.constantKeys

/-- A character the host allows in the name of a schema field: a lowercase ASCII letter, a
digit or the underscore. -/
def isFieldNameChar (c : Char) : Bool :=
  ('a' ≤ c && c ≤ 'z') || ('0' ≤ c && c ≤ '9') || c == '_'

/-- The form the host's schema validation requires of a field name: not empty, and made of
lowercase ASCII letters, digits and underscores only. -/
def isFieldName (s : String) : Bool :=
  !s.toList.isEmpty && s.toList.all isFieldNameChar

/-- Modelled from the spec: the helper of the package that derives the device's field name
from a property name; its code is not embedded. The device writes its fields with hyphens
(`static-algo-N`, `tls-mode`, `eap-methods` in the descriptions of the tables) where the
property names have underscores: every underscore becomes a hyphen. -/
def SnakeToKebab (name : String) : String :=
  String.mk (name.toList.map fun c => if c = '_' then '-' else c)

/-- A candidate for a validator: the first listed value, the lower bound, a string of as
many letters as the minimal length, an all-zero address. -/
def Validator.sample : Validator → Scalar
  | .StringInSlice valid _ => .str (valid.headD "")
  | .IntBetween min _ => .int min
  | .StringLenBetween min _ => .str (String.mk (List.replicate min.toNat 'a'))
  | .IsMACAddress => .str "00:00:00:00:00:00"

/-- Whether the bounds of a validator leave room for a candidate: a range with lower bound
at most the upper bound, a non-empty list of values, a length range with minimum at most
the maximum. -/
def Validator.hasRoom : Validator → Bool
  | .StringInSlice valid _ => !valid.isEmpty
  | .IntBetween min max => decide (min ≤ max)
  | .StringLenBetween min max => decide (min ≤ max)
  | .IsMACAddress => true

/-- A candidate for a property: a sample of its validator when it has one, otherwise a
plain value of its type; for a list, as many samples of the element validator as
`MinItems` asks for. -/
def Schema.sample (s : Schema) : Value :=
  match s.Typ with
  | .TypeBool => .bool false
  | .TypeInt =>
    match s.ValidateFunc with
    | some f =>
      match f.sample with
      | .int i => .int i
      | _ => .int 0
    | none => .int 0
  | .TypeString =>
    match s.ValidateFunc with
    | some f =>
      match f.sample with
      | .str x => .str x
      | _ => .str ""
    | none => .str ""
  | _ =>
    .list (List.replicate s.MinItems
      (match s.Elem with
        | some el =>
          match el.ValidateFunc with
          | some f => f.sample
          | none => if el.Typ = .TypeInt then .int 0 else .str ""
        | none => .str ""))

/-- The validator the wireless table declares for `frequency_offset`. -/
def frequencyOffsetValidator : Validator :=
  .IntBetween (-2147483648) 2147483647

/-- Whether the default of a descriptor, when it declares one, is sound: the property is
optional, neither required nor computed, and the default has the declared type and passes
the validator of the property. -/
def Schema.defaultIsSound (s : Schema) : Bool :=
  match s.Default with
  | some d => s.Optional && !s.Required && !s.Computed && validateValue s d
  | none => true

/-- The validator the ethernet table declares for the layer-2 MTU. -/
def ethernetL2MtuValidator : Validator :=
  .IntBetween 0 65535

/-- The validator the wireless table declares for the layer-2 MTU. -/
def wirelessL2MtuValidator : Validator :=
  .IntBetween 0 65536

/-- The validator the wireless table declares for `ssid`. -/
def ssidValidator : Validator :=
  .StringLenBetween 0 32

/-- A text of 17 letters of two bytes each (the letter e with acute accent). -/
def seventeenTwoByteLetters : String :=
  String.mk (List.replicate 17 (Char.ofNat 233))

/-- A state whose root module holds the resource of the acceptance test as a resource
state without primary instance (`Primary` is nil). -/
def stateWithoutPrimary : terraform.State :=
  { RootModule := some
      { Resources := [(testInterfaceBondingAddress, some { Primary := none })] } }

/-- A state without root module. -/
def stateWithoutRootModule : terraform.State :=
  { RootModule := none }

/-- The state after the step of the acceptance test: the root module holds the resource of
the test with the primary ID `bonding-test`. -/
def stateAfterApply : terraform.State :=
  { RootModule := some
      { Resources :=
          [(testInterfaceBondingAddress, some { Primary := some { ID := "bonding-test" } })] } }

/-- A Remote Client over a device that is kept together with the set calls it has taken,
in the order they were issued: every call goes to the client `rc` unchanged, and a set
call the device takes is added to the record. -/
def recording {Dev : Type} (rc : RemoteClient Dev) : RemoteClient (Dev × List SetCall) where
  list dev path filter := rc.list dev.1 path filter
  add dev path fields :=
    match rc.add dev.1 path fields with
    | .ok (identity, dev1) => .ok (identity, (dev1, dev.2))
    | .error e => .error e
  set dev path identity fields :=
    match rc.set dev.1 path identity fields with
    | .ok dev1 =>
      .ok (dev1, dev.2 ++ [{ path := path, identity := identity, fields := fields }])
    | .error e => .error e
  remove dev path identity :=
    match rc.remove dev.1 path identity with
    | .ok dev1 => .ok (dev1, dev.2)
    | .error e => .error e

/-- A wireless interface with its two rates of band B, as observed. -/
def wlanObserved : State :=
  [("name", .str "wlan1"), ("country", .str "no_country_set"),
   ("supported_rates_b", .list [.str "1Mbps", .str "2Mbps"])]

/-- The same wireless interface with the two rates in the other order, as desired. -/
def wlanReordered : State :=
  [("name", .str "wlan1"), ("country", .str "no_country_set"),
   ("supported_rates_b", .list [.str "2Mbps", .str "1Mbps"])]

/-- The store that holds the wireless interface of `wlanObserved`. -/
def wlanStore : Store :=
  [("/interface/wireless",
    [("name", "wlan1"), ("country", "no_country_set"), ("supported_rates_b", "1Mbps,2Mbps")])]

/-! ## General facts about the engine -/

/-- On a property that is not list-valued, agreement is equality. -/
theorem sameValue_of_not_list (s : Schema) (h : isListType s.Typ = false)
    (o d : Option Value) : sameValue s o d = decide (o = d) := by
  unfold sameValue
  split
  · simp [h]
  · rfl

/-- A changed `WriteOnceForceReplace` property makes the plan a refusal. -/
theorem planUpdate_conflict (c : Codec) (t : Table) (identity : String)
    (observed desired : State) (e : String × Schema)
    (hmem : e ∈ (descriptorOf t).properties)
    (hmut : e.2.mutability = .WriteOnceForceReplace)
    (hne : sameValue e.2 (observed.lookup e.1) (desired.lookup e.1) = false) :
    planUpdate c t identity observed desired = .ConflictForceNew := by
  have hany : (changedProperties (descriptorOf t) observed desired).any
      (fun e => decide (e.2.mutability = .WriteOnceForceReplace)) = true := by
    rw [List.any_eq_true]
    refine ⟨e, ?_, by simp [hmut]⟩
    simp [changedProperties, List.mem_filter, hmem, hne]
  simp only [planUpdate, hany, if_true]

/-- A refused plan is a refused update, whatever the device. -/
theorem Update_of_conflict {Dev : Type} (rc : RemoteClient Dev) (c : Codec) (t : Table)
    (dev : Dev) (identity : String) (observed desired : State)
    (h : planUpdate c t identity observed desired = .ConflictForceNew) :
    Update rc c t dev identity observed desired = .error .ConflictForceNew := by
  simp only [Update, h]

/-! ## The claims -/

/-- C1: in each of the three resource kinds the property `name` is declared as
`PropNameForceNewRw`, whose mutability is write-once/force-replace, and for every observed
and desired state whose `name` values differ the update is refused with
`ConflictForceNew`: the plan holds no set call, and `Update` answers the refusal whatever
the remote client would have answered. -/
theorem name_change_yields_conflict_force_new :
    ∀ r ∈ resourceKinds,
      r.Schema.lookup "name" = some PropNameForceNewRw ∧
      PropNameForceNewRw.mutability = .WriteOnceForceReplace ∧
      r.UpdateContext = .DefaultUpdate r.Schema ∧
      ∀ (c : Codec) (identity : String) (observed desired : State),
        observed.lookup "name" ≠ desired.lookup "name" →
          planUpdate c r.Schema identity observed desired = .ConflictForceNew ∧
          ∀ (Dev : Type) (rc : RemoteClient Dev) (dev : Dev),
            Update rc c r.Schema dev identity observed desired = .error .ConflictForceNew := by
  intro r hr
  have hmem : ("name", PropNameForceNewRw) ∈ (descriptorOf r.Schema).properties := by
    simp only [resourceKinds, List.mem_cons, List.mem_singleton, List.not_mem_nil, or_false] at hr
    rcases hr with rfl | rfl | rfl <;> decide
  have hlook : r.Schema.lookup "name" = some PropNameForceNewRw := by
    simp only [resourceKinds, List.mem_cons, List.mem_singleton, List.not_mem_nil, or_false] at hr
    rcases hr with rfl | rfl | rfl <;> decide
  have hupd : r.UpdateContext = .DefaultUpdate r.Schema := by
    simp only [resourceKinds, List.mem_cons, List.mem_singleton, List.not_mem_nil, or_false] at hr
    rcases hr with rfl | rfl | rfl <;> rfl
  refine ⟨hlook, by decide, hupd, ?_⟩
  intro c identity observed desired hne
  have hplan : planUpdate c r.Schema identity observed desired = .ConflictForceNew := by
    apply planUpdate_conflict c r.Schema identity observed desired ("name", PropNameForceNewRw)
      hmem (by decide)
    rw [sameValue_of_not_list _ (by decide)]
    simpa using hne
  exact ⟨hplan, fun Dev rc dev =>
    Update_of_conflict rc c r.Schema dev identity observed desired hplan⟩

/-- C1, at a concrete input: renaming the ethernet interface `ether1` to `ether2`. -/
theorem name_change_yields_conflict_force_new_witness :
    ResourceInterfaceEthernet ∈ resourceKinds ∧
    (([("name", .str "ether1")] : State).lookup "name"
        ≠ ([("name", .str "ether2")] : State).lookup "name") ∧
    planUpdate wireCodec ResourceInterfaceEthernet.Schema "ether1"
      [("name", .str "ether1")] [("name", .str "ether2")] = .ConflictForceNew :=
  ⟨by decide, by decide,
    ((name_change_yields_conflict_force_new ResourceInterfaceEthernet (by decide)).2.2.2
      wireCodec "ether1" [("name", .str "ether1")] [("name", .str "ether2")] (by decide)).1⟩

/-- Where a field of the create payload comes from: a writable property of the descriptor
that the desired state sets, carrying the encoded desired value. -/
theorem mem_toRemote (c : Codec) (desired : State) (d : ResourceDescriptor) (f : String × String)
    (h : f ∈ toRemote c desired d) :
    ∃ s v, (f.1, s) ∈ d.properties ∧ s.mutability ≠ .ReadOnly ∧
      desired.lookup f.1 = some v ∧ f.2 = c.encode v := by
  simp only [toRemote, List.mem_filterMap] at h
  obtain ⟨e, he, hf⟩ := h
  by_cases hro : e.2.mutability = .ReadOnly
  · simp [hro] at hf
  · simp only [hro, if_false] at hf
    cases hv : desired.lookup e.1 with
    | none => simp [hv] at hf
    | some v =>
      simp only [hv] at hf
      by_cases hd : e.2.Default = some v
      · simp [hd] at hf
      · simp only [hd, if_false, Option.some.injEq] at hf
        subst hf
        exact ⟨e.2, v, he, hro, hv, rfl⟩

/-- Where a field of a set call of an update comes from: a writable property of the
descriptor that the desired state sets, carrying the encoded desired value. -/
theorem mem_planUpdate (c : Codec) (t : Table) (identity : String) (observed desired : State)
    (calls : List SetCall) (h : planUpdate c t identity observed desired = .apply calls)
    (call : SetCall) (hc : call ∈ calls) (f : String × String) (hf : f ∈ call.fields) :
    ∃ s v, (f.1, s) ∈ (descriptorOf t).properties ∧ s.mutability ≠ .ReadOnly ∧
      desired.lookup f.1 = some v ∧ f.2 = c.encode v := by
  have key : ∀ e : String × Schema,
      e ∈ changedProperties (descriptorOf t) observed desired →
      e.2.mutability ≠ .ReadOnly → changedField c desired e = some f →
      ∃ s v, (f.1, s) ∈ (descriptorOf t).properties ∧ s.mutability ≠ .ReadOnly ∧
        desired.lookup f.1 = some v ∧ f.2 = c.encode v := by
    intro e he hro hfe
    simp only [changedField, Option.map_eq_some'] at hfe
    obtain ⟨v, hv, rfl⟩ := hfe
    exact ⟨e.2, v, (List.mem_filter.mp he).1, hro, hv, rfl⟩
  simp only [planUpdate] at h
  split at h
  · exact absurd h (by simp)
  · simp only [UpdatePlan.apply.injEq] at h
    subst h
    rcases List.mem_append.mp hc with h1 | h2
    · split at h1
      · exact absurd h1 (by simp)
      · simp only [List.mem_singleton] at h1
        subst h1
        simp only [scalarFields, List.mem_filterMap, List.mem_filter, Bool.and_eq_true,
          decide_eq_true_eq] at hf
        obtain ⟨e, ⟨he, hro, _⟩, hfe⟩ := hf
        exact key e he hro hfe
    · simp only [listCalls, List.mem_filterMap, List.mem_filter, Bool.and_eq_true,
        decide_eq_true_eq, Option.map_eq_some'] at h2
      obtain ⟨e, ⟨he, hro, _⟩, g, hg, rfl⟩ := h2
      simp only [List.mem_singleton] at hf
      subst hf
      exact key e he hro hg

/-- C2: for every resource kind and every desired state, neither the payload of a create
(`toRemote`) nor any set call of an update carries the key of a computed-only property;
the computed-only properties are `orig_mac_address`, `running`, `slave`, `switch` for
ethernet, `actual_mtu`, `interface_type`, `update_stats_interval`, `wds_cost_range`,
`vlan_mode`, `running`, `vlan_id` for wireless, and `default` for security profiles. -/
theorem write_payload_excludes_read_only :
    readOnlyKeys ResourceInterfaceEthernet.Schema
      = ["orig_mac_address", "running", "slave", "switch"] ∧
    readOnlyKeys ResourceInterfaceWireless.Schema
      = ["actual_mtu", "interface_type", "update_stats_interval", "wds_cost_range",
         "vlan_mode", "running", "vlan_id"] ∧
    readOnlyKeys ResourceInterfaceWirelessSecurityProfiles.Schema = ["default"] ∧
    ∀ r ∈ resourceKinds, ∀ k ∈ readOnlyKeys r.Schema,
      ∀ (c : Codec) (desired : State),
        k ∉ (toRemote c desired (descriptorOf r.Schema)).map Prod.fst ∧
        ∀ (identity : String) (observed : State) (calls : List SetCall),
          planUpdate c r.Schema identity observed desired = .apply calls →
            ∀ call ∈ calls, k ∉ call.fields.map Prod.fst := by
  refine ⟨by decide, by decide, by decide, ?_⟩
  intro r hr k hk c desired
  have hro : ∀ s, (k, s) ∈ (descriptorOf r.Schema).properties → s.mutability = .ReadOnly := by
    have hall : ∀ e ∈ (descriptorOf r.Schema).properties,
        e.1 ∈ readOnlyKeys r.Schema → e.2.mutability = .ReadOnly := by
      simp only [resourceKinds, List.mem_cons, List.mem_singleton, List.not_mem_nil,
        or_false] at hr
      rcases hr with rfl | rfl | rfl <;> decide
    intro s hs
    exact hall (k, s) hs hk
  constructor
  · intro hmem
    obtain ⟨f, hf, rfl⟩ := List.mem_map.mp hmem
    obtain ⟨s, _, hs, hne, _⟩ := mem_toRemote c desired _ f hf
    exact hne (hro s hs)
  · intro identity observed calls hplan call hcall hmem
    obtain ⟨f, hf, rfl⟩ := List.mem_map.mp hmem
    obtain ⟨s, _, hs, hne, _⟩ := mem_planUpdate c r.Schema identity observed desired calls hplan
      call hcall f hf
    exact hne (hro s hs)

/-- C2, at a concrete input: a desired state of an ethernet interface that sets the
computed-only `running` next to `mtu`; the payload carries `mtu` and not `running`. -/
theorem write_payload_excludes_read_only_witness :
    ResourceInterfaceEthernet ∈ resourceKinds ∧
    "running" ∈ readOnlyKeys ResourceInterfaceEthernet.Schema ∧
    toRemote wireCodec [("name", .str "ether1"), ("running", .bool true), ("mtu", .int 1500)]
      (descriptorOf ResourceInterfaceEthernet.Schema) = [("mtu", "1500"), ("name", "ether1")] ∧
    "running" ∉ (toRemote wireCodec
      [("name", .str "ether1"), ("running", .bool true), ("mtu", .int 1500)]
      (descriptorOf ResourceInterfaceEthernet.Schema)).map Prod.fst :=
  ⟨by decide, by decide, by decide,
    (write_payload_excludes_read_only.2.2.2 ResourceInterfaceEthernet (by decide) "running"
      (by decide) wireCodec
      [("name", .str "ether1"), ("running", .bool true), ("mtu", .int 1500)]).1⟩

/-- A lookup skips an entry with another key. -/
theorem lookup_cons_of_ne {β : Type} (k : String) (a : String × β) (l : List (String × β))
    (h : k ≠ a.1) : List.lookup k (a :: l) = List.lookup k l := by
  obtain ⟨ak, av⟩ := a
  have : (k == ak) = false := by simpa using h
  simp [List.lookup_cons, this]

/-- A lookup stops at an entry with the key. -/
theorem lookup_cons_of_eq {β : Type} (k : String) (a : String × β) (l : List (String × β))
    (h : k = a.1) : List.lookup k (a :: l) = some a.2 := by
  obtain ⟨ak, av⟩ := a
  simp only at h
  subst h
  simp

/-- A key-preserving `filterMap` has no entry for a key the list does not have. -/
theorem lookup_filterMap_of_not_mem {α β : Type} (g : String × α → Option (String × β))
    (hg : ∀ e r, g e = some r → r.1 = e.1) (k : String) :
    ∀ l : List (String × α), k ∉ l.map Prod.fst → (l.filterMap g).lookup k = none := by
  intro l
  induction l with
  | nil => intro _; rfl
  | cons a l ih =>
    intro hk
    simp only [List.map_cons, List.mem_cons, not_or] at hk
    cases hga : g a with
    | none => rw [List.filterMap_cons_none hga]; exact ih hk.2
    | some r =>
      rw [List.filterMap_cons_some hga, lookup_cons_of_ne k r _ (by rw [hg a r hga]; exact hk.1)]
      exact ih hk.2

/-- In a list with distinct keys, a key-preserving `filterMap` holds under the key of an
entry what the entry was mapped to. -/
theorem lookup_filterMap_of_mem {α β : Type} (g : String × α → Option (String × β))
    (hg : ∀ e r, g e = some r → r.1 = e.1) :
    ∀ l : List (String × α), (l.map Prod.fst).Nodup → ∀ e ∈ l,
      (l.filterMap g).lookup e.1 = (g e).map Prod.snd := by
  intro l
  induction l with
  | nil => intro _ e he; exact absurd he (List.not_mem_nil e)
  | cons a l ih =>
    intro hnd e he
    simp only [List.map_cons, List.nodup_cons] at hnd
    rcases List.mem_cons.mp he with rfl | hel
    · cases hga : g e with
      | none =>
        rw [List.filterMap_cons_none hga]
        exact lookup_filterMap_of_not_mem g hg e.1 l hnd.1
      | some r =>
        rw [List.filterMap_cons_some hga, lookup_cons_of_eq e.1 r _ (hg e r hga).symm]
        rfl
    · have hne : e.1 ≠ a.1 := by
        intro h
        exact hnd.1 (h ▸ List.mem_map_of_mem Prod.fst hel)
      cases hga : g a with
      | none => rw [List.filterMap_cons_none hga]; exact ih hnd.2 e hel
      | some r =>
        rw [List.filterMap_cons_some hga,
          lookup_cons_of_ne e.1 r _ (by rw [hg a r hga]; exact hne)]
        exact ih hnd.2 e hel

/-- The entries `toRemote` and `fromRemote` build keep the key of the property. -/
theorem toRemote_lookup (c : Codec) (desired : State) (d : ResourceDescriptor)
    (hnd : (d.properties.map Prod.fst).Nodup) (e : String × Schema) (he : e ∈ d.properties)
    (hw : e.2.mutability ≠ .ReadOnly) (v : Value) (hv : desired.lookup e.1 = some v) :
    (toRemote c desired d).lookup e.1
      = if e.2.Default = some v then none else some (c.encode v) := by
  unfold toRemote
  rw [lookup_filterMap_of_mem _ _ d.properties hnd e he]
  · simp only [hw, if_false, hv]
    split <;> rfl
  · intro a r har
    by_cases h1 : a.2.mutability = .ReadOnly
    · simp [h1] at har
    · simp only [h1, if_false] at har
      split at har
      · split at har
        · exact absurd har (by simp)
        · simp only [Option.some.injEq] at har
          rw [← har]
      · exact absurd har (by simp)

/-- In a descriptor with distinct keys, the decoded state holds under the key of a property
what `decodeProperty` makes of it. -/
theorem fromRemote_lookup (c : Codec) (record : RemoteRecord) (d : ResourceDescriptor)
    (hnd : (d.properties.map Prod.fst).Nodup) (e : String × Schema) (he : e ∈ d.properties) :
    (fromRemote c record d).state.lookup e.1 = (decodeProperty c record e).map Prod.snd := by
  unfold fromRemote
  simp only
  apply lookup_filterMap_of_mem _ _ d.properties hnd e he
  intro a r har
  unfold decodeProperty at har
  split at har
  · simp only [Option.map_eq_some'] at har
    obtain ⟨v, _, rfl⟩ := har
    rfl
  · simp only [Option.map_eq_some'] at har
    obtain ⟨v, _, rfl⟩ := har
    rfl

/-- A desired state passes validation exactly when every property does. -/
theorem validate_eq_nil_iff (t : Table) (desired : State) :
    validate t desired = [] ↔
      ∀ e ∈ (descriptorOf t).properties, validateProperty e.2 (desired.lookup e.1) = true := by
  unfold validate
  rw [List.filterMap_eq_nil_iff]
  constructor
  · intro h e he
    have := h e he
    by_contra hne
    simp [hne] at this
  · intro h e he
    simp [h e he]


/-- The character of a decimal digit is a digit, stands for its number, and is neither a
minus sign nor a comma. -/
theorem digitChar_spec (k : Nat) (hk : k < 10) :
    (Nat.digitChar k).isDigit = true ∧ (Nat.digitChar k).toNat - 48 = k ∧
      Nat.digitChar k ≠ '-' ∧ Nat.digitChar k ≠ ',' := by
  interval_cases k <;> decide

/-- The decimal digits of a number, as `Nat.toDigitsCore` puts them before what it is given:
they are digits, at least one, and read from the left they give the number back. -/
theorem toDigitsCore_spec :
    ∀ (fuel n : Nat) (ds : List Char), n < fuel →
      ∃ pre : List Char, Nat.toDigitsCore 10 fuel n ds = pre ++ ds ∧ pre ≠ [] ∧
        (∀ ch ∈ pre, ch.isDigit = true ∧ ch ≠ '-' ∧ ch ≠ ',') ∧
        pre.foldl (fun n ch => 10 * n + (ch.toNat - 48)) 0 = n := by
  intro fuel
  induction fuel with
  | zero => intro n ds h; exact absurd h (Nat.not_lt_zero n)
  | succ fuel ih =>
    intro n ds hn
    have hd := digitChar_spec (n % 10) (Nat.mod_lt n (by decide))
    by_cases h0 : n / 10 = 0
    · refine ⟨[Nat.digitChar (n % 10)], ?_, by simp, ?_, ?_⟩
      · simp [Nat.toDigitsCore, h0]
      · intro ch hch
        rw [List.mem_singleton] at hch
        subst hch
        exact ⟨hd.1, hd.2.2.1, hd.2.2.2⟩
      · simp only [List.foldl_cons, List.foldl_nil, hd.2.1]
        have := Nat.div_add_mod n 10
        omega
    · have hlt : n / 10 < fuel := by omega
      obtain ⟨pre, hpre, _, hall, hval⟩ := ih (n / 10) (Nat.digitChar (n % 10) :: ds) hlt
      refine ⟨pre ++ [Nat.digitChar (n % 10)], ?_, by simp, ?_, ?_⟩
      · simp [Nat.toDigitsCore, h0, hpre]
      · intro ch hch
        rw [List.mem_append, List.mem_singleton] at hch
        rcases hch with hch | rfl
        · exact hall ch hch
        · exact ⟨hd.1, hd.2.2.1, hd.2.2.2⟩
      · rw [List.foldl_append, hval]
        simp only [List.foldl_cons, List.foldl_nil, hd.2.1]
        have := Nat.div_add_mod n 10
        omega

/-- The decimal text of a natural number is not empty, holds digits only, and read from the
left gives the number back. -/
theorem toString_nat_spec (n : Nat) :
    (toString n).toList ≠ [] ∧
      (∀ ch ∈ (toString n).toList, ch.isDigit = true ∧ ch ≠ '-' ∧ ch ≠ ',') ∧
      (toString n).toList.foldl (fun n ch => 10 * n + (ch.toNat - 48)) 0 = n := by
  obtain ⟨pre, hpre, hne, hall, hval⟩ := toDigitsCore_spec (n + 1) n [] (Nat.lt_succ_self n)
  have h : (toString n).toList = pre := by
    show (Nat.repr n).toList = pre
    simp [Nat.repr, Nat.toDigits, hpre, List.asString]
  rw [h]
  exact ⟨hne, hall, hval⟩

/-- A natural number is decoded from its decimal text. -/
theorem decodeNat_toString (n : Nat) : decodeNat (toString n).toList = some n := by
  obtain ⟨hne, hall, hval⟩ := toString_nat_spec n
  unfold decodeNat
  have h1 : (toString n).toList.isEmpty = false := by
    cases h : (toString n).toList with
    | nil => exact absurd h hne
    | cons _ _ => rfl
  have h2 : (toString n).toList.all Char.isDigit = true := by
    rw [List.all_eq_true]
    intro ch hch
    exact (hall ch hch).1
  rw [h1, h2, hval]
  rfl

/-- An integer is decoded from its decimal text. -/
theorem decodeInt_toString (i : Int) : decodeInt (toString i).toList = some i := by
  cases i with
  | ofNat n =>
    have hs : (toString (Int.ofNat n)).toList = (toString n).toList := rfl
    rw [hs]
    obtain ⟨hne, hall, _⟩ := toString_nat_spec n
    have hdec := decodeNat_toString n
    cases hl : (toString n).toList with
    | nil => exact absurd hl hne
    | cons ch cs =>
      rw [hl] at hdec hall
      have hch : ch ≠ '-' := (hall ch (List.mem_cons_self _ _)).2.1
      unfold decodeInt
      split
      · rename_i heq
        injection heq with h1 h2
        exact absurd h1 hch
      · rw [hdec]
        rfl
  | negSucc n =>
    have hs : (toString (Int.negSucc n)).toList = '-' :: (toString (n + 1)).toList := by
      show ("-" ++ toString (Nat.succ n)).toList = _
      simp
    rw [hs]
    simp only [decodeInt, decodeNat_toString]
    simp [Int.negSucc_eq]

/-- The decimal text of an integer is not empty and holds no comma. -/
theorem toString_int_spec (i : Int) :
    (toString i).toList ≠ [] ∧ ∀ ch ∈ (toString i).toList, ch ≠ ',' := by
  cases i with
  | ofNat n =>
    have hs : (toString (Int.ofNat n)).toList = (toString n).toList := rfl
    rw [hs]
    obtain ⟨hne, hall, _⟩ := toString_nat_spec n
    exact ⟨hne, fun ch hch => (hall ch hch).2.2⟩
  | negSucc n =>
    have hs : (toString (Int.negSucc n)).toList = '-' :: (toString (n + 1)).toList := by
      show ("-" ++ toString (Nat.succ n)).toList = _
      simp
    rw [hs]
    obtain ⟨_, hall, _⟩ := toString_nat_spec (n + 1)
    refine ⟨by simp, ?_⟩
    intro ch hch
    rcases List.mem_cons.mp hch with rfl | h
    · decide
    · exact (hall ch h).2.2

/-- A scalar of the declared type is decoded from its wire text. -/
theorem decodeScalar_encodeScalar (ty : ValueType) (x : Scalar)
    (h : scalarTypeMatches ty x = true) : decodeScalar ty (encodeScalar x) = some x := by
  cases x with
  | bool b =>
    cases ty <;> simp [scalarTypeMatches] at h
    cases b <;> decide
  | int i =>
    cases ty <;> simp [scalarTypeMatches] at h
    show (decodeInt (toString i).toList).map Scalar.int = some (.int i)
    rw [decodeInt_toString]
    rfl
  | str s =>
    cases ty <;> simp [scalarTypeMatches] at h
    rfl

/-- The wire text of a list element without comma holds no comma. -/
theorem encodeScalar_noComma (x : Scalar) (h : x.hasNoComma = true) :
    ∀ ch ∈ (encodeScalar x).toList, ch ≠ ',' := by
  cases x with
  | bool b => cases b <;> decide
  | int i => exact (toString_int_spec i).2
  | str s =>
    intro ch hch hc
    subst hc
    simp [Scalar.hasNoComma] at h
    exact h hch

/-- The characters of texts joined by commas, after what was joined so far. -/
theorem intercalate_go_toList :
    ∀ (ss : List String) (acc : String),
      (String.intercalate.go acc "," ss).toList
        = acc.toList ++ ss.flatMap fun t => ',' :: t.toList := by
  intro ss
  induction ss with
  | nil => intro acc; simp [String.intercalate.go]
  | cons s ss ih =>
    intro acc
    rw [String.intercalate.go, ih]
    simp

/-- A text always splits into at least one piece. -/
theorem splitOnComma_ne_nil : ∀ cs : List Char, splitOnComma cs ≠ [] := by
  intro cs
  induction cs with
  | nil => simp [splitOnComma]
  | cons ch cs ih =>
    unfold splitOnComma
    split
    · simp
    · split <;> simp

/-- A comma in front opens an empty piece. -/
theorem splitOnComma_cons_comma (cs : List Char) :
    splitOnComma (',' :: cs) = [] :: splitOnComma cs := by
  rw [splitOnComma]
  split
  · rename_i h
    exact absurd h (splitOnComma_ne_nil cs)
  · rename_i w ws h
    simp [h]

/-- Another character in front goes into the first piece. -/
theorem splitOnComma_cons_other (ch : Char) (cs w : List Char) (ws : List (List Char))
    (hch : ch ≠ ',') (h : splitOnComma cs = w :: ws) :
    splitOnComma (ch :: cs) = (ch :: w) :: ws := by
  rw [splitOnComma, h]
  simp [hch]

/-- A text without comma is one piece, and the first piece of what it is followed by after a
comma. -/
theorem splitOnComma_segment (a : List Char) (ha : ∀ ch ∈ a, ch ≠ ',') :
    splitOnComma a = [a] ∧
      ∀ rest, splitOnComma (a ++ ',' :: rest) = a :: splitOnComma rest := by
  induction a with
  | nil => exact ⟨rfl, fun rest => splitOnComma_cons_comma rest⟩
  | cons ch a ih =>
    obtain ⟨h1, h2⟩ := ih fun c hc => ha c (List.mem_cons_of_mem _ hc)
    have hch := ha ch (List.mem_cons_self _ _)
    refine ⟨splitOnComma_cons_other ch a a [] hch h1, fun rest => ?_⟩
    exact splitOnComma_cons_other ch _ a _ hch (h2 rest)

/-- Pieces without commas, joined by commas, split into themselves. -/
theorem splitOnComma_joined (a : List Char) (ha : ∀ ch ∈ a, ch ≠ ',') :
    ∀ segs : List (List Char), (∀ s ∈ segs, ∀ ch ∈ s, ch ≠ ',') →
      splitOnComma (a ++ segs.flatMap fun t => ',' :: t) = a :: segs := by
  intro segs
  induction segs generalizing a with
  | nil => intro _; simpa using (splitOnComma_segment a ha).1
  | cons s segs ih =>
    intro hs
    have h := (splitOnComma_segment a ha).2 (s ++ segs.flatMap fun t => ',' :: t)
    simp only [List.flatMap_cons, List.cons_append]
    rw [h, ih s (hs s (List.mem_cons_self _ _)) fun t ht => hs t (List.mem_cons_of_mem _ ht)]


/-- The characters of texts joined by commas. -/
theorem intercalate_toList (s : String) (ss : List String) :
    (String.intercalate "," (s :: ss)).toList
      = s.toList ++ (ss.map String.toList).flatMap fun t => ',' :: t := by
  rw [String.intercalate, intercalate_go_toList]
  simp [List.flatMap_map]

/-- The wire texts of scalars of the declared type are decoded back, one by one. -/
theorem mapM_decodeScalar (ty : ValueType) :
    ∀ xs : List Scalar, (∀ x ∈ xs, scalarTypeMatches ty x = true) →
      ((xs.map fun x => (encodeScalar x).toList).mapM fun cs =>
        decodeScalar ty (String.mk cs)) = some xs := by
  intro xs
  induction xs with
  | nil => intro _; rfl
  | cons x xs ih =>
    intro h
    have hx := decodeScalar_encodeScalar ty x (h x (List.mem_cons_self _ _))
    have hxs := ih fun y hy => h y (List.mem_cons_of_mem _ hy)
    simp only [List.map_cons, List.mapM_cons]
    have hmk : String.mk (encodeScalar x).toList = encodeScalar x := rfl
    rw [hmk, hx, hxs]
    rfl

/-- The wire codec reads the wire text of a list back as the list, when the elements have
the element type, no string element holds a comma, and the list is not the one empty
string. -/
theorem wireCodec_decode_list (s : Schema) (el : ElemSchema) (xs : List Scalar)
    (hT : isListType s.Typ = true) (hel : s.Elem = some el)
    (hty : ∀ x ∈ xs, scalarTypeMatches el.Typ x = true)
    (hcomma : ∀ x ∈ xs, x.hasNoComma = true) (hempty : xs ≠ [.str ""]) :
    wireCodec.decode s (wireCodec.encode (.list xs)) = some (.list xs) := by
  have hdec : wireCodec.decode s (wireCodec.encode (.list xs))
      = if String.intercalate "," (xs.map encodeScalar) = "" then some (.list [])
        else ((splitOnComma (String.intercalate "," (xs.map encodeScalar)).toList).mapM
          fun cs => decodeScalar el.Typ (String.mk cs)).map Value.list := by
    cases hs : s.Typ <;> simp [hs, isListType] at hT <;> simp [wireCodec, hs, hel]
  rw [hdec]
  cases xs with
  | nil => rfl
  | cons x rest =>
    have hl : (String.intercalate "," ((x :: rest).map encodeScalar)).toList
        = (encodeScalar x).toList
          ++ (rest.map fun y => (encodeScalar y).toList).flatMap fun t => ',' :: t := by
      simp only [List.map_cons, intercalate_toList, List.map_map]
      rfl
    have hne : String.intercalate "," ((x :: rest).map encodeScalar) ≠ "" := by
      intro h
      have h2 : (String.intercalate "," ((x :: rest).map encodeScalar)).toList = [] := by
        rw [h]
        rfl
      rw [hl] at h2
      cases rest with
      | nil =>
        simp only [List.map_nil, List.flatMap_nil, List.append_nil] at h2
        cases x with
        | bool b => cases b <;> simp [encodeScalar] at h2
        | int i => exact (toString_int_spec i).1 h2
        | str t =>
          apply hempty
          have : t = "" := by
            apply String.ext
            exact h2
          rw [this]
      | cons y rest => simp at h2
    have hsplit : splitOnComma (String.intercalate "," ((x :: rest).map encodeScalar)).toList
        = (encodeScalar x).toList :: rest.map fun y => (encodeScalar y).toList := by
      rw [hl]
      apply splitOnComma_joined
      · exact encodeScalar_noComma x (hcomma x (List.mem_cons_self _ _))
      · intro t ht
        rw [List.mem_map] at ht
        obtain ⟨y, hy, rfl⟩ := ht
        exact encodeScalar_noComma y (hcomma y (List.mem_cons_of_mem _ hy))
    rw [if_neg hne, hsplit]
    have hm := mapM_decodeScalar el.Typ (x :: rest) hty
    simp only [List.map_cons] at hm
    rw [hm]
    rfl

/-- The wire codec reads the wire text of a validated value back as the value, when the
value survives the wire form and a list-valued descriptor has an element schema. -/
theorem wireCodec_decode_encode (s : Schema) (v : Value) (helem : s.hasElem = true)
    (hv : validateValue s v = true) (hw : v.survivesWire = true) :
    wireCodec.decode s (wireCodec.encode v) = some v := by
  unfold validateValue at hv
  rw [Bool.and_eq_true] at hv
  obtain ⟨hty, hrest⟩ := hv
  cases v with
  | bool b =>
    have hT : s.Typ = .TypeBool := by
      cases hs : s.Typ <;> simp [hs, typeMatches] at hty
      rfl
    cases b <;> simp [wireCodec, hT] <;> decide
  | int i =>
    have hT : s.Typ = .TypeInt := by
      cases hs : s.Typ <;> simp [hs, typeMatches] at hty
      rfl
    show (match s.Typ with
      | .TypeBool => _
      | .TypeInt => (decodeInt (toString i).toList).map Value.int
      | .TypeString => _
      | .TypeList | .TypeSet => _
      | _ => _) = some (.int i)
    rw [hT]
    simp only [decodeInt_toString]
    rfl
  | str x =>
    have hT : s.Typ = .TypeString := by
      cases hs : s.Typ <;> simp [hs, typeMatches] at hty
      rfl
    simp [wireCodec, hT]
  | list xs =>
    have hT : isListType s.Typ = true := by
      cases hs : s.Typ <;> simp [hs, typeMatches] at hty <;> rfl
    have hsome : s.Elem.isSome = true := by
      simpa [Schema.hasElem, hT] using helem
    obtain ⟨el, hel⟩ := Option.isSome_iff_exists.mp hsome
    simp only [Bool.and_eq_true, List.all_eq_true, decide_eq_true_eq] at hrest
    simp only [Value.survivesWire, Bool.and_eq_true, List.all_eq_true,
      decide_eq_true_eq] at hw
    apply wireCodec_decode_list s el xs hT hel _ hw.1 hw.2
    intro x hx
    have := hrest.2 x hx
    rw [hel] at this
    simp only [validateElem, Bool.and_eq_true] at this
    exact this.1

/-- The round trip on a device that keeps what is written, with a codec that decodes what
it encodes: create succeeds with the identity the device answers, the read after it yields
the same observed state, and every writable property the desired state sets reads back
with the desired value. -/
theorem round_trip_of_kept {Dev : Type} (rc : RemoteClient Dev) (c : Codec) (t : Table)
    (dev : Dev) (desired : State) (identity : String) (dev1 : Dev)
    (hnd : ((descriptorOf t).properties.map Prod.fst).Nodup)
    (hvalid : validate t desired = [])
    (hdev : KeepsAsWritten rc c (descriptorOf t) dev (toRemote c desired (descriptorOf t))
      identity dev1)
    (hcodec : RoundTrips c (descriptorOf t) desired) :
    ∃ observed : Decoded,
      Create rc c t dev desired = .ok (identity, observed, dev1) ∧
      Read rc c t dev1 identity = .ok (some observed) ∧
      ∀ e ∈ (descriptorOf t).properties, e.2.mutability ≠ .ReadOnly →
        ∀ v, desired.lookup e.1 = some v → observed.state.lookup e.1 = some v := by
  obtain ⟨hadd, record, rest, hlist, _, hwritten, hdefault⟩ := hdev
  have hread : Read rc c t dev1 identity
      = .ok (some (fromRemote c record (descriptorOf t))) := by
    simp only [Read, hlist]
  refine ⟨fromRemote c record (descriptorOf t), ?_, hread, ?_⟩
  · simp only [Create, hvalid, hadd, hread]
  · intro e he hw v hv
    rw [fromRemote_lookup c record _ hnd e he]
    have hfield := toRemote_lookup c desired _ hnd e he hw v hv
    unfold decodeProperty
    by_cases hd : e.2.Default = some v
    · simp only [hd, if_true] at hfield
      rcases hdefault e he v hd hfield with hnone | hsome
      · simp [hnone, hd]
      · simp [hsome, hcodec e he v hv]
    · simp only [hd, if_false] at hfield
      simp [hwritten e.1 _ hfield, hcodec e he v hv]

/-- On a device that keeps what is written, the identity of an instance of a kind named by
its name is the name the desired state sets. -/
theorem identity_of_kept {Dev : Type} (rc : RemoteClient Dev) (c : Codec) (t : Table)
    (dev : Dev) (desired : State) (identity : String) (dev1 : Dev) (name : String)
    (hnd : ((descriptorOf t).properties.map Prod.fst).Nodup)
    (hid : (descriptorOf t).identityProperty = KeyName)
    (hmem : (KeyName, PropNameForceNewRw) ∈ (descriptorOf t).properties)
    (hname : desired.lookup KeyName = some (.str name))
    (henc : c.encode (.str name) = name)
    (hdev : KeepsAsWritten rc c (descriptorOf t) dev (toRemote c desired (descriptorOf t))
      identity dev1) :
    identity = name := by
  obtain ⟨_, record, rest, _, hrid, hwritten, _⟩ := hdev
  have hfield := toRemote_lookup c desired _ hnd (KeyName, PropNameForceNewRw) hmem
    (by decide) (.str name) hname
  have hnodef : ¬ (PropNameForceNewRw.Default = some (Value.str name)) := by
    simp [PropNameForceNewRw]
  simp only [hnodef, if_false, henc] at hfield
  have h := hwritten KeyName name hfield
  rw [hid, h] at hrid
  exact (Option.some.inj hrid).symm

/-- The store keeps what is written: an add under a name that is not empty and not yet
taken is answered with that name, and the lookup by it returns the fields as written. -/
theorem storeClient_keepsAsWritten (c : Codec) (d : ResourceDescriptor) (dev : Store)
    (fields : RemoteRecord) (name : String)
    (hname : fields.lookup d.identityProperty = some name) (hne : name ≠ "")
    (hfree : dev.any (Store.isInstance d.identityProperty d.remotePathTemplate name) = false) :
    KeepsAsWritten (storeClient d.identityProperty) c d dev fields name
      (dev ++ [(d.remotePathTemplate, fields)]) := by
  refine ⟨?_, fields, [], ?_, hname, fun _ _ h => h, fun _ _ _ _ h => Or.inl h⟩
  · simp only [storeClient, hname, hne, if_false, hfree]
    rfl
  · have hnil : dev.filter (Store.isInstance d.identityProperty d.remotePathTemplate name)
        = [] := by
      rw [List.filter_eq_nil_iff]
      intro e he
      rw [List.any_eq_false] at hfree
      exact hfree e he
    have hlast : Store.isInstance d.identityProperty d.remotePathTemplate name
        (d.remotePathTemplate, fields) = true := by
      simp [Store.isInstance, hname]
    show Except.ok (((dev ++ [(d.remotePathTemplate, fields)]).filter
      (Store.isInstance d.identityProperty d.remotePathTemplate name)).map Prod.snd) = _
    rw [List.filter_append, hnil, List.filter_cons_of_pos hlast]
    rfl

/-- A validated desired state whose values survive the wire form is decoded back by the
wire codec, property by property, when the list-valued properties have element schemas. -/
theorem wireCodec_roundTrips (t : Table) (desired : State)
    (helem : ∀ e ∈ (descriptorOf t).properties, e.2.hasElem = true)
    (hvalid : validate t desired = []) (hwire : survivesWire t desired = true) :
    RoundTrips wireCodec (descriptorOf t) desired := by
  intro e he v hv
  have h1 := (validate_eq_nil_iff t desired).mp hvalid e he
  rw [hv] at h1
  have h2 : v.survivesWire = true := by
    unfold survivesWire at hwire
    rw [List.all_eq_true] at hwire
    have := hwire e he
    simpa [hv] using this
  exact wireCodec_decode_encode e.2 v (helem e he) h1 h2

/-- A validated desired state of a kind with a required string name sets the name. -/
theorem name_of_validated (t : Table) (desired : State)
    (hmem : (KeyName, PropNameForceNewRw) ∈ (descriptorOf t).properties)
    (hvalid : validate t desired = []) :
    ∃ name, desired.lookup KeyName = some (.str name) := by
  have h1 := (validate_eq_nil_iff t desired).mp hvalid _ hmem
  simp only at h1
  cases hl : desired.lookup KeyName with
  | none =>
    rw [hl] at h1
    exact absurd h1 (by decide)
  | some v =>
    rw [hl] at h1
    cases v with
    | str name => exact ⟨name, rfl⟩
    | bool b =>
      exact absurd h1
        (by simp [validateProperty, validateValue, typeMatches, PropNameForceNewRw])
    | int i =>
      exact absurd h1
        (by simp [validateProperty, validateValue, typeMatches, PropNameForceNewRw])
    | list xs =>
      exact absurd h1
        (by simp [validateProperty, validateValue, typeMatches, PropNameForceNewRw])

/-- What the round trip needs of a table: distinct property names, the name as identity
property, declared as the required force-new name, and element schemas on the list-valued
properties. The three resource kinds and the bonding table have it. -/
theorem roundTripTables_wellFormed :
    ∀ t ∈ roundTripTables,
      ((descriptorOf t).properties.map Prod.fst).Nodup ∧
      (descriptorOf t).identityProperty = KeyName ∧
      (KeyName, PropNameForceNewRw) ∈ (descriptorOf t).properties ∧
      ∀ e ∈ (descriptorOf t).properties, e.2.hasElem = true := by
  intro t ht
  simp only [roundTripTables, List.mem_cons, List.mem_singleton, List.not_mem_nil,
    or_false] at ht
  rcases ht with rfl | rfl | rfl | rfl <;> decide

/-- C3, as the claim states it, fails. The bonding state with the one slave
`ether3,ether4` passes validation and is created on the empty store, but the wire form
joins list elements by commas, so the read after the create yields the two slaves `ether3`
and `ether4`, not the desired list. The state with the empty name passes validation as
well, but the store refuses the add, so no instance with a non-empty identity comes of
it. And the list of the one empty string is written like the empty list and read back as
the empty list. -/
theorem create_then_read_splits_at_comma :
    validate ResourceInterfaceBonding.resSchema bondingWithComma = [] ∧
    bondingWithComma.lookup "slaves" = some (.list [.str "ether3,ether4"]) ∧
    Create (storeClient "name") wireCodec ResourceInterfaceBonding.resSchema []
        bondingWithComma
      = .ok ("bonding-test",
          fromRemote wireCodec [("name", "bonding-test"), ("slaves", "ether3,ether4")]
            (descriptorOf ResourceInterfaceBonding.resSchema),
          [("/interface/bonding", [("name", "bonding-test"), ("slaves", "ether3,ether4")])]) ∧
    Read (storeClient "name") wireCodec ResourceInterfaceBonding.resSchema
        [("/interface/bonding", [("name", "bonding-test"), ("slaves", "ether3,ether4")])]
        "bonding-test"
      = .ok (some (fromRemote wireCodec
          [("name", "bonding-test"), ("slaves", "ether3,ether4")]
          (descriptorOf ResourceInterfaceBonding.resSchema))) ∧
    (fromRemote wireCodec [("name", "bonding-test"), ("slaves", "ether3,ether4")]
        (descriptorOf ResourceInterfaceBonding.resSchema)).state.lookup "slaves"
      = some (.list [.str "ether3", .str "ether4"]) ∧
    (fromRemote wireCodec [("name", "bonding-test"), ("slaves", "ether3,ether4")]
        (descriptorOf ResourceInterfaceBonding.resSchema)).state.lookup "slaves"
      ≠ bondingWithComma.lookup "slaves" ∧
    validate ResourceInterfaceBonding.resSchema
        [("name", .str ""), ("slaves", .list [.str "ether3", .str "ether4"])] = [] ∧
    Create (storeClient "name") wireCodec ResourceInterfaceBonding.resSchema []
        [("name", .str ""), ("slaves", .list [.str "ether3", .str "ether4"])]
      = .error (.RemoteRejected "empty identity") ∧
    validate ResourceInterfaceBonding.resSchema
        [("name", .str "bonding-test"), ("slaves", .list [.str ""])] = [] ∧
    wireCodec.decode
        { Typ := .TypeSet, Required := true, Elem := some { Typ := .TypeString } }
        (wireCodec.encode (.list [.str ""]))
      = some (.list []) := by
  refine ⟨by decide, by decide, rfl, by decide, by decide, by decide, by decide, rfl,
    by decide, by decide⟩

/-- C3, amended: for each of the three resource kinds and the bonding table, and every
desired state that passes validation, sets a name that is not empty, and sets no list
with a string element that holds a comma nor the list of the one empty string (the wire
form joins list elements by commas). On every device that takes the add and keeps the
fields as written, create succeeds, its identity is the name and is not empty, the read
after it yields the same observed state, and every writable property the desired state
sets reads back with the desired value. The store is such a device: on every store that
does not hold the name yet, create succeeds so. -/
theorem create_then_read_round_trip :
    ∀ t ∈ roundTripTables, ∀ (desired : State),
      validate t desired = [] →
      survivesWire t desired = true →
      desired.lookup KeyName ≠ some (.str "") →
      (∀ (Dev : Type) (rc : RemoteClient Dev) (dev : Dev) (identity : String) (dev1 : Dev),
        KeepsAsWritten rc wireCodec (descriptorOf t) dev
          (toRemote wireCodec desired (descriptorOf t)) identity dev1 →
        ∃ observed : Decoded,
          Create rc wireCodec t dev desired = .ok (identity, observed, dev1) ∧
          identity ≠ "" ∧
          desired.lookup KeyName = some (.str identity) ∧
          Read rc wireCodec t dev1 identity = .ok (some observed) ∧
          ∀ e ∈ (descriptorOf t).properties, e.2.mutability ≠ .ReadOnly →
            ∀ v, desired.lookup e.1 = some v → observed.state.lookup e.1 = some v) ∧
      (∀ (dev : Store) (name : String),
        desired.lookup KeyName = some (.str name) →
        dev.any (Store.isInstance KeyName (descriptorOf t).remotePathTemplate name) = false →
        ∃ observed : Decoded,
          Create (storeClient KeyName) wireCodec t dev desired
            = .ok (name, observed,
                dev ++ [((descriptorOf t).remotePathTemplate,
                  toRemote wireCodec desired (descriptorOf t))]) ∧
          name ≠ "" ∧
          Read (storeClient KeyName) wireCodec t
              (dev ++ [((descriptorOf t).remotePathTemplate,
                toRemote wireCodec desired (descriptorOf t))]) name
            = .ok (some observed) ∧
          ∀ e ∈ (descriptorOf t).properties, e.2.mutability ≠ .ReadOnly →
            ∀ v, desired.lookup e.1 = some v → observed.state.lookup e.1 = some v) := by
  intro t ht desired hvalid hwire hnonempty
  obtain ⟨hnd, hid, hmem, helem⟩ := roundTripTables_wellFormed t ht
  have hcodec := wireCodec_roundTrips t desired helem hvalid hwire
  obtain ⟨name, hname⟩ := name_of_validated t desired hmem hvalid
  have hne : name ≠ "" := by
    intro h
    rw [h] at hname
    exact hnonempty hname
  constructor
  · intro Dev rc dev identity dev1 hdev
    have hidn := identity_of_kept rc wireCodec t dev desired identity dev1 name hnd hid hmem
      hname rfl hdev
    obtain ⟨observed, hcreate, hread, hprops⟩ :=
      round_trip_of_kept rc wireCodec t dev desired identity dev1 hnd hvalid hdev hcodec
    refine ⟨observed, hcreate, ?_, ?_, hread, hprops⟩
    · rw [hidn]
      exact hne
    · rw [hidn]
      exact hname
  · intro dev name2 hname2 hfree
    have hn : name2 = name := by
      rw [hname] at hname2
      injection hname2 with h
      injection h with h
      exact h.symm
    subst hn
    have hfield : (toRemote wireCodec desired (descriptorOf t)).lookup
        (descriptorOf t).identityProperty = some name2 := by
      rw [hid]
      have h := toRemote_lookup wireCodec desired _ hnd (KeyName, PropNameForceNewRw) hmem
        (by decide) (.str name2) hname
      have hnodef : ¬ (PropNameForceNewRw.Default = some (Value.str name2)) := by
        simp [PropNameForceNewRw]
      simpa only [hnodef, if_false] using h
    have hdev := storeClient_keepsAsWritten wireCodec (descriptorOf t) dev
      (toRemote wireCodec desired (descriptorOf t)) name2 hfield hne (by rw [hid]; exact hfree)
    rw [hid] at hdev
    obtain ⟨observed, hcreate, hread, hprops⟩ :=
      round_trip_of_kept (storeClient KeyName) wireCodec t dev desired name2 _ hnd hvalid
        hdev hcodec
    exact ⟨observed, hcreate, hne, hread, hprops⟩

/-- C3, at the acceptance test and at a wireless interface: creating the bonding
interface `bonding-test` with slaves `ether3` and `ether4` on the empty store reads back
`name = "bonding-test"` and the two slaves; creating a wireless interface with a boolean,
two integers, a list of strings and a list of integers set reads each of them back. -/
theorem create_then_read_round_trip_witness :
    validate ResourceInterfaceBonding.resSchema testAccInterfaceBondingConfig = [] ∧
    survivesWire ResourceInterfaceBonding.resSchema testAccInterfaceBondingConfig = true ∧
    testAccInterfaceBondingConfig.lookup KeyName ≠ some (.str "") ∧
    (∃ observed : Decoded,
      Create (storeClient KeyName) wireCodec ResourceInterfaceBonding.resSchema []
          testAccInterfaceBondingConfig
        = .ok ("bonding-test", observed, bondingStore) ∧
      Read (storeClient KeyName) wireCodec ResourceInterfaceBonding.resSchema bondingStore
          "bonding-test" = .ok (some observed) ∧
      observed.state.lookup "name" = some (.str "bonding-test") ∧
      observed.state.lookup "slaves" = some (.list [.str "ether3", .str "ether4"])) ∧
    validate ResourceInterfaceWireless.resSchema wlanDesired = [] ∧
    survivesWire ResourceInterfaceWireless.resSchema wlanDesired = true ∧
    wlanDesired.lookup KeyName ≠ some (.str "") ∧
    (∃ (observed : Decoded) (dev1 : Store),
      Create (storeClient KeyName) wireCodec ResourceInterfaceWireless.resSchema []
          wlanDesired
        = .ok ("wlan1", observed, dev1) ∧
      observed.state.lookup "name" = some (.str "wlan1") ∧
      observed.state.lookup "disabled" = some (.bool false) ∧
      observed.state.lookup "frequency_offset" = some (.int (-20)) ∧
      observed.state.lookup "l2mtu" = some (.int 1600) ∧
      observed.state.lookup "supported_rates_b" = some (.list [.str "1Mbps", .str "2Mbps"]) ∧
      observed.state.lookup "ampdu_priorities" = some (.list [.int 0, .int 3])) := by
  have hb1 : validate ResourceInterfaceBonding.resSchema testAccInterfaceBondingConfig = [] := by
    decide
  have hb2 : survivesWire ResourceInterfaceBonding.resSchema testAccInterfaceBondingConfig
      = true := by decide
  have hb3 : testAccInterfaceBondingConfig.lookup KeyName ≠ some (.str "") := by decide
  have hw1 : validate ResourceInterfaceWireless.resSchema wlanDesired = [] := by decide
  have hw2 : survivesWire ResourceInterfaceWireless.resSchema wlanDesired = true := by decide
  have hw3 : wlanDesired.lookup KeyName ≠ some (.str "") := by decide
  obtain ⟨ob, hbc, _, hbr, hbp⟩ :=
    (create_then_read_round_trip ResourceInterfaceBonding.resSchema (by decide)
      testAccInterfaceBondingConfig hb1 hb2 hb3).2 [] "bonding-test" (by decide) (by decide)
  obtain ⟨ow, hwc, _, _, hwp⟩ :=
    (create_then_read_round_trip ResourceInterfaceWireless.resSchema (by decide)
      wlanDesired hw1 hw2 hw3).2 [] "wlan1" (by decide) (by decide)
  have hstore : ([] : Store)
      ++ [((descriptorOf ResourceInterfaceBonding.resSchema).remotePathTemplate,
          toRemote wireCodec testAccInterfaceBondingConfig
            (descriptorOf ResourceInterfaceBonding.resSchema))] = bondingStore := by decide
  rw [hstore] at hbc hbr
  refine ⟨hb1, hb2, hb3, ⟨ob, hbc, hbr, ?_, ?_⟩, hw1, hw2, hw3, ow, _, hwc, ?_, ?_, ?_, ?_,
    ?_, ?_⟩
  · exact hbp (KeyName, PropNameForceNewRw) (by decide) (by decide) _ (by decide)
  · exact hbp
      ("slaves", { Typ := .TypeSet, Required := true, Elem := some { Typ := .TypeString } })
      (by decide) (by decide) _ (by decide)
  · exact hwp (KeyName, PropNameForceNewRw) (by decide) (by decide) _ (by decide)
  · exact hwp (KeyDisabled, PropDisabledRw) (by decide) (by decide) _ (by decide)
  · exact hwp
      ("frequency_offset",
        { Typ := .TypeInt, Optional := true,
          ValidateFunc := some (.IntBetween (-2147483648) 2147483647) })
      (by decide) (by decide) _ (by decide)
  · exact hwp
      ("l2mtu",
        { Typ := .TypeInt, Optional := true, Computed := true,
          ValidateFunc := some (.IntBetween 0 65536) })
      (by decide) (by decide) _ (by decide)
  · exact hwp
      ("supported_rates_b",
        { Typ := .TypeList, Optional := true,
          Elem := some { Typ := .TypeString,
                         ValidateFunc := some (.StringInSlice
                           ["11Mbps", "1Mbps", "2Mbps", "5.5Mbps"] false) } })
      (by decide) (by decide) _ (by decide)
  · exact hwp
      ("ampdu_priorities",
        { Typ := .TypeList, Optional := true,
          Elem := some { Typ := .TypeInt, ValidateFunc := some (.IntBetween 0 7) } })
      (by decide) (by decide) _ (by decide)

/-- The store removes on request, for a descriptor whose identity property is the field the
store finds instances by. -/
theorem storeClient_removesOnRequest (d : ResourceDescriptor) :
    RemovesOnRequest (storeClient d.identityProperty) d := by
  intro dev identity
  by_cases h : dev.any (Store.isInstance d.identityProperty d.remotePathTemplate identity) = true
  · right
    refine ⟨dev.filter fun e =>
      !Store.isInstance d.identityProperty d.remotePathTemplate identity e, ?_, ?_⟩
    · simp only [storeClient, h, if_true]
    · simp only [storeClient, List.filter_filter]
      congr 1
      rw [List.map_eq_nil_iff, List.filter_eq_nil_iff]
      intro e _
      simp only [Store.isInstance]
      cases (e.1 == d.remotePathTemplate && List.lookup d.identityProperty e.2 == some identity)
        <;> simp
  · left
    constructor
    · simp only [storeClient, h]
      rfl
    · simp only [storeClient]
      congr 1
      rw [List.map_eq_nil_iff, List.filter_eq_nil_iff]
      intro e he
      have := h
      simp only [List.any_eq_true, not_exists, not_and] at this
      have h2 := this e he
      simpa [Store.isInstance] using h2

/-- C4: delete is idempotent. Whenever the remote client reports the record absent, Delete
succeeds and leaves the device as it is; and on a device that removes on request, for
every table, configuration and identity (created before or never created), a delete
succeeds, the instance is then absent from the collection of the kind, and a second delete
succeeds too and leaves it absent. -/
theorem delete_is_idempotent :
    (∀ (Dev : Type) (rc : RemoteClient Dev) (t : Table) (dev : Dev) (identity : String),
      rc.remove dev (descriptorOf t).remotePathTemplate identity = .error .NotFound →
        Delete rc t dev identity = .ok dev) ∧
    ∀ (Dev : Type) (rc : RemoteClient Dev) (c : Codec) (t : Table),
      RemovesOnRequest rc (descriptorOf t) →
      ∀ (dev : Dev) (identity : String), ∃ dev1 dev2,
        Delete rc t dev identity = .ok dev1 ∧
        rc.list dev1 (descriptorOf t).remotePathTemplate
          ((descriptorOf t).identityProperty, identity) = .ok [] ∧
        Read rc c t dev1 identity = .ok none ∧
        Delete rc t dev1 identity = .ok dev2 ∧
        rc.list dev2 (descriptorOf t).remotePathTemplate
          ((descriptorOf t).identityProperty, identity) = .ok [] ∧
        Read rc c t dev2 identity = .ok none := by
  constructor
  · intro Dev rc t dev identity h
    simp only [Delete, h]
  · intro Dev rc c t hrc
    have once : ∀ (dev : Dev) (identity : String), ∃ dev1,
        Delete rc t dev identity = .ok dev1 ∧
        rc.list dev1 (descriptorOf t).remotePathTemplate
          ((descriptorOf t).identityProperty, identity) = .ok [] ∧
        Read rc c t dev1 identity = .ok none := by
      intro dev identity
      rcases hrc dev identity with ⟨hrem, hlist⟩ | ⟨dev1, hrem, hlist⟩
      · exact ⟨dev, by simp only [Delete, hrem], hlist, by simp only [Read, hlist]⟩
      · exact ⟨dev1, by simp only [Delete, hrem], hlist, by simp only [Read, hlist]⟩
    intro dev identity
    obtain ⟨dev1, hd1, hl1, hr1⟩ := once dev identity
    obtain ⟨dev2, hd2, hl2, hr2⟩ := once dev1 identity
    exact ⟨dev1, dev2, hd1, hl1, hr1, hd2, hl2, hr2⟩

/-- C4, at the acceptance test: deleting `bonding-test` from the store that holds it
empties `/interface/bonding`, and deleting it again succeeds. -/
theorem delete_is_idempotent_witness :
    RemovesOnRequest (storeClient "name") (descriptorOf ResourceInterfaceBonding.resSchema) ∧
    Delete (storeClient "name") ResourceInterfaceBonding.resSchema bondingStore
      "bonding-test" = .ok [] ∧
    Delete (storeClient "name") ResourceInterfaceBonding.resSchema [] "bonding-test" = .ok [] ∧
    ∃ dev1 dev2,
      Delete (storeClient "name") ResourceInterfaceBonding.resSchema bondingStore
        "bonding-test" = .ok dev1 ∧
      Read (storeClient "name") wireCodec ResourceInterfaceBonding.resSchema dev1
        "bonding-test" = .ok none ∧
      Delete (storeClient "name") ResourceInterfaceBonding.resSchema dev1 "bonding-test"
        = .ok dev2 ∧
      Read (storeClient "name") wireCodec ResourceInterfaceBonding.resSchema dev2
        "bonding-test" = .ok none := by
  have hstore := storeClient_removesOnRequest (descriptorOf ResourceInterfaceBonding.resSchema)
  obtain ⟨dev1, dev2, h1, _, h2, h3, _, h4⟩ :=
    delete_is_idempotent.2 Store (storeClient "name") wireCodec
      ResourceInterfaceBonding.resSchema hstore bondingStore "bonding-test"
  exact ⟨hstore, by decide, by decide, dev1, dev2, h1, h2, h3, h4⟩

/-- When no writable property changed, the plan of an update holds no set call. -/
theorem planUpdate_of_no_change (c : Codec) (t : Table) (identity : String)
    (observed desired : State)
    (h : ∀ e ∈ (descriptorOf t).properties, e.2.mutability ≠ .ReadOnly →
      sameValue e.2 (observed.lookup e.1) (desired.lookup e.1) = true) :
    planUpdate c t identity observed desired = .apply [] := by
  have hro : ∀ e ∈ changedProperties (descriptorOf t) observed desired,
      e.2.mutability = .ReadOnly := by
    intro e he
    simp only [changedProperties, List.mem_filter, Bool.not_eq_true'] at he
    by_contra hne
    rw [h e he.1 hne] at he
    exact absurd he.2 (by simp)
  have hany : (changedProperties (descriptorOf t) observed desired).any
      (fun e => decide (e.2.mutability = .WriteOnceForceReplace)) = false := by
    rw [List.any_eq_false]
    intro e he
    simp [hro e he]
  have hsc : scalarFields c (descriptorOf t) observed desired = [] := by
    unfold scalarFields
    rw [List.filterMap_eq_nil_iff]
    intro e he
    simp only [List.mem_filter, Bool.and_eq_true, decide_eq_true_eq] at he
    exact absurd (hro e he.1) he.2.1
  have hls : listCalls c (descriptorOf t) identity observed desired = [] := by
    unfold listCalls
    rw [List.filterMap_eq_nil_iff]
    intro e he
    simp only [List.mem_filter, Bool.and_eq_true, decide_eq_true_eq] at he
    exact absurd (hro e he.1) he.2.1
  simp only [planUpdate, hany, hsc, hls]
  rfl

/-- An update whose plan holds no set call leaves the device as it is. -/
theorem Update_of_empty_plan {Dev : Type} (rc : RemoteClient Dev) (c : Codec) (t : Table)
    (dev : Dev) (identity : String) (observed desired : State)
    (h : planUpdate c t identity observed desired = .apply [])
    (res : Option Decoded) (dev1 : Dev)
    (hu : Update rc c t dev identity observed desired = .ok (res, dev1)) :
    dev1 = dev ∧ Read rc c t dev identity = .ok res := by
  simp only [Update, h] at hu
  split at hu
  · simp only [issue] at hu
    split at hu
    · simp only [Except.ok.injEq, Prod.mk.injEq] at hu
      obtain ⟨rfl, rfl⟩ := hu
      exact ⟨rfl, by assumption⟩
    · exact absurd hu (by simp)
  · exact absurd hu (by simp)

/-- C5: for every table, so for every resource kind, and every pair of observed and
desired states that agree on every writable property (all the more when they agree on
every property), scalars by equality and lists under their declared semantics, the plan of
the update holds no set call, and an update that returns has left the device as it was and
returns what a read of that device returns. -/
theorem equal_states_issue_no_write :
    ∀ (c : Codec) (t : Table) (identity : String) (observed desired : State),
      (∀ e ∈ (descriptorOf t).properties, e.2.mutability ≠ .ReadOnly →
        sameValue e.2 (observed.lookup e.1) (desired.lookup e.1) = true) →
      planUpdate c t identity observed desired = .apply [] ∧
      ∀ (Dev : Type) (rc : RemoteClient Dev) (dev : Dev) (res : Option Decoded) (dev1 : Dev),
        Update rc c t dev identity observed desired = .ok (res, dev1) →
          dev1 = dev ∧ Read rc c t dev identity = .ok res := by
  intro c t identity observed desired h
  have hplan := planUpdate_of_no_change c t identity observed desired h
  exact ⟨hplan, fun Dev rc dev res dev1 hu =>
    Update_of_empty_plan rc c t dev identity observed desired hplan res dev1 hu⟩

/-- C5, at a concrete input: a wireless interface whose desired state repeats the observed
one, the ordered list `supported_rates_b` in the same order; no set call is planned. -/
theorem equal_states_issue_no_write_witness :
    (∀ e ∈ (descriptorOf ResourceInterfaceWireless.Schema).properties,
      e.2.mutability ≠ .ReadOnly →
      sameValue e.2
        (([("name", .str "wlan1"), ("country", .str "latvia"), ("ssid", .str "office"),
           ("supported_rates_b", .list [.str "1Mbps", .str "2Mbps"]),
           ("running", .bool true)] : State).lookup e.1)
        (([("name", .str "wlan1"), ("country", .str "latvia"), ("ssid", .str "office"),
           ("supported_rates_b", .list [.str "1Mbps", .str "2Mbps"])] : State).lookup e.1)
        = true) ∧
    planUpdate wireCodec ResourceInterfaceWireless.Schema "wlan1"
      [("name", .str "wlan1"), ("country", .str "latvia"), ("ssid", .str "office"),
       ("supported_rates_b", .list [.str "1Mbps", .str "2Mbps"]), ("running", .bool true)]
      [("name", .str "wlan1"), ("country", .str "latvia"), ("ssid", .str "office"),
       ("supported_rates_b", .list [.str "1Mbps", .str "2Mbps"])] = .apply [] :=
  ⟨by decide,
    (equal_states_issue_no_write wireCodec ResourceInterfaceWireless.Schema "wlan1"
      [("name", .str "wlan1"), ("country", .str "latvia"), ("ssid", .str "office"),
       ("supported_rates_b", .list [.str "1Mbps", .str "2Mbps"]), ("running", .bool true)]
      [("name", .str "wlan1"), ("country", .str "latvia"), ("ssid", .str "office"),
       ("supported_rates_b", .list [.str "1Mbps", .str "2Mbps"])] (by decide)).1⟩

/-- In a list with distinct keys, a filter that holds of one entry and fails on every
entry with another key keeps that entry alone. -/
theorem filter_eq_singleton {α : Type} (p : String × α → Bool) :
    ∀ l : List (String × α), (l.map Prod.fst).Nodup → ∀ e ∈ l, p e = true →
      (∀ a ∈ l, a.1 ≠ e.1 → p a = false) → l.filter p = [e] := by
  intro l
  induction l with
  | nil => intro _ e he; exact absurd he (List.not_mem_nil e)
  | cons b l ih =>
    intro hnd e he hpe hrest
    simp only [List.map_cons, List.nodup_cons] at hnd
    rcases List.mem_cons.mp he with rfl | hel
    · have hnil : l.filter p = [] := by
        rw [List.filter_eq_nil_iff]
        intro a ha
        have hne : a.1 ≠ e.1 := fun h => hnd.1 (h ▸ List.mem_map_of_mem Prod.fst ha)
        simp [hrest a (List.mem_cons_of_mem _ ha) hne]
      rw [List.filter_cons_of_pos hpe, hnil]
    · have hne : b.1 ≠ e.1 := fun h => hnd.1 (h ▸ List.mem_map_of_mem Prod.fst hel)
      have hpb : ¬ (p b = true) := by simp [hrest b (List.mem_cons_self _ _) hne]
      rw [List.filter_cons_of_neg hpb]
      exact ih hnd.2 e hel hpe fun a ha => hrest a (List.mem_cons_of_mem _ ha)

/-- C6: for an unordered list property `k` of a table with distinct property names,
updating from observed `{ether3, ether4}` to desired `{ether3, ether5}`, nothing else
changed, plans exactly one set call, the full-value replacement of `k` by the desired
members; and when the device takes that call and then shows the written value, the update
returns a read in which `k` is exactly `{ether3, ether5}`. -/
theorem unordered_list_update_is_single_replacement :
    ∀ (c : Codec) (t : Table) (identity : String) (observed desired : State)
      (k : String) (s : Schema),
      ((descriptorOf t).properties.map Prod.fst).Nodup →
      (k, s) ∈ (descriptorOf t).properties →
      s.Typ = .TypeSet → s.mutability = .ReadWrite →
      observed.lookup k = some (.list [.str "ether3", .str "ether4"]) →
      desired.lookup k = some (.list [.str "ether3", .str "ether5"]) →
      (∀ e ∈ (descriptorOf t).properties, e.1 ≠ k →
        sameValue e.2 (observed.lookup e.1) (desired.lookup e.1) = true) →
      planUpdate c t identity observed desired
        = .apply [{ path := (descriptorOf t).remotePathTemplate, identity := identity,
                    fields := [(k, c.encode (.list [.str "ether3", .str "ether5"]))] }] ∧
      ∀ (Dev : Type) (rc : RemoteClient Dev) (dev dev1 : Dev) (record : RemoteRecord)
        (rest : List RemoteRecord),
        validate t desired = [] →
        rc.set dev (descriptorOf t).remotePathTemplate identity
          [(k, c.encode (.list [.str "ether3", .str "ether5"]))] = .ok dev1 →
        rc.list dev1 (descriptorOf t).remotePathTemplate
          ((descriptorOf t).identityProperty, identity) = .ok (record :: rest) →
        record.lookup k = some (c.encode (.list [.str "ether3", .str "ether5"])) →
        c.decode s (c.encode (.list [.str "ether3", .str "ether5"]))
          = some (.list [.str "ether3", .str "ether5"]) →
        ∃ res : Decoded,
          Update rc c t dev identity observed desired = .ok (some res, dev1) ∧
          res.state.lookup k = some (.list [.str "ether3", .str "ether5"]) := by
  intro c t identity observed desired k s hnd hmem hty hmut hobs hdes hrest
  have hch : changedProperties (descriptorOf t) observed desired = [(k, s)] := by
    unfold changedProperties
    apply filter_eq_singleton _ _ hnd (k, s) hmem
    · simp only [hobs, hdes, sameValue, hty, isListType, ListReconciler, symmetricDifference]
      decide
    · intro a ha hne
      simp [hrest a ha hne]
  have hplan : planUpdate c t identity observed desired
      = .apply [{ path := (descriptorOf t).remotePathTemplate, identity := identity,
                  fields := [(k, c.encode (.list [.str "ether3", .str "ether5"]))] }] := by
    simp [planUpdate, scalarFields, listCalls, hch, hmut, hty, isListType, changedField, hdes]
  refine ⟨hplan, ?_⟩
  intro Dev rc dev dev1 record rest hvalid hset hlist hrec hdec
  refine ⟨fromRemote c record (descriptorOf t), ?_, ?_⟩
  · simp only [Update, hplan, hvalid, issue, hset, Read, hlist]
  · rw [fromRemote_lookup c record _ hnd (k, s) hmem]
    simp [decodeProperty, hrec, hdec]

/-- C6, at the acceptance test's interface: replacing the slave `ether4` by `ether5` on
the store plans the one set call `slaves = ether3,ether5`, and the update returns a read
with exactly these slaves. -/
theorem unordered_list_update_is_single_replacement_witness :
    planUpdate wireCodec ResourceInterfaceBonding.resSchema "bonding-test"
        testAccInterfaceBondingConfig bondingWithEther5
      = .apply [{ path := "/interface/bonding", identity := "bonding-test",
                  fields := [("slaves", "ether3,ether5")] }] ∧
    ∃ res : Decoded,
      Update (storeClient "name") wireCodec ResourceInterfaceBonding.resSchema bondingStore
          "bonding-test" testAccInterfaceBondingConfig bondingWithEther5
        = .ok (some res,
            [("/interface/bonding", [("slaves", "ether3,ether5"), ("name", "bonding-test")])]) ∧
      res.state.lookup "slaves" = some (.list [.str "ether3", .str "ether5"]) := by
  have h := unordered_list_update_is_single_replacement wireCodec
    ResourceInterfaceBonding.resSchema "bonding-test" testAccInterfaceBondingConfig
    bondingWithEther5 "slaves"
    { Typ := .TypeSet, Required := true, Elem := some { Typ := .TypeString } }
    (by decide) (by decide) rfl (by decide) (by decide) (by decide) (by decide)
  exact ⟨h.1, h.2 Store (storeClient "name") bondingStore
    [("/interface/bonding", [("slaves", "ether3,ether5"), ("name", "bonding-test")])]
    [("slaves", "ether3,ether5"), ("name", "bonding-test")] []
    (by decide) (by decide) (by decide) (by decide) (by decide)⟩

/-- A changed writable list property has its full-value replacement among the set calls of
an accepted plan. -/
theorem mem_calls_of_changed_list (c : Codec) (t : Table) (identity : String)
    (observed desired : State) (e : String × Schema) (v : Value)
    (hmem : e ∈ (descriptorOf t).properties) (hw : e.2.mutability ≠ .ReadOnly)
    (hl : isListType e.2.Typ = true) (hv : desired.lookup e.1 = some v)
    (hne : sameValue e.2 (observed.lookup e.1) (desired.lookup e.1) = false)
    (calls : List SetCall) (hplan : planUpdate c t identity observed desired = .apply calls) :
    { path := (descriptorOf t).remotePathTemplate, identity := identity,
      fields := [(e.1, c.encode v)] } ∈ calls := by
  simp only [planUpdate] at hplan
  split at hplan
  · exact absurd hplan (by simp)
  · simp only [UpdatePlan.apply.injEq] at hplan
    subst hplan
    apply List.mem_append_right
    simp only [listCalls, List.mem_filterMap, List.mem_filter, Bool.and_eq_true,
      decide_eq_true_eq, Option.map_eq_some']
    refine ⟨e, ⟨?_, hw, hl⟩, (e.1, c.encode v), ?_, rfl⟩
    · simp [changedProperties, List.mem_filter, hmem, hne]
    · simp [changedField, hv]

/-- Issuing set calls through the recording client issues them through the client itself
and, when the device takes them all, adds them to the record in order. -/
theorem issue_recording {Dev : Type} (rc : RemoteClient Dev) :
    ∀ (calls : List SetCall) (dev : Dev) (log : List SetCall),
      issue (recording rc) (dev, log) calls
        = (issue rc dev calls).map fun d => (d, log ++ calls) := by
  intro calls
  induction calls with
  | nil => intro dev log; simp [issue, Except.map]
  | cons call rest ih =>
    intro dev log
    cases hset : rc.set dev call.path call.identity call.fields with
    | error e =>
      have hrec : (recording rc).set (dev, log) call.path call.identity call.fields
          = .error e := by
        simp only [recording, hset]
      rw [issue, hrec, issue, hset]
      rfl
    | ok dev1 =>
      have hrec : (recording rc).set (dev, log) call.path call.identity call.fields
          = .ok (dev1, log ++ [call]) := by
        simp only [recording, hset]
      rw [issue, hrec, issue, hset]
      simp only
      rw [ih dev1 (log ++ [call])]
      simp

/-- A read through the recording client is the read through the client itself. -/
theorem Read_recording {Dev : Type} (rc : RemoteClient Dev) (c : Codec) (t : Table)
    (dev : Dev) (log : List SetCall) (identity : String) :
    Read (recording rc) c t (dev, log) identity = Read rc c t dev identity := rfl

/-- An update through the recording client is the update through the client itself; when
it succeeds, the record holds the set calls of the plan, in order. -/
theorem Update_recording {Dev : Type} (rc : RemoteClient Dev) (c : Codec) (t : Table)
    (dev : Dev) (identity : String) (observed desired : State) (calls : List SetCall)
    (hplan : planUpdate c t identity observed desired = .apply calls) :
    Update (recording rc) c t (dev, []) identity observed desired
      = (Update rc c t dev identity observed desired).map fun p => (p.1, (p.2, calls)) := by
  simp only [Update, hplan]
  cases hv : validate t desired with
  | cons p ps => simp [Except.map]
  | nil =>
    simp only [issue_recording rc calls dev [], List.nil_append]
    cases hi : issue rc dev calls with
    | error e => simp [Except.map]
    | ok dev1 =>
      simp only [Except.map, Read_recording]
      cases hr : Read rc c t dev1 identity with
      | error e => simp
      | ok r => simp

/-- A failed read failed at the Remote Client. -/
theorem Read_error_ofRemote {Dev : Type} (rc : RemoteClient Dev) (c : Codec) (t : Table)
    (dev : Dev) (identity : String) (err : EngineError)
    (h : Read rc c t dev identity = .error err) : ∃ re, err = EngineError.ofRemote re := by
  unfold Read at h
  simp only at h
  split at h
  all_goals first
    | exact ⟨_, (Except.error.inj h).symm⟩
    | cases h

/-- An accepted, validated update fails only at the Remote Client. -/
theorem Update_error_ofRemote {Dev : Type} (rc : RemoteClient Dev) (c : Codec) (t : Table)
    (dev : Dev) (identity : String) (observed desired : State) (calls : List SetCall)
    (hplan : planUpdate c t identity observed desired = .apply calls)
    (hvalid : validate t desired = []) (err : EngineError)
    (h : Update rc c t dev identity observed desired = .error err) :
    ∃ re, err = EngineError.ofRemote re := by
  simp only [Update, hplan, hvalid] at h
  cases hi : issue rc dev calls with
  | error e =>
    rw [hi] at h
    exact ⟨e, (Except.error.inj h).symm⟩
  | ok dev1 =>
    rw [hi] at h
    simp only at h
    cases hr : Read rc c t dev1 identity with
    | error e2 =>
      rw [hr] at h
      simp only at h
      obtain ⟨re, hre⟩ := Read_error_ofRemote rc c t dev1 identity e2 hr
      exact ⟨re, by rw [← Except.error.inj h, hre]⟩
    | ok r =>
      rw [hr] at h
      cases h

/-- A device that takes every set call takes a list of them. -/
theorem issue_ok_of_accepting {Dev : Type} (rc : RemoteClient Dev)
    (hset : ∀ d p i f, ∃ d1, rc.set d p i f = .ok d1) :
    ∀ (calls : List SetCall) (dev : Dev), ∃ dev1, issue rc dev calls = .ok dev1 := by
  intro calls
  induction calls with
  | nil => intro dev; exact ⟨dev, rfl⟩
  | cons call rest ih =>
    intro dev
    obtain ⟨d1, h1⟩ := hset dev call.path call.identity call.fields
    obtain ⟨d2, h2⟩ := ih d1
    exact ⟨d2, by rw [issue, h1]; exact h2⟩

/-- A device that answers every lookup answers a read. -/
theorem Read_ok_of_answering {Dev : Type} (rc : RemoteClient Dev) (c : Codec) (t : Table)
    (hlist : ∀ d p f, ∃ rs, rc.list d p f = .ok rs) (dev : Dev) (identity : String) :
    ∃ r, Read rc c t dev identity = .ok r := by
  obtain ⟨rs, h⟩ := hlist dev (descriptorOf t).remotePathTemplate
    ((descriptorOf t).identityProperty, identity)
  cases rs with
  | nil => exact ⟨none, by simp only [Read, h]⟩
  | cons record rest => exact ⟨some (fromRemote c record (descriptorOf t)), by simp only [Read, h]⟩

/-- An update through the recording client that succeeds leaves the set calls of its plan
on the record. -/
theorem record_of_Update_ok {Dev : Type} (rc : RemoteClient Dev) (c : Codec) (t : Table)
    (dev : Dev) (identity : String) (observed desired : State) (res : Option Decoded)
    (dev1 : Dev) (log : List SetCall)
    (h : Update (recording rc) c t (dev, []) identity observed desired
      = .ok (res, (dev1, log))) :
    planUpdate c t identity observed desired = .apply log := by
  cases hplan : planUpdate c t identity observed desired with
  | ConflictForceNew =>
    simp only [Update, hplan] at h
    cases h
  | apply calls =>
    rw [Update_recording rc c t dev identity observed desired calls hplan] at h
    cases hup : Update rc c t dev identity observed desired with
    | error e =>
      rw [hup] at h
      cases h
    | ok p =>
      rw [hup] at h
      simp only [Except.map, Except.ok.injEq, Prod.mk.injEq] at h
      rw [h.2.2]

/-- C7: the ordered list properties of the three kinds are writable and not force-new
(for wireless they are `ampdu_priorities`, `supported_rates_a_g` and `supported_rates_b`).
For each of them and every desired list that is a permutation of the observed list but
differs from it in some position, Update is run on any device, the set calls the device
takes being recorded. The plan is never the empty one, and whenever Update succeeds the
record holds the set call that replaces the whole list by the encoding of the desired
list as the caller ordered it. When the desired state passes validation and no force-new
property changed, the plan is accepted and holds that call; the recorded run does what
Update does on the device itself and, where it succeeds, leaves exactly the calls of the
plan on the record; Update fails only with a failure of the Remote Client; and on a
device that takes every set call and answers every lookup it succeeds with these calls,
the replacement among them, on the record. -/
theorem ordered_list_reorder_is_full_replacement :
    orderedListKeys ResourceInterfaceWireless.Schema
      = ["ampdu_priorities", "supported_rates_a_g", "supported_rates_b"] ∧
    ∀ r ∈ resourceKinds, ∀ e ∈ (descriptorOf r.Schema).properties, e.2.Typ = .TypeList →
      e.2.mutability = .ReadWrite ∧
      ∀ (Dev : Type) (rc : RemoteClient Dev) (c : Codec) (dev : Dev) (identity : String)
        (observed desired : State) (xs ys : List Scalar),
        observed.lookup e.1 = some (.list xs) → desired.lookup e.1 = some (.list ys) →
        xs.Perm ys → xs ≠ ys →
        planUpdate c r.Schema identity observed desired ≠ .apply [] ∧
        (∀ res dev1 log,
          Update (recording rc) c r.Schema (dev, []) identity observed desired
            = .ok (res, (dev1, log)) →
          { path := (descriptorOf r.Schema).remotePathTemplate, identity := identity,
            fields := [(e.1, c.encode (.list ys))] } ∈ log) ∧
        (validate r.Schema desired = [] →
          (∀ a ∈ (descriptorOf r.Schema).properties,
            a.2.mutability = .WriteOnceForceReplace →
            sameValue a.2 (observed.lookup a.1) (desired.lookup a.1) = true) →
          ∃ calls : List SetCall,
            planUpdate c r.Schema identity observed desired = .apply calls ∧
            { path := (descriptorOf r.Schema).remotePathTemplate, identity := identity,
              fields := [(e.1, c.encode (.list ys))] } ∈ calls ∧
            Update (recording rc) c r.Schema (dev, []) identity observed desired
              = (Update rc c r.Schema dev identity observed desired).map
                  (fun p => (p.1, (p.2, calls))) ∧
            (∀ err, Update rc c r.Schema dev identity observed desired = .error err →
              ∃ re, err = EngineError.ofRemote re) ∧
            ((∀ d p i f, ∃ d1, rc.set d p i f = .ok d1) →
              (∀ d p f, ∃ rs, rc.list d p f = .ok rs) →
              ∃ res dev1,
                Update rc c r.Schema dev identity observed desired = .ok (res, dev1) ∧
                Update (recording rc) c r.Schema (dev, []) identity observed desired
                  = .ok (res, (dev1, calls)))) := by
  refine ⟨by decide, ?_⟩
  intro r hr e he hty
  have hmut : e.2.mutability = .ReadWrite := by
    have hall : ∀ a ∈ (descriptorOf r.Schema).properties, a.2.Typ = .TypeList →
        a.2.mutability = .ReadWrite := by
      simp only [resourceKinds, List.mem_cons, List.mem_singleton, List.not_mem_nil,
        or_false] at hr
      rcases hr with rfl | rfl | rfl <;> decide
    exact hall e he hty
  refine ⟨hmut, ?_⟩
  intro Dev rc c dev identity observed desired xs ys hobs hdes _ hne
  have hchanged : sameValue e.2 (observed.lookup e.1) (desired.lookup e.1) = false := by
    simp [hobs, hdes, sameValue, hty, isListType, ListReconciler, hne]
  have hcall := mem_calls_of_changed_list c r.Schema identity observed desired e (.list ys)
    he (by simp [hmut]) (by simp [hty, isListType]) hdes hchanged
  refine ⟨?_, ?_, ?_⟩
  · intro hnil
    exact absurd (hcall [] hnil) (List.not_mem_nil _)
  · intro res dev1 log hok
    exact hcall log
      (record_of_Update_ok rc c r.Schema dev identity observed desired res dev1 log hok)
  · intro hvalid hforce
    have hany : (changedProperties (descriptorOf r.Schema) observed desired).any
        (fun a => decide (a.2.mutability = .WriteOnceForceReplace)) = false := by
      rw [List.any_eq_false]
      intro a ha
      simp only [changedProperties, List.mem_filter, Bool.not_eq_true'] at ha
      intro hw
      simp only [decide_eq_true_eq] at hw
      rw [hforce a ha.1 hw] at ha
      exact absurd ha.2 (by simp)
    obtain ⟨calls, hplan⟩ : ∃ calls, planUpdate c r.Schema identity observed desired
        = .apply calls := ⟨_, by simp only [planUpdate, hany]; rfl⟩
    have hrec := Update_recording rc c r.Schema dev identity observed desired calls hplan
    refine ⟨calls, hplan, hcall calls hplan, hrec, ?_, ?_⟩
    · intro err herr
      exact Update_error_ofRemote rc c r.Schema dev identity observed desired calls hplan
        hvalid err herr
    · intro hset hlist
      obtain ⟨dev1, hissue⟩ := issue_ok_of_accepting rc hset calls dev
      obtain ⟨res, hread⟩ := Read_ok_of_answering rc c r.Schema hlist dev1 identity
      have hup : Update rc c r.Schema dev identity observed desired = .ok (res, dev1) := by
        simp only [Update, hplan, hvalid, hissue, hread]
      refine ⟨res, dev1, hup, ?_⟩
      rw [hrec, hup]
      rfl

/-- C7, at a concrete input: swapping the two rates of `supported_rates_b` of a wireless
interface on the store, the desired state passing validation. The plan is the one set
call that carries the two rates in the new order; Update succeeds, the record of the set
calls the store took holds exactly that call, the store holds the rates in the new order,
and the read returns them so. -/
theorem ordered_list_reorder_is_full_replacement_witness :
    [Scalar.str "1Mbps", Scalar.str "2Mbps"].Perm [Scalar.str "2Mbps", Scalar.str "1Mbps"] ∧
    [Scalar.str "1Mbps", Scalar.str "2Mbps"] ≠ [Scalar.str "2Mbps", Scalar.str "1Mbps"] ∧
    validate ResourceInterfaceWireless.Schema wlanReordered = [] ∧
    planUpdate wireCodec ResourceInterfaceWireless.Schema "wlan1" wlanObserved wlanReordered
      = .apply [{ path := "/interface/wireless", identity := "wlan1",
                  fields := [("supported_rates_b", "2Mbps,1Mbps")] }] ∧
    ∃ res : Decoded,
      Update (recording (storeClient "name")) wireCodec ResourceInterfaceWireless.Schema
          (wlanStore, []) "wlan1" wlanObserved wlanReordered
        = .ok (some res,
            ([("/interface/wireless",
                [("supported_rates_b", "2Mbps,1Mbps"), ("name", "wlan1"),
                 ("country", "no_country_set")])],
             [{ path := "/interface/wireless", identity := "wlan1",
                fields := [("supported_rates_b", "2Mbps,1Mbps")] }])) ∧
      res.state.lookup "supported_rates_b" = some (.list [.str "2Mbps", .str "1Mbps"]) := by
  have hvalid : validate ResourceInterfaceWireless.Schema wlanReordered = [] := by decide
  have hplan : planUpdate wireCodec ResourceInterfaceWireless.Schema "wlan1" wlanObserved
      wlanReordered
      = .apply [{ path := "/interface/wireless", identity := "wlan1",
                  fields := [("supported_rates_b", "2Mbps,1Mbps")] }] := by decide
  obtain ⟨calls, hcalls, _, hrec, _, _⟩ :=
    ((ordered_list_reorder_is_full_replacement.2 ResourceInterfaceWireless (by decide)
      ("supported_rates_b",
        { Typ := .TypeList, Optional := true,
          Elem := some { Typ := .TypeString,
                         ValidateFunc := some (.StringInSlice
                           ["11Mbps", "1Mbps", "2Mbps", "5.5Mbps"] false) } })
      (by decide) rfl).2 Store (storeClient "name") wireCodec wlanStore "wlan1"
      wlanObserved wlanReordered
      [.str "1Mbps", .str "2Mbps"] [.str "2Mbps", .str "1Mbps"]
      (by decide) (by decide) (List.Perm.swap _ _ _) (by decide)).2.2 hvalid (by decide)
  have hc : calls
      = [{ path := "/interface/wireless", identity := "wlan1",
           fields := [("supported_rates_b", "2Mbps,1Mbps")] }] := by
    rw [hplan] at hcalls
    exact (UpdatePlan.apply.inj hcalls).symm
  subst hc
  have hup : Update (storeClient "name") wireCodec ResourceInterfaceWireless.Schema
      wlanStore "wlan1" wlanObserved wlanReordered
      = .ok (some (fromRemote wireCodec
              [("supported_rates_b", "2Mbps,1Mbps"), ("name", "wlan1"),
               ("country", "no_country_set")]
              (descriptorOf ResourceInterfaceWireless.Schema)),
            [("/interface/wireless",
                [("supported_rates_b", "2Mbps,1Mbps"), ("name", "wlan1"),
                 ("country", "no_country_set")])]) := by decide
  refine ⟨List.Perm.swap _ _ _, by decide, hvalid, hplan,
    fromRemote wireCodec
      [("supported_rates_b", "2Mbps,1Mbps"), ("name", "wlan1"), ("country", "no_country_set")]
      (descriptorOf ResourceInterfaceWireless.Schema), ?_, ?_⟩
  · rw [hrec, hup]
    rfl
  · decide

/-- An entry with another key, wherever it stands in a record, does not change a lookup. -/
theorem lookup_insert_of_ne (k k2 : String) (w : String) (h : k ≠ k2) :
    ∀ r1 r2 : RemoteRecord,
      List.lookup k (r1 ++ (k2, w) :: r2) = List.lookup k (r1 ++ r2) := by
  intro r1 r2
  induction r1 with
  | nil => exact lookup_cons_of_ne k (k2, w) r2 h
  | cons a r1 ih =>
    by_cases ha : k = a.1
    · rw [List.cons_append, List.cons_append, lookup_cons_of_eq k a _ ha,
        lookup_cons_of_eq k a _ ha]
    · rw [List.cons_append, List.cons_append, lookup_cons_of_ne k a _ ha,
        lookup_cons_of_ne k a _ ha, ih]

/-- C8: for every descriptor and every remote record, a key that the descriptor does not
have, wherever it stands in the record, changes nothing in the decoding: the typed state
and the reported decode failures are those of the record without the key (so the decoded
values of all other keys are the same), the typed state has no entry for the key, no
decode failure is reported for it, and a read that finds the record succeeds with the
result it would have without the key. -/
theorem unknown_key_is_ignored :
    ∀ (c : Codec) (d : ResourceDescriptor) (r1 r2 : RemoteRecord) (k w : String),
      k ∉ d.properties.map Prod.fst →
      fromRemote c (r1 ++ (k, w) :: r2) d = fromRemote c (r1 ++ r2) d ∧
      (fromRemote c (r1 ++ (k, w) :: r2) d).state.lookup k = none ∧
      k ∉ (fromRemote c (r1 ++ (k, w) :: r2) d).errors.map Prod.fst ∧
      ∀ (Dev : Type) (rc : RemoteClient Dev) (t : Table) (dev : Dev) (identity : String)
        (rest : List RemoteRecord),
        descriptorOf t = d →
        rc.list dev d.remotePathTemplate (d.identityProperty, identity)
          = .ok ((r1 ++ (k, w) :: r2) :: rest) →
        Read rc c t dev identity = .ok (some (fromRemote c (r1 ++ r2) d)) := by
  intro c d r1 r2 k w hk
  have hlook : ∀ e ∈ d.properties,
      List.lookup e.1 (r1 ++ (k, w) :: r2) = List.lookup e.1 (r1 ++ r2) := by
    intro e he
    apply lookup_insert_of_ne
    intro h
    exact hk (h ▸ List.mem_map_of_mem Prod.fst he)
  have hstate : d.properties.filterMap (decodeProperty c (r1 ++ (k, w) :: r2))
      = d.properties.filterMap (decodeProperty c (r1 ++ r2)) := by
    apply List.filterMap_congr
    intro e he
    simp only [decodeProperty, hlook e he]
  have herr : d.properties.filterMap (decodeFailure c (r1 ++ (k, w) :: r2))
      = d.properties.filterMap (decodeFailure c (r1 ++ r2)) := by
    apply List.filterMap_congr
    intro e he
    simp only [decodeFailure, hlook e he]
  have heq : fromRemote c (r1 ++ (k, w) :: r2) d = fromRemote c (r1 ++ r2) d := by
    simp only [fromRemote, hstate, herr]
  refine ⟨heq, ?_, ?_, ?_⟩
  · simp only [fromRemote]
    apply lookup_filterMap_of_not_mem _ _ k _ hk
    intro e r her
    unfold decodeProperty at her
    split at her <;>
    · simp only [Option.map_eq_some'] at her
      obtain ⟨v, _, rfl⟩ := her
      rfl
  · simp only [fromRemote, List.mem_map, List.mem_filterMap, not_exists, not_and]
    intro f hf hfk
    obtain ⟨e, he, hfe⟩ := hf
    unfold decodeFailure at hfe
    split at hfe
    · split at hfe
      · simp only [Option.some.injEq] at hfe
        subst hfe
        exact hk (hfk ▸ List.mem_map_of_mem Prod.fst he)
      · exact absurd hfe (by simp)
    · exact absurd hfe (by simp)
  · intro Dev rc t dev identity rest ht hlist
    subst ht
    simp only [Read, hlist, heq]

/-- C8, at a concrete input: an ethernet record with the field `rx-bytes`, which the table
does not declare. -/
theorem unknown_key_is_ignored_witness :
    "rx-bytes" ∉ (descriptorOf ResourceInterfaceEthernet.Schema).properties.map Prod.fst ∧
    fromRemote wireCodec ([("name", "ether1")] ++ ("rx-bytes", "1024") :: [("mtu", "1500")])
        (descriptorOf ResourceInterfaceEthernet.Schema)
      = fromRemote wireCodec ([("name", "ether1")] ++ [("mtu", "1500")])
        (descriptorOf ResourceInterfaceEthernet.Schema) ∧
    fromRemote wireCodec ([("name", "ether1")] ++ [("mtu", "1500")])
        (descriptorOf ResourceInterfaceEthernet.Schema)
      = { state := [("mtu", .int 1500), ("name", .str "ether1")], errors := [] } :=
  ⟨by decide,
    (unknown_key_is_ignored wireCodec (descriptorOf ResourceInterfaceEthernet.Schema)
      [("name", "ether1")] [("mtu", "1500")] "rx-bytes" "1024" (by decide)).1,
    by decide⟩

/-- C9: each of the three resources imports by `ImportStatePassthroughContext`; given an
identity string the import step yields exactly one instance, whose identity is that string
unchanged and which has no attribute set, and the state of the import is what the read
handler of the resource returns for that identity. -/
theorem import_is_passthrough :
    ∀ r ∈ resourceKinds,
      r.Importer = { StateContext := .ImportStatePassthroughContext } ∧
      r.ReadContext = .DefaultRead r.Schema ∧
      ∀ identity : String,
        importState r identity = .ok [{ Id := identity, attributes := [] }] ∧
        ∀ (Dev : Type) (rc : RemoteClient Dev) (c : Codec) (dev : Dev),
          Import rc c r dev identity
            = (Read rc c r.Schema dev identity).map fun o => [(identity, o)] := by
  intro r hr
  have himp : r.Importer = { StateContext := .ImportStatePassthroughContext } := by
    simp only [resourceKinds, List.mem_cons, List.mem_singleton, List.not_mem_nil,
      or_false] at hr
    rcases hr with rfl | rfl | rfl <;> rfl
  have hread : r.ReadContext = .DefaultRead r.Schema := by
    simp only [resourceKinds, List.mem_cons, List.mem_singleton, List.not_mem_nil,
      or_false] at hr
    rcases hr with rfl | rfl | rfl <;> rfl
  refine ⟨himp, hread, ?_⟩
  intro identity
  have hstate : importState r identity = .ok [{ Id := identity, attributes := [] }] := by
    simp only [importState, himp, StateContextFunc.run, ImportStatePassthroughContext]
  refine ⟨hstate, ?_⟩
  intro Dev rc c dev
  simp only [Import, hstate, hread, CrudHandler.table, List.mapM_cons, List.mapM_nil]
  cases Read rc c r.Schema dev identity <;> rfl

/-- C9, at a concrete input: importing the ethernet interface `ether1`. -/
theorem import_is_passthrough_witness :
    ResourceInterfaceEthernet ∈ resourceKinds ∧
    importState ResourceInterfaceEthernet "ether1" = .ok [{ Id := "ether1", attributes := [] }] :=
  ⟨by decide, ((import_is_passthrough ResourceInterfaceEthernet (by decide)).2.2 "ether1").1⟩

/-- C10: each of the three tables declares exactly one entry under `MetaId` and exactly
one under `MetaResourcePath`; the identity entry is `PropId(Name)`, which binds the
identity to the property `name`; `name` is declared `PropNameForceNewRw`, flagged
`ForceNew`, of mutability write-once/force-replace; so every update the engine accepts
leaves the identity property as observed: the identity cannot change in place. -/
theorem identity_is_the_force_new_name :
    remotePathOf ResourceInterfaceEthernet.Schema = "/interface/ethernet" ∧
    remotePathOf ResourceInterfaceWireless.Schema = "/interface/wireless" ∧
    remotePathOf ResourceInterfaceWirelessSecurityProfiles.Schema
      = "/interface/wireless/security-profiles" ∧
    ∀ r ∈ resourceKinds,
      (r.Schema.map Prod.fst).count MetaId = 1 ∧
      (r.Schema.map Prod.fst).count MetaResourcePath = 1 ∧
      r.Schema.lookup MetaId = some (PropId .Name) ∧
      identityPropertyOf r.Schema = "name" ∧
      r.Schema.lookup "name" = some PropNameForceNewRw ∧
      PropNameForceNewRw.ForceNew = true ∧
      PropNameForceNewRw.mutability = .WriteOnceForceReplace ∧
      ∀ (c : Codec) (identity : String) (observed desired : State) (calls : List SetCall),
        planUpdate c r.Schema identity observed desired = .apply calls →
          observed.lookup (identityPropertyOf r.Schema)
            = desired.lookup (identityPropertyOf r.Schema) := by
  refine ⟨by decide, by decide, by decide, ?_⟩
  intro r hr
  have hfacts : (r.Schema.map Prod.fst).count MetaId = 1 ∧
      (r.Schema.map Prod.fst).count MetaResourcePath = 1 ∧
      r.Schema.lookup MetaId = some (PropId .Name) ∧
      identityPropertyOf r.Schema = "name" ∧
      r.Schema.lookup "name" = some PropNameForceNewRw ∧
      ("name", PropNameForceNewRw) ∈ (descriptorOf r.Schema).properties := by
    simp only [resourceKinds, List.mem_cons, List.mem_singleton, List.not_mem_nil,
      or_false] at hr
    rcases hr with rfl | rfl | rfl <;> decide
  obtain ⟨h1, h2, h3, h4, h5, h6⟩ := hfacts
  refine ⟨h1, h2, h3, h4, h5, by decide, by decide, ?_⟩
  intro c identity observed desired calls hplan
  rw [h4]
  by_contra hne
  have hconf := planUpdate_conflict c r.Schema identity observed desired
    ("name", PropNameForceNewRw) h6 (by decide)
    (by rw [sameValue_of_not_list _ (by decide)]; simpa using hne)
  rw [hconf] at hplan
  exact absurd hplan (by simp)

/-- C10, at a concrete input: an update of a security profile that keeps the name and
changes the mode is accepted and carries the mode alone. -/
theorem identity_is_the_force_new_name_witness :
    ResourceInterfaceWirelessSecurityProfiles ∈ resourceKinds ∧
    planUpdate wireCodec ResourceInterfaceWirelessSecurityProfiles.Schema "profile1"
        [("name", .str "profile1"), ("mode", .str "none")]
        [("name", .str "profile1"), ("mode", .str "dynamic-keys")]
      = .apply [{ path := "/interface/wireless/security-profiles", identity := "profile1",
                  fields := [("mode", "dynamic-keys")] }] ∧
    ([("name", .str "profile1"), ("mode", .str "none")] : State).lookup
        (identityPropertyOf ResourceInterfaceWirelessSecurityProfiles.Schema)
      = ([("name", .str "profile1"), ("mode", .str "dynamic-keys")] : State).lookup
        (identityPropertyOf ResourceInterfaceWirelessSecurityProfiles.Schema) :=
  ⟨by decide, by decide,
    (identity_is_the_force_new_name.2.2.2 ResourceInterfaceWirelessSecurityProfiles
      (by decide)).2.2.2.2.2.2.2 wireCodec "profile1"
      [("name", .str "profile1"), ("mode", .str "none")]
      [("name", .str "profile1"), ("mode", .str "dynamic-keys")]
      [{ path := "/interface/wireless/security-profiles", identity := "profile1",
         fields := [("mode", "dynamic-keys")] }] (by decide)⟩

/-- C11: within each of the three tables the keys are pairwise distinct, the keys written
as string literals and the keys written as `Meta*` or `Key*` constants taken together. The
tables have 27, 96 and 39 entries, of which 7, 9 and 3 are keyed by a constant. -/
theorem table_keys_are_distinct :
    (ResourceInterfaceEthernet.resSchema.map Prod.fst).Nodup ∧
    (ResourceInterfaceWireless.resSchema.map Prod.fst).Nodup ∧
    (ResourceInterfaceWirelessSecurityProfiles.resSchema.map Prod.fst).Nodup ∧
    ResourceInterfaceEthernet.resSchema.length = 27 ∧
    ResourceInterfaceWireless.resSchema.length = 96 ∧
    ResourceInterfaceWirelessSecurityProfiles.resSchema.length = 39 ∧
    ResourceInterfaceEthernet.constantKeys ⊆ ResourceInterfaceEthernet.resSchema.map Prod.fst ∧
    ResourceInterfaceWireless.constantKeys ⊆ ResourceInterfaceWireless.resSchema.map Prod.fst ∧
    ResourceInterfaceWirelessSecurityProfiles.constantKeys
      ⊆ ResourceInterfaceWirelessSecurityProfiles.resSchema.map Prod.fst ∧
    ResourceInterfaceEthernet.constantKeys.length = 7 ∧
    ResourceInterfaceWireless.constantKeys.length = 9 ∧
    ResourceInterfaceWirelessSecurityProfiles.constantKeys.length = 3 := by
  refine ⟨by decide, by decide, by decide, by decide, by decide, by decide, ?_, ?_, ?_,
    by decide, by decide, by decide⟩
  · intro k hk
    revert k
    decide
  · intro k hk
    revert k
    decide
  · intro k hk
    revert k
    decide

/-- A value that passes the validation of a flat descriptor is flat: a scalar, or a list
whose elements are strings or integers. -/
theorem flat_of_validateValue (s : Schema) (hs : s.isFlat = true) (v : Value)
    (hv : validateValue s v = true) : v.isFlat = true := by
  cases v with
  | bool b => rfl
  | int i => rfl
  | str t => rfl
  | list xs =>
    simp only [Value.isFlat, List.all_eq_true]
    intro x hx
    simp only [validateValue, Bool.and_eq_true, List.all_eq_true, decide_eq_true_eq] at hv
    obtain ⟨hty, _, hall⟩ := hv
    have hx2 := hall x hx
    unfold Schema.isFlat at hs
    cases hT : s.Typ <;> simp only [hT] at hs hty <;> simp [typeMatches] at hty hs
    cases hE : s.Elem with
    | none => simp [hE] at hs
    | some el =>
      simp only [hE, validateElem, Bool.and_eq_true] at hx2 hs
      have hs2 : el.Typ = .TypeString ∨ el.Typ = .TypeInt := by simpa using hs
      rcases hs2 with h | h
      · rw [h] at hx2
        cases x <;> simp [scalarTypeMatches, Scalar.isStringOrInt] at hx2 ⊢
      · rw [h] at hx2
        cases x <;> simp [scalarTypeMatches, Scalar.isStringOrInt] at hx2 ⊢

set_option maxRecDepth 8000 in
/-- C12: every entry of the three tables has value type bool, int, string or list, every
list has an element schema of type string or int, and no set, map or float occurs; so a
value that passes the validation of an entry is a scalar or a list of strings or of
integers, and the state of an instance is flat apart from such lists. -/
theorem table_types_are_flat :
    ∀ r ∈ resourceKinds, ∀ e ∈ r.Schema,
      (e.2.Typ = .TypeBool ∨ e.2.Typ = .TypeInt ∨ e.2.Typ = .TypeString ∨
        e.2.Typ = .TypeList) ∧
      (e.2.Typ = .TypeList →
        ∃ el, e.2.Elem = some el ∧ (el.Typ = .TypeString ∨ el.Typ = .TypeInt)) ∧
      e.2.Typ ≠ .TypeSet ∧ e.2.Typ ≠ .TypeMap ∧ e.2.Typ ≠ .TypeFloat ∧
      ∀ v : Value, validateValue e.2 v = true → v.isFlat = true := by
  intro r hr e he
  have hflat : e.2.isFlat = true := by
    have hall : ∀ a ∈ r.Schema, a.2.isFlat = true := by
      simp only [resourceKinds, List.mem_cons, List.mem_singleton, List.not_mem_nil,
        or_false] at hr
      rcases hr with rfl | rfl | rfl <;> decide
    exact hall e he
  refine ⟨?_, ?_, ?_, ?_, ?_, fun v hv => flat_of_validateValue e.2 hflat v hv⟩
  · unfold Schema.isFlat at hflat
    cases hT : e.2.Typ <;> simp [hT] at hflat ⊢
  · intro hT
    unfold Schema.isFlat at hflat
    simp only [hT] at hflat
    cases hE : e.2.Elem with
    | none => simp [hE] at hflat
    | some el => exact ⟨el, rfl, by simpa [hE] using hflat⟩
  · intro hT
    simp [Schema.isFlat, hT] at hflat
  · intro hT
    simp [Schema.isFlat, hT] at hflat
  · intro hT
    simp [Schema.isFlat, hT] at hflat

/-- C12, at a concrete input: the wireless list `ampdu_priorities`, whose elements are
integers. -/
theorem table_types_are_flat_witness :
    ResourceInterfaceWireless ∈ resourceKinds ∧
    ("ampdu_priorities",
      ({ Typ := .TypeList, Optional := true,
         Elem := some { Typ := .TypeInt, ValidateFunc := some (.IntBetween 0 7) } } : Schema))
      ∈ ResourceInterfaceWireless.Schema ∧
    ∃ el : ElemSchema,
      some ({ Typ := .TypeInt, ValidateFunc := some (.IntBetween 0 7) } : ElemSchema) = some el ∧
      (el.Typ = .TypeString ∨ el.Typ = .TypeInt) :=
  ⟨by decide, by decide,
    (table_types_are_flat ResourceInterfaceWireless (by decide)
      ("ampdu_priorities",
        { Typ := .TypeList, Optional := true,
          Elem := some { Typ := .TypeInt, ValidateFunc := some (.IntBetween 0 7) } })
      (by decide)).2.1 rfl⟩

/-- A descriptor is computed-only exactly when it is computed and neither optional nor
required. -/
theorem mutability_readOnly_iff (s : Schema) :
    s.mutability = .ReadOnly ↔
      (s.Computed = true ∧ s.Optional = false ∧ s.Required = false) := by
  unfold Schema.mutability
  cases s.Computed <;> cases s.Optional <;> cases s.Required <;> cases s.ForceNew <;> simp

set_option maxRecDepth 8000 in
/-- C13: every entry whose descriptor is written out in one of the three tables (144 of
them) sets at least one of `Required`, `Optional`, `Computed`, never sets `Required`
together with `Optional` or together with `Computed`, falls in exactly one mutability
class, and is `ReadOnly` exactly when it is `Computed` with neither `Optional` nor
`Required`. -/
theorem literal_entries_have_one_mutability :
    literalEntries.length = 144 ∧
    ∀ e ∈ literalEntries,
      (e.2.Required = true ∨ e.2.Optional = true ∨ e.2.Computed = true) ∧
      ¬ (e.2.Required = true ∧ e.2.Optional = true) ∧
      ¬ (e.2.Required = true ∧ e.2.Computed = true) ∧
      (∃! m : Mutability, e.2.mutability = m) ∧
      (e.2.mutability = .ReadOnly ↔
        (e.2.Computed = true ∧ e.2.Optional = false ∧ e.2.Required = false)) := by
  refine ⟨by decide, ?_⟩
  intro e he
  have hwf : e.2.flagsWellFormed = true := by
    have hall : ∀ a ∈ literalEntries, a.2.flagsWellFormed = true := by decide
    exact hall e he
  simp only [Schema.flagsWellFormed, Bool.and_eq_true, Bool.or_eq_true, Bool.not_eq_true',
    Bool.and_eq_false_imp] at hwf
  obtain ⟨⟨h1, h2⟩, h3⟩ := hwf
  refine ⟨?_, ?_, ?_, ⟨e.2.mutability, rfl, fun m hm => hm.symm⟩, mutability_readOnly_iff e.2⟩
  · rcases h1 with (h | h) | h
    · exact Or.inl h
    · exact Or.inr (Or.inl h)
    · exact Or.inr (Or.inr h)
  · rintro ⟨hr, ho⟩
    rw [h2 hr] at ho
    exact absurd ho (by simp)
  · rintro ⟨hr, hc⟩
    rw [h3 hr] at hc
    exact absurd hc (by simp)

/-- C13, at a concrete input: the security-profile entry `default`, computed and neither
optional nor required, is `ReadOnly`. -/
theorem literal_entries_have_one_mutability_witness :
    ("default", ({ Typ := .TypeString, Computed := true } : Schema)) ∈ literalEntries ∧
    ({ Typ := .TypeString, Computed := true } : Schema).mutability = .ReadOnly :=
  ⟨by decide,
    ((literal_entries_have_one_mutability.2
      ("default", { Typ := .TypeString, Computed := true }) (by decide)).2.2.2.2).mpr
      ⟨rfl, rfl, rfl⟩⟩

/-- C14 (the code departs from the claim): the security-profile table declares
`authentication_types` as the ordered `TypeList`, not as a set. The two orders of
`wpa-psk`, `wpa2-psk` therefore do not agree, and the update between them plans a set
call that replaces the list; under `TypeSet` the same two values would agree. -/
theorem authentication_types_is_declared_ordered :
    ResourceInterfaceWirelessSecurityProfiles.resSchema.lookup "authentication_types"
      = some authenticationTypesSchema ∧
    authenticationTypesSchema.Typ = .TypeList ∧
    sameValue authenticationTypesSchema
      (profileObserved.lookup "authentication_types")
      (profileReordered.lookup "authentication_types") = false ∧
    planUpdate wireCodec ResourceInterfaceWirelessSecurityProfiles.resSchema "profile1"
        profileObserved profileReordered
      = .apply [{ path := "/interface/wireless/security-profiles", identity := "profile1",
                  fields := [("authentication_types", "wpa2-psk,wpa-psk")] }] ∧
    sameValue { authenticationTypesSchema with Typ := .TypeSet }
      (profileObserved.lookup "authentication_types")
      (profileReordered.lookup "authentication_types") = true := by
  refine ⟨by decide, rfl, by decide, by decide, by decide⟩

/-- C15 (the code departs from the claim): the validator of the ethernet property
`advertise` is a `StringInSlice`; it accepts each listed mode alone and rejects a
candidate that names two of them, so a desired state with
`advertise = "10M-full,100M-full"` fails validation on `advertise`. -/
theorem advertise_rejects_multiple_options :
    ResourceInterfaceEthernet.resSchema.lookup "advertise"
      = some { Typ := .TypeString, Optional := true,
               ValidateFunc := some advertiseValidator } ∧
    advertiseValidator.accepts (.str "10M-full") = true ∧
    advertiseValidator.accepts (.str "100M-full") = true ∧
    advertiseValidator.accepts (.str "10M-full,100M-full") = false ∧
    validate ResourceInterfaceEthernet.resSchema
      [("name", .str "ether1"), ("advertise", .str "10M-full,100M-full")] = ["advertise"] ∧
    validate ResourceInterfaceEthernet.resSchema
      [("name", .str "ether1"), ("advertise", .str "10M-full")] = [] := by
  refine ⟨by decide, by decide, by decide, by decide, by decide, by decide⟩

/-- A case-sensitive `StringInSlice` accepts a string exactly when it is listed. -/
theorem stringInSlice_accepts_iff (valid : List String) (s : String) :
    (Validator.StringInSlice valid false).accepts (.str s) = true ↔ s ∈ valid := by
  simp [Validator.accepts, List.any_eq_true]

/-- C16: the security-profile table declares `mode` as a required string whose validator is
the case-sensitive `StringInSlice` of `none`, `static-keys-optional`,
`static-keys-required`, `dynamic-keys`; the validator accepts a string if and only if it
is exactly one of the four, so `static-keys-required` is accepted and a different
capitalisation is not, and a desired state without `mode` fails validation. -/
theorem mode_is_required_and_enumerated :
    ResourceInterfaceWirelessSecurityProfiles.resSchema.lookup "mode"
      = some { Typ := .TypeString, Required := true, ValidateFunc := some modeValidator } ∧
    (∀ s : String, modeValidator.accepts (.str s) = true ↔
      s ∈ ["none", "static-keys-optional", "static-keys-required", "dynamic-keys"]) ∧
    modeValidator.accepts (.str "static-keys-required") = true ∧
    modeValidator.accepts (.str "Static-Keys-Required") = false ∧
    (∀ x : Scalar, modeValidator.accepts x = true → ∃ s, x = .str s) ∧
    validateProperty
      { Typ := .TypeString, Required := true, ValidateFunc := some modeValidator } none
      = false ∧
    validateProperty
      { Typ := .TypeString, Required := true, ValidateFunc := some modeValidator }
      (some (.str "static-keys-required")) = true := by
  refine ⟨by decide, fun s => stringInSlice_accepts_iff _ s, by decide, by decide, ?_,
    by decide, by decide⟩
  intro x hx
  cases x with
  | str s => exact ⟨s, rfl⟩
  | bool b => simp [modeValidator, Validator.accepts] at hx
  | int i => simp [modeValidator, Validator.accepts] at hx

/-- C16, at a concrete input: `dynamic-keys` is listed, so it is accepted. -/
theorem mode_is_required_and_enumerated_witness :
    "dynamic-keys" ∈ ["none", "static-keys-optional", "static-keys-required", "dynamic-keys"] ∧
    modeValidator.accepts (.str "dynamic-keys") = true :=
  ⟨by decide, (mode_is_required_and_enumerated.2.1 "dynamic-keys").mpr (by decide)⟩

/-- A property that fails validation is named among the failures. -/
theorem mem_validate_of_invalid (t : Table) (desired : State) (e : String × Schema)
    (he : e ∈ (descriptorOf t).properties)
    (hinv : validateProperty e.2 (desired.lookup e.1) = false) :
    e.1 ∈ validate t desired := by
  unfold validate
  rw [List.mem_filterMap]
  exact ⟨e, he, by simp [hinv]⟩

/-- A create of a desired state that fails validation is refused with the failures,
whatever the remote client and the device. -/
theorem Create_of_invalid {Dev : Type} (rc : RemoteClient Dev) (c : Codec) (t : Table)
    (dev : Dev) (desired : State) (h : validate t desired ≠ []) :
    Create rc c t dev desired = .error (.ValidationError (validate t desired)) := by
  unfold Create
  cases hv : validate t desired with
  | nil => exact absurd hv h
  | cons p ps => rfl

/-- An update of a desired state that fails validation is refused, with `ConflictForceNew`
or with the failures, whatever the remote client and the device. -/
theorem Update_of_invalid {Dev : Type} (rc : RemoteClient Dev) (c : Codec) (t : Table)
    (dev : Dev) (identity : String) (observed desired : State) (h : validate t desired ≠ []) :
    Update rc c t dev identity observed desired = .error .ConflictForceNew ∨
    Update rc c t dev identity observed desired
      = .error (.ValidationError (validate t desired)) := by
  unfold Update
  cases hp : planUpdate c t identity observed desired with
  | ConflictForceNew => exact Or.inl rfl
  | apply calls =>
    right
    cases hv : validate t desired with
    | nil => exact absurd hv h
    | cons p ps => rfl

/-- What the validation of `authentication_types` asks of a candidate: a list with at least
one element, each one of the four listed types. -/
theorem validate_authenticationTypes (o : Option Value) :
    validateProperty authenticationTypesSchema o = true ↔
      ∃ xs, o = some (.list xs) ∧ 1 ≤ xs.length ∧ ∀ x ∈ xs, x ∈ authenticationTypes := by
  have helem : ∀ x : Scalar,
      validateElem authenticationTypesSchema.Elem x = true ↔ x ∈ authenticationTypes := by
    intro x
    cases x with
    | bool b => simp [authenticationTypesSchema, validateElem, scalarTypeMatches,
        authenticationTypes]
    | int i => simp [authenticationTypesSchema, validateElem, scalarTypeMatches,
        authenticationTypes]
    | str s =>
      simp [authenticationTypesSchema, validateElem, scalarTypeMatches, acceptsOpt,
        Validator.accepts, authenticationTypes]
  cases o with
  | none => simp [validateProperty, authenticationTypesSchema]
  | some v =>
    cases v with
    | bool b => simp [validateProperty, validateValue, typeMatches, authenticationTypesSchema]
    | int i => simp [validateProperty, validateValue, typeMatches, authenticationTypesSchema]
    | str s => simp [validateProperty, validateValue, typeMatches, authenticationTypesSchema]
    | list xs =>
      simp only [validateProperty, validateValue, Bool.and_eq_true, List.all_eq_true,
        decide_eq_true_eq, helem]
      constructor
      · rintro ⟨_, hlen, hall⟩
        exact ⟨xs, rfl, hlen, hall⟩
      · rintro ⟨ys, hys, hlen, hall⟩
        simp only [Option.some.injEq, Value.list.injEq] at hys
        subst hys
        exact ⟨rfl, hlen, hall⟩

/-- C17: a security-profile desired state that passes validation sets
`authentication_types` to a list with at least one element, each exactly one of `wpa-psk`,
`wpa2-psk`, `wpa-eap`, `wpa2-eap`; and when the list is missing, is empty or holds any
other element, the state fails validation on `authentication_types`, a create is refused
with the validation error, and an update is refused too (with `ConflictForceNew` if the
name changed, with the validation error otherwise), whatever the remote client would
answer: no remote call is issued. -/
theorem authentication_types_is_validated :
    ResourceInterfaceWirelessSecurityProfiles.resSchema.lookup "authentication_types"
      = some authenticationTypesSchema ∧
    ∀ desired : State,
      (validate ResourceInterfaceWirelessSecurityProfiles.resSchema desired = [] →
        ∃ xs, desired.lookup "authentication_types" = some (.list xs) ∧ 1 ≤ xs.length ∧
          ∀ x ∈ xs, x ∈ authenticationTypes) ∧
      ((desired.lookup "authentication_types" = none ∨
        desired.lookup "authentication_types" = some (.list []) ∨
        ∃ xs x, desired.lookup "authentication_types" = some (.list xs) ∧ x ∈ xs ∧
          x ∉ authenticationTypes) →
        "authentication_types"
          ∈ validate ResourceInterfaceWirelessSecurityProfiles.resSchema desired ∧
        ∀ (Dev : Type) (rc : RemoteClient Dev) (c : Codec) (dev : Dev),
          Create rc c ResourceInterfaceWirelessSecurityProfiles.resSchema dev desired
            = .error (.ValidationError
                (validate ResourceInterfaceWirelessSecurityProfiles.resSchema desired)) ∧
          ∀ (identity : String) (observed : State),
            Update rc c ResourceInterfaceWirelessSecurityProfiles.resSchema dev identity
                observed desired = .error .ConflictForceNew ∨
            Update rc c ResourceInterfaceWirelessSecurityProfiles.resSchema dev identity
                observed desired
              = .error (.ValidationError
                  (validate ResourceInterfaceWirelessSecurityProfiles.resSchema desired))) := by
  have hmem : ("authentication_types", authenticationTypesSchema)
      ∈ (descriptorOf ResourceInterfaceWirelessSecurityProfiles.resSchema).properties := by
    decide
  refine ⟨by decide, ?_⟩
  intro desired
  constructor
  · intro hvalid
    exact (validate_authenticationTypes _).mp
      ((validate_eq_nil_iff _ desired).mp hvalid _ hmem)
  · intro hbad
    have hinv : validateProperty authenticationTypesSchema
        (desired.lookup "authentication_types") = false := by
      by_contra hne
      have hok : validateProperty authenticationTypesSchema
          (desired.lookup "authentication_types") = true := by simpa using hne
      obtain ⟨ys, hys, hlen, hall⟩ := (validate_authenticationTypes _).mp hok
      rcases hbad with h | h | ⟨xs, x, h, hx, hnot⟩
      · rw [h] at hys
        exact absurd hys (by simp)
      · rw [h] at hys
        simp only [Option.some.injEq, Value.list.injEq] at hys
        subst hys
        exact absurd hlen (by simp)
      · rw [h] at hys
        simp only [Option.some.injEq, Value.list.injEq] at hys
        subst hys
        exact hnot (hall x hx)
    have hin := mem_validate_of_invalid
      ResourceInterfaceWirelessSecurityProfiles.resSchema desired _ hmem hinv
    have hne : validate ResourceInterfaceWirelessSecurityProfiles.resSchema desired ≠ [] :=
      List.ne_nil_of_mem hin
    exact ⟨hin, fun Dev rc c dev =>
      ⟨Create_of_invalid rc c _ dev desired hne,
        fun identity observed => Update_of_invalid rc c _ dev identity observed desired hne⟩⟩

/-- C17, at concrete inputs: a profile with `wpa2-psk` passes validation, and the create of
a profile with an empty list is refused on the empty store with the validation error on
`authentication_types`. -/
theorem authentication_types_is_validated_witness :
    validate ResourceInterfaceWirelessSecurityProfiles.resSchema profileValid = [] ∧
    (∃ xs, profileValid.lookup "authentication_types" = some (.list xs) ∧ 1 ≤ xs.length ∧
      ∀ x ∈ xs, x ∈ authenticationTypes) ∧
    profileWithoutTypes.lookup "authentication_types" = some (.list []) ∧
    validate ResourceInterfaceWirelessSecurityProfiles.resSchema profileWithoutTypes
      = ["authentication_types"] ∧
    Create (storeClient "name") wireCodec ResourceInterfaceWirelessSecurityProfiles.resSchema
        [] profileWithoutTypes
      = .error (.ValidationError
          (validate ResourceInterfaceWirelessSecurityProfiles.resSchema profileWithoutTypes)) :=
  ⟨by decide,
    (authentication_types_is_validated.2 profileValid).1 (by decide),
    by decide, by decide,
    (((authentication_types_is_validated.2 profileWithoutTypes).2
      (Or.inr (Or.inl (by decide)))).2 Store (storeClient "name") wireCodec []).1⟩

/-- C18: for each of the three resource kinds the create, read, update and delete handlers
are `DefaultCreate`, `DefaultRead`, `DefaultUpdate` and `DefaultDelete` on the very table
that is published as the schema of the kind; each resource is the data-driven resource of
its table, so it carries nothing of its own besides the table, and two kinds with the same
table would be the same resource. -/
theorem handlers_are_generic :
    ResourceInterfaceEthernet.Schema = ResourceInterfaceEthernet.resSchema ∧
    ResourceInterfaceWireless.Schema = ResourceInterfaceWireless.resSchema ∧
    ResourceInterfaceWirelessSecurityProfiles.Schema
      = ResourceInterfaceWirelessSecurityProfiles.resSchema ∧
    ∀ r ∈ resourceKinds,
      r.CreateContext = .DefaultCreate r.Schema ∧
      r.ReadContext = .DefaultRead r.Schema ∧
      r.UpdateContext = .DefaultUpdate r.Schema ∧
      r.DeleteContext = .DefaultDelete r.Schema ∧
      r = dataDrivenResource r.Schema ∧
      ∀ r2 ∈ resourceKinds, r.Schema = r2.Schema → r = r2 := by
  refine ⟨rfl, rfl, rfl, ?_⟩
  intro r hr
  have hgen : ∀ a ∈ resourceKinds, a = dataDrivenResource a.Schema := by
    intro a ha
    simp only [resourceKinds, List.mem_cons, List.mem_singleton, List.not_mem_nil,
      or_false] at ha
    rcases ha with rfl | rfl | rfl <;> rfl
  have h := hgen r hr
  refine ⟨?_, ?_, ?_, ?_, h, ?_⟩
  · rw [h]; rfl
  · rw [h]; rfl
  · rw [h]; rfl
  · rw [h]; rfl
  · intro r2 hr2 hs
    rw [h, hgen r2 hr2, hs]

/-- C18, at a concrete input: the wireless resource. -/
theorem handlers_are_generic_witness :
    ResourceInterfaceWireless ∈ resourceKinds ∧
    ResourceInterfaceWireless.UpdateContext
      = .DefaultUpdate ResourceInterfaceWireless.resSchema ∧
    ResourceInterfaceWireless = dataDrivenResource ResourceInterfaceWireless.resSchema :=
  ⟨by decide,
    (handlers_are_generic.2.2.2 ResourceInterfaceWireless (by decide)).2.2.1,
    (handlers_are_generic.2.2.2 ResourceInterfaceWireless (by decide)).2.2.2.2.1⟩

/-- The text of the "not found" error is never the text of the "no id" error. -/
theorem notFound_ne_noId (name : String) : "not found: " ++ name ≠ "no id is set" := by
  intro h
  have h1 : ("not found: " : String).data
      = ['n', 'o', 't', ' ', 'f', 'o', 'u', 'n', 'd', ':', ' '] := by decide
  have h2 : ("no id is set" : String).data
      = ['n', 'o', ' ', 'i', 'd', ' ', 'i', 's', ' ', 's', 'e', 't'] := by decide
  have h3 := congrArg String.data h
  rw [String.data_append, h1, h2] at h3
  simp at h3

/-- C19, as the claim states it, fails: in a state whose root module holds the resource
without primary instance the resource is present and has no empty primary ID, yet the
check returns neither an error nor `nil`; it panics. A state without root module makes it
panic as well. -/
theorem exists_check_panics_without_primary :
    (∃ root rs, stateWithoutPrimary.RootModule = some root ∧
      root.Resources.lookup testInterfaceBondingAddress = some (some rs) ∧
      rs.Primary = none) ∧
    testAccCheckInterfaceBondingExists testInterfaceBondingAddress stateWithoutPrimary
      = .panics ∧
    testAccCheckInterfaceBondingExists testInterfaceBondingAddress stateWithoutPrimary
      ≠ .returns (.ok ()) ∧
    testAccCheckInterfaceBondingExists testInterfaceBondingAddress stateWithoutRootModule
      = .panics :=
  ⟨⟨_, _, rfl, by decide, rfl⟩, by decide, by decide, by decide⟩

/-- C19, amended: for every state and every resource address, the existence check returns
the error "not found: <address>" exactly when the state has a root module that holds no
resource under the address, the error "no id is set" exactly when the root module holds
the resource with a primary instance whose ID is the empty string, and no error exactly
when it holds the resource with a primary instance whose ID is not empty; it panics, and
returns nothing, exactly when the state has no root module or the resource under the
address or its primary instance is nil. -/
theorem exists_check_by_cases :
    ∀ (s : terraform.State) (name : String),
      (testAccCheckInterfaceBondingExists name s = .returns (.error ("not found: " ++ name)) ↔
        ∃ root, s.RootModule = some root ∧ root.Resources.lookup name = none) ∧
      (testAccCheckInterfaceBondingExists name s = .returns (.error "no id is set") ↔
        ∃ root rs primary, s.RootModule = some root ∧
          root.Resources.lookup name = some (some rs) ∧ rs.Primary = some primary ∧
          primary.ID = "") ∧
      (testAccCheckInterfaceBondingExists name s = .returns (.ok ()) ↔
        ∃ root rs primary, s.RootModule = some root ∧
          root.Resources.lookup name = some (some rs) ∧ rs.Primary = some primary ∧
          primary.ID ≠ "") ∧
      (testAccCheckInterfaceBondingExists name s = .panics ↔
        s.RootModule = none ∨
        (∃ root, s.RootModule = some root ∧ root.Resources.lookup name = some none) ∨
        ∃ root rs, s.RootModule = some root ∧
          root.Resources.lookup name = some (some rs) ∧ rs.Primary = none) := by
  intro s name
  have hne := notFound_ne_noId name
  cases hroot : s.RootModule with
  | none =>
    have hval : testAccCheckInterfaceBondingExists name s = .panics := by
      simp only [testAccCheckInterfaceBondingExists, hroot]
    rw [hval]
    simp
  | some root =>
    cases hl : root.Resources.lookup name with
    | none =>
      have hval : testAccCheckInterfaceBondingExists name s
          = .returns (.error ("not found: " ++ name)) := by
        simp only [testAccCheckInterfaceBondingExists, hroot, hl]
      rw [hval]
      simp [hl, hne, -List.lookup_eq_none_iff]
    | some o =>
      cases o with
      | none =>
        have hval : testAccCheckInterfaceBondingExists name s = .panics := by
          simp only [testAccCheckInterfaceBondingExists, hroot, hl]
        rw [hval]
        simp [hl, -List.lookup_eq_none_iff]
      | some rs =>
        cases hp : rs.Primary with
        | none =>
          have hval : testAccCheckInterfaceBondingExists name s = .panics := by
            simp only [testAccCheckInterfaceBondingExists, hroot, hl, hp]
          rw [hval]
          simp [hl, hp, -List.lookup_eq_none_iff]
        | some primary =>
          by_cases hid : primary.ID = ""
          · have hval : testAccCheckInterfaceBondingExists name s
                = .returns (.error "no id is set") := by
              simp only [testAccCheckInterfaceBondingExists, hroot, hl, hp, hid, if_true]
            rw [hval]
            simp [hl, hp, hid, hne.symm, -List.lookup_eq_none_iff]
          · have hval : testAccCheckInterfaceBondingExists name s = .returns (.ok ()) := by
              simp only [testAccCheckInterfaceBondingExists, hroot, hl, hp, hid, if_false]
            rw [hval]
            simp [hl, hp, hid, -List.lookup_eq_none_iff]

/-- C19, at the acceptance test: the state after the step holds
`routeros_interface_bonding.test` with the primary ID `bonding-test`, and the check
returns no error. -/
theorem exists_check_by_cases_witness :
    (∃ root rs primary, stateAfterApply.RootModule = some root ∧
      root.Resources.lookup testInterfaceBondingAddress = some (some rs) ∧
      rs.Primary = some primary ∧ primary.ID ≠ "") ∧
    testAccCheckInterfaceBondingExists testInterfaceBondingAddress stateAfterApply
      = .returns (.ok ()) :=
  ⟨⟨_, { Primary := some { ID := "bonding-test" } }, { ID := "bonding-test" }, rfl,
      by decide, rfl, by decide⟩,
    ((exists_check_by_cases stateAfterApply testInterfaceBondingAddress).2.2.1).mpr
      ⟨_, { Primary := some { ID := "bonding-test" } }, { ID := "bonding-test" }, rfl,
        by decide, rfl, by decide⟩⟩

/-- A name made of the prefix `p` and the rest `x` is among the names exactly when `x` is
among the suffixes after `p`. -/
theorem mem_suffixesAfter (p x : String) (names : List String) :
    x ∈ suffixesAfter p names ↔ p ++ x ∈ names := by
  simp only [suffixesAfter, List.mem_filterMap, Option.map_eq_some']
  constructor
  · rintro ⟨k, hk, l, hl, rfl⟩
    rw [List.dropPrefix?_eq_some_iff] at hl
    obtain ⟨q, hq, hqp⟩ := hl
    have hqp2 : q = p.data := by simpa using hqp
    have : p ++ String.mk l = k := by
      apply String.ext
      rw [String.data_append, hq, hqp2]
    rw [this]
    exact hk
  · intro h
    refine ⟨p ++ x, h, x.data, ?_, rfl⟩
    rw [List.dropPrefix?_eq_some_iff]
    exact ⟨p.data, by rw [String.data_append], by simp⟩

/-- C20: the validator of `static_transmit_key` accepts exactly `key-0`, `key-1`, `key-2`,
`key-3`; and for every suffix, so for the decimal text of every number N, `key-N` is
accepted if and only if the table declares both `static_key_N` and `static_algo_N`: the
slots declared are those with the suffixes 0, 1, 2, 3. -/
theorem static_transmit_key_matches_slots :
    ResourceInterfaceWirelessSecurityProfiles.resSchema.lookup "static_transmit_key"
      = some { Typ := .TypeString, Optional := true, Computed := true,
               ValidateFunc := some staticTransmitKeyValidator } ∧
    (∀ s : String, staticTransmitKeyValidator.accepts (.str s) = true ↔
      s ∈ ["key-0", "key-1", "key-2", "key-3"]) ∧
    suffixesAfter "static_key_" securityProfileNames = ["0", "1", "2", "3"] ∧
    suffixesAfter "static_algo_" securityProfileNames = ["0", "1", "2", "3"] ∧
    (∀ x : String, staticTransmitKeyValidator.accepts (.str ("key-" ++ x)) = true ↔
      ("static_key_" ++ x ∈ securityProfileNames ∧
        "static_algo_" ++ x ∈ securityProfileNames)) ∧
    ∀ N : Nat, staticTransmitKeyValidator.accepts (.str ("key-" ++ toString N)) = true ↔
      ("static_key_" ++ toString N ∈ securityProfileNames ∧
        "static_algo_" ++ toString N ∈ securityProfileNames) := by
  have hkeys : suffixesAfter "static_key_" securityProfileNames = ["0", "1", "2", "3"] := by
    decide
  have halgo : suffixesAfter "static_algo_" securityProfileNames = ["0", "1", "2", "3"] := by
    decide
  have hacc : suffixesAfter "key-" ["key-0", "key-1", "key-2", "key-3"]
      = ["0", "1", "2", "3"] := by decide
  have hx : ∀ x : String, staticTransmitKeyValidator.accepts (.str ("key-" ++ x)) = true ↔
      ("static_key_" ++ x ∈ securityProfileNames ∧
        "static_algo_" ++ x ∈ securityProfileNames) := by
    intro x
    rw [staticTransmitKeyValidator, stringInSlice_accepts_iff, ← mem_suffixesAfter,
      ← mem_suffixesAfter, ← mem_suffixesAfter, hkeys, halgo, hacc]
    exact ⟨fun h => ⟨h, h⟩, fun h => h.1⟩
  exact ⟨by decide, fun s => stringInSlice_accepts_iff _ s, hkeys, halgo, hx,
    fun N => hx (toString N)⟩

/-- C20, at concrete inputs: slot 2 is declared and `key-2` accepted; slot 4 is not
declared and `key-4` rejected. -/
theorem static_transmit_key_matches_slots_witness :
    ("static_key_" ++ toString 2 ∈ securityProfileNames ∧
      "static_algo_" ++ toString 2 ∈ securityProfileNames) ∧
    staticTransmitKeyValidator.accepts (.str ("key-" ++ toString 2)) = true ∧
    staticTransmitKeyValidator.accepts (.str "key-4") = false ∧
    "static_key_4" ∉ securityProfileNames :=
  ⟨by decide,
    (static_transmit_key_matches_slots.2.2.2.2.2 2).mpr (by decide),
    by decide, by decide⟩

/-- An `IntBetween` accepts an integer exactly when it lies in the closed range. -/
theorem intBetween_accepts_iff (min max v : Int) :
    (Validator.IntBetween min max).accepts (.int v) = true ↔ min ≤ v ∧ v ≤ max := by
  simp [Validator.accepts]

/-- C21: the wireless table declares `frequency_offset` as an optional integer validated
by `IntBetween(-2147483648, 2147483647)`; the validator accepts an integer if and only if
it lies between these bounds, which are the least and the greatest signed 32-bit value,
so negative and positive offsets are accepted. -/
theorem frequency_offset_accepts_int32 :
    ResourceInterfaceWireless.resSchema.lookup "frequency_offset"
      = some { Typ := .TypeInt, Optional := true,
               ValidateFunc := some frequencyOffsetValidator } ∧
    (∀ v : Int, frequencyOffsetValidator.accepts (.int v) = true ↔
      -2147483648 ≤ v ∧ v ≤ 2147483647) ∧
    (-2147483648 : Int) = -(2 ^ 31) ∧ (2147483647 : Int) = 2 ^ 31 - 1 ∧
    frequencyOffsetValidator.accepts (.int (-1000)) = true ∧
    frequencyOffsetValidator.accepts (.int 1000) = true ∧
    frequencyOffsetValidator.accepts (.int (-2147483649)) = false ∧
    frequencyOffsetValidator.accepts (.int 2147483648) = false := by
  refine ⟨by decide, fun v => intBetween_accepts_iff _ _ v, by norm_num, by norm_num,
    by decide, by decide, by decide, by decide⟩

/-- C21, at a concrete input: the least signed 32-bit value is accepted. -/
theorem frequency_offset_accepts_int32_witness :
    ((-2147483648 : Int) ≤ -2147483648 ∧ (-2147483648 : Int) ≤ 2147483647) ∧
    frequencyOffsetValidator.accepts (.int (-2147483648)) = true :=
  ⟨by decide, (frequency_offset_accepts_int32.2.1 (-2147483648)).mpr (by decide)⟩

set_option maxRecDepth 16000 in
/-- C22 (the code departs from the claim): of the 88 validators of the three tables, the
one enumerated-string validator whose list names a value twice is that of the wireless
`proprietary_extensions`: its list has two entries, both `post-2.9.25`, so it accepts
exactly one string and rejects `pre-2.9.25`; every other enumerated list is free of
repetitions. -/
theorem proprietary_extensions_repeats_its_value :
    allValidators.length = 88 ∧
    withRepeatedValue allValidators
      = [("proprietary_extensions", proprietaryExtensionsValidator)] ∧
    ResourceInterfaceWireless.resSchema.lookup "proprietary_extensions"
      = some { Typ := .TypeString, Optional := true,
               ValidateFunc := some proprietaryExtensionsValidator } ∧
    proprietaryExtensionsValidator.allowed = some ["post-2.9.25", "post-2.9.25"] ∧
    ¬ (["post-2.9.25", "post-2.9.25"] : List String).Nodup ∧
    (∀ s : String, proprietaryExtensionsValidator.accepts (.str s) = true ↔
      s = "post-2.9.25") ∧
    proprietaryExtensionsValidator.accepts (.str "pre-2.9.25") = false := by
  refine ⟨by decide, by decide, by decide, rfl, by decide, ?_, by decide⟩
  intro s
  rw [proprietaryExtensionsValidator, stringInSlice_accepts_iff]
  simp

set_option maxRecDepth 16000 in
/-- C23 (the code departs from the claim): of the 143 property names the three tables
write as string literals, all but one are made of lowercase ASCII letters, digits and
underscores; the exception is the ethernet name `sfp_shutdown-temperature`, which holds a
hyphen. -/
theorem sfp_shutdown_temperature_has_a_hyphen :
    allLiteralKeys.length = 143 ∧
    allLiteralKeys.filter (fun k => !isFieldName k) = ["sfp_shutdown-temperature"] ∧
    ResourceInterfaceEthernet.resSchema.lookup "sfp_shutdown-temperature"
      = some { Typ := .TypeInt, Optional := true } ∧
    "sfp_shutdown-temperature"
      ∈ literalKeys ResourceInterfaceEthernet.resSchema
          ResourceInterfaceEthernet.constantKeys ∧
    isFieldName "sfp_shutdown-temperature" = false ∧
    isFieldNameChar '-' = false ∧
    '-' ∈ "sfp_shutdown-temperature".toList ∧
    isFieldName "sfp_shutdown_temperature" = true := by
  refine ⟨by decide, by decide, by decide, by decide, by decide, by decide, by decide,
    by decide⟩

/-- What a sound default amounts to. -/
theorem default_of_defaultIsSound (s : Schema) (h : s.defaultIsSound = true) (d : Value)
    (hd : s.Default = some d) :
    s.Optional = true ∧ s.Required = false ∧ s.Computed = false ∧
      validateValue s d = true := by
  simp only [Schema.defaultIsSound, hd, Bool.and_eq_true, Bool.not_eq_true'] at h
  exact ⟨h.1.1.1, h.1.1.2, h.1.2, h.2⟩

set_option maxRecDepth 16000 in
/-- C24: every entry of the three tables that declares a default is optional, neither
required nor computed, and its default has the declared type and passes the validator of
the property when there is one. Among the descriptors written out in the tables the ones
with a default are the wireless `bridge_mode` (default `enabled`, one of its two allowed
values) and the security-profile `group_key_update` (default `5m`, no validator). -/
theorem defaults_are_optional_and_valid :
    (literalEntries.filter fun e => e.2.Default.isSome)
      = [("bridge_mode",
          { Typ := .TypeString, Optional := true, Default := some (.str "enabled"),
            ValidateFunc := some (.StringInSlice ["disabled", "enabled"] false) }),
         ("group_key_update",
          { Typ := .TypeString, Optional := true, Default := some (.str "5m") })] ∧
    (Validator.StringInSlice ["disabled", "enabled"] false).accepts (.str "enabled") = true ∧
    ∀ r ∈ resourceKinds, ∀ e ∈ r.Schema, ∀ d : Value, e.2.Default = some d →
      e.2.Optional = true ∧ e.2.Required = false ∧ e.2.Computed = false ∧
      validateValue e.2 d = true := by
  refine ⟨by decide, by decide, ?_⟩
  intro r hr e he d hd
  have hall : ∀ a ∈ r.Schema, a.2.defaultIsSound = true := by
    simp only [resourceKinds, List.mem_cons, List.mem_singleton, List.not_mem_nil,
      or_false] at hr
    rcases hr with rfl | rfl | rfl <;> decide
  exact default_of_defaultIsSound e.2 (hall e he) d hd

/-- C24, at a concrete input: the wireless `bridge_mode`. -/
theorem defaults_are_optional_and_valid_witness :
    ResourceInterfaceWireless ∈ resourceKinds ∧
    ("bridge_mode",
      ({ Typ := .TypeString, Optional := true, Default := some (.str "enabled"),
         ValidateFunc := some (.StringInSlice ["disabled", "enabled"] false) } : Schema))
      ∈ ResourceInterfaceWireless.Schema ∧
    validateValue
      { Typ := .TypeString, Optional := true, Default := some (.str "enabled"),
        ValidateFunc := some (.StringInSlice ["disabled", "enabled"] false) }
      (.str "enabled") = true :=
  ⟨by decide, by decide,
    (defaults_are_optional_and_valid.2.2 ResourceInterfaceWireless (by decide)
      ("bridge_mode",
        { Typ := .TypeString, Optional := true, Default := some (.str "enabled"),
          ValidateFunc := some (.StringInSlice ["disabled", "enabled"] false) })
      (by decide) (.str "enabled") rfl).2.2.2⟩

/-- C25 (the code departs from the claim): the ethernet table validates the layer-2 MTU
with `IntBetween(0, 65535)` and the wireless table with `IntBetween(0, 65536)`; the two
validators accept the closed ranges up to 65535 and up to 65536, so they differ at 65536,
which the wireless one accepts and the ethernet one rejects. -/
theorem l2mtu_validators_differ_at_65536 :
    ResourceInterfaceEthernet.resSchema.lookup "l2mtu"
      = some { Typ := .TypeInt, Optional := true,
               ValidateFunc := some ethernetL2MtuValidator } ∧
    ResourceInterfaceWireless.resSchema.lookup "l2mtu"
      = some { Typ := .TypeInt, Optional := true, Computed := true,
               ValidateFunc := some wirelessL2MtuValidator } ∧
    (∀ v : Int, ethernetL2MtuValidator.accepts (.int v) = true ↔ 0 ≤ v ∧ v ≤ 65535) ∧
    (∀ v : Int, wirelessL2MtuValidator.accepts (.int v) = true ↔ 0 ≤ v ∧ v ≤ 65536) ∧
    ethernetL2MtuValidator.accepts (.int 65536) = false ∧
    wirelessL2MtuValidator.accepts (.int 65536) = true ∧
    ethernetL2MtuValidator.accepts (.int 65535) = true ∧
    wirelessL2MtuValidator.accepts (.int 65535) = true := by
  exact ⟨by decide, by decide, fun v => intBetween_accepts_iff _ _ v,
    fun v => intBetween_accepts_iff _ _ v, by decide, by decide, by decide, by decide⟩

/-- What it means for the bounds of a validator to leave room. -/
theorem hasRoom_iff (f : Validator) :
    f.hasRoom = true ↔
      (∀ min max, f = .IntBetween min max → min ≤ max) ∧
      (∀ valid ignoreCase, f = .StringInSlice valid ignoreCase → valid ≠ []) ∧
      (∀ min max, f = .StringLenBetween min max → min ≤ max) := by
  cases f with
  | StringInSlice valid ignoreCase =>
    cases valid <;> simp [Validator.hasRoom]
  | IntBetween min max => simp [Validator.hasRoom]
  | StringLenBetween min max => simp [Validator.hasRoom]
  | IsMACAddress => simp [Validator.hasRoom]

set_option maxRecDepth 16000 in
/-- C26: every one of the 88 validators of the three tables is satisfiable. An integer
range validator accepts exactly the integers of its closed range, and each one declared
has lower bound at most the upper bound; each enumerated-string validator declared has a
non-empty list; the string length validator declared has minimum at most maximum; each
validator accepts some candidate, and for every entry of the three tables some value
passes the validation of the entry. -/
theorem validators_are_satisfiable :
    allValidators.length = 88 ∧
    (∀ (min max v : Int),
      (Validator.IntBetween min max).accepts (.int v) = true ↔ min ≤ v ∧ v ≤ max) ∧
    (∀ e ∈ allValidators,
      (∀ min max, e.2 = .IntBetween min max → min ≤ max) ∧
      (∀ valid ignoreCase, e.2 = .StringInSlice valid ignoreCase → valid ≠ []) ∧
      (∀ min max, e.2 = .StringLenBetween min max → min ≤ max) ∧
      ∃ x : Scalar, e.2.accepts x = true) ∧
    ∀ r ∈ resourceKinds, ∀ e ∈ r.Schema, ∃ v : Value, validateValue e.2 v = true := by
  refine ⟨by decide, intBetween_accepts_iff, ?_, ?_⟩
  · intro e he
    have hall : ∀ a ∈ allValidators, a.2.hasRoom = true ∧ a.2.accepts a.2.sample = true := by
      decide
    obtain ⟨hroom, hsample⟩ := hall e he
    obtain ⟨h1, h2, h3⟩ := (hasRoom_iff e.2).mp hroom
    exact ⟨h1, h2, h3, e.2.sample, hsample⟩
  · intro r hr e he
    have hall : ∀ a ∈ r.Schema, validateValue a.2 a.2.sample = true := by
      simp only [resourceKinds, List.mem_cons, List.mem_singleton, List.not_mem_nil,
        or_false] at hr
      rcases hr with rfl | rfl | rfl <;> decide
    exact ⟨e.2.sample, hall e he⟩

set_option maxRecDepth 16000 in
/-- C26, at a concrete input: the validator of the wireless `tx_power`, the range from -30
to 40. -/
theorem validators_are_satisfiable_witness :
    ("tx_power", Validator.IntBetween (-30) 40) ∈ allValidators ∧
    (-30 : Int) ≤ 40 ∧
    ∃ x : Scalar, (Validator.IntBetween (-30) 40).accepts x = true :=
  ⟨by decide,
    (validators_are_satisfiable.2.2.1 ("tx_power", .IntBetween (-30) 40) (by decide)).1
      (-30) 40 rfl,
    (validators_are_satisfiable.2.2.1 ("tx_power", .IntBetween (-30) 40)
      (by decide)).2.2.2⟩

/-- C27: the wireless table declares `ssid` with `StringLenBetween(0, 32)`; the validator
accepts a string if and only if its length in bytes is at most 32 (it is never below 0),
so the empty string and every string of 32 bytes are accepted, and every string of 33
bytes or more is rejected, also one of 32 characters or fewer: 17 letters of two bytes
each make 34 bytes. -/
theorem ssid_length_is_counted_in_bytes :
    ResourceInterfaceWireless.resSchema.lookup "ssid"
      = some { Typ := .TypeString, Optional := true, ValidateFunc := some ssidValidator } ∧
    (∀ s : String, ssidValidator.accepts (.str s) = true ↔
      (0 ≤ s.utf8ByteSize ∧ s.utf8ByteSize ≤ 32)) ∧
    ssidValidator.accepts (.str "") = true ∧
    (∀ s : String, s.utf8ByteSize = 32 → ssidValidator.accepts (.str s) = true) ∧
    (∀ s : String, 33 ≤ s.utf8ByteSize → ssidValidator.accepts (.str s) = false) ∧
    seventeenTwoByteLetters.length = 17 ∧
    seventeenTwoByteLetters.utf8ByteSize = 34 ∧
    ssidValidator.accepts (.str seventeenTwoByteLetters) = false := by
  have hiff : ∀ s : String, ssidValidator.accepts (.str s) = true ↔
      (0 ≤ s.utf8ByteSize ∧ s.utf8ByteSize ≤ 32) := by
    intro s
    simp [ssidValidator, Validator.accepts]
  refine ⟨by decide, hiff, by decide, ?_, ?_, by decide, by decide, by decide⟩
  · intro s hs
    rw [hiff]
    omega
  · intro s hs
    cases h : ssidValidator.accepts (.str s) with
    | false => rfl
    | true =>
      have := (hiff s).mp h
      omega

/-- C27, at concrete inputs: a name of 32 one-byte letters is accepted. -/
theorem ssid_length_is_counted_in_bytes_witness :
    (String.mk (List.replicate 32 'a')).utf8ByteSize = 32 ∧
    ssidValidator.accepts (.str (String.mk (List.replicate 32 'a'))) = true :=
  ⟨by decide,
    ssid_length_is_counted_in_bytes.2.2.2.1 (String.mk (List.replicate 32 'a')) (by decide)⟩

/-- C28 (the code departs from the claim): the ethernet table has no property
`disable_running_check`; it declares the running-check override as `diable_running_check`,
which maps to the device field `diable-running-check`, while the wireless table declares
`disable_running_check`, which maps to `disable-running-check`. -/
theorem ethernet_misspells_disable_running_check :
    ResourceInterfaceEthernet.resSchema.lookup "disable_running_check" = none ∧
    ResourceInterfaceEthernet.resSchema.lookup "diable_running_check"
      = some { Typ := .TypeBool, Optional := true } ∧
    ResourceInterfaceWireless.resSchema.lookup "disable_running_check"
      = some { Typ := .TypeString, Optional := true, Computed := true,
               ValidateFunc := some (.StringInSlice ["yes", "no"] false) } ∧
    ResourceInterfaceWireless.resSchema.lookup "diable_running_check" = none ∧
    SnakeToKebab "diable_running_check" = "diable-running-check" ∧
    SnakeToKebab "disable_running_check" = "disable-running-check" ∧
    "disable-running-check"
      ∉ (ResourceInterfaceEthernet.resSchema.map fun e => SnakeToKebab e.1) ∧
    "disable-running-check"
      ∈ (ResourceInterfaceWireless.resSchema.map fun e => SnakeToKebab e.1) := by
  refine ⟨by decide, by decide, by decide, by decide, by decide, by decide, by decide,
    by decide⟩

end Routeros
